import Mathlib

/-!
# x32-recorder: `audio_writer.c`, conversion of interleaved samples to 24-bit PCM

A shallow embedding of `src/audio_writer_ext/audio_writer.c`.

* Bytes (`uint8_t`) are natural numbers below 256; the cast `(uint8_t)x` is `x % 256`.
* `int32_t` values are integers; the bit pattern of an `int32_t` is its residue
  modulo `2^32` (two's complement), on which `&` acts as the bitwise "and" of naturals,
  and `>>` on a signed operand is the arithmetic shift.
* `float` is IEEE-754 binary32, evaluated in single precision, rounding to nearest,
  ties to even (`FLT_EVAL_METHOD == 0`).
* `long` and `npy_intp` are 64 bits wide (LP64); frame counts and products of
  dimensions are below `2^63`, so index arithmetic does not wrap.
* The entry points are taken from the point where `PyArg_ParseTuple` has succeeded. The
  channel loop works on the `long` that `PyLong_AsLong` returns for each item of
  `channel_indices` (`channel_longs`): the item itself when it is an integer that fits a C
  `long`, and `-1` otherwise, which the range check then rejects.
* What `malloc`, `PyBytes_FromStringAndSize` and the `write` method of each file object
  do is an input of the call (`Heap`, `FileObj`); the block returned by `malloc` holds
  arbitrary bytes.
* The outcome of a call is the sequence of calls of `write` it made together with its
  result; it is `none` when the call has undefined behaviour (the cast of a NaN).
-/

namespace AudioWriter

/-! ## Machine integers and bytes -/

/-- Bit pattern of an `int32_t` value (two's complement, 32 bits). -/
def bits32 (x : Int) : Nat := (x % 4294967296).toNat

/-- The cast `(uint8_t)x` of a non-negative `int`. -/
def u8 (x : Nat) : Nat := x % 256

/-- The C expression `x & 0xFF` for an `int32_t` operand `x`. -/
def and_0xFF (x : Int) : Nat := bits32 x &&& 0xFF

/-- The C expression `x >> n` for an `int32_t` operand `x` (arithmetic shift). -/
def sar (x : Int) (n : Nat) : Int := Int.shiftRight x n

/-- The three stores of lines 24-26 and 244-246:
`(uint8_t)(v & 0xFF)`, `(uint8_t)((v >> 8) & 0xFF)`, `(uint8_t)((v >> 16) & 0xFF)`. -/
def pack24 (sample_24 : Int) : Nat × Nat × Nat :=
  (u8 (and_0xFF sample_24), u8 (and_0xFF (sar sample_24 8)), u8 (and_0xFF (sar sample_24 16)))

/-- Lines 240-241 of `write_multichannel_24bit_int32`: the two clamping statements. -/
def clamp_to_24bit (sample_24 : Int) : Int :=
  let sample_24 := if sample_24 > 8388607 then 8388607 else sample_24
  let sample_24 := if sample_24 < -8388608 then -8388608 else sample_24
  sample_24

/-- Body of the frame loop of `write_multichannel_24bit_int32` (lines 237-246) for one
sample: clamp, then the three byte stores. -/
def int32_to_24bit (sample : Int) : Nat × Nat × Nat :=
  pack24 (clamp_to_24bit sample)

/-! ## IEEE-754 binary32 -/

/-- A binary32 datum. `fin neg m e` denotes `(-1)^neg * m * 2^e`. -/
inductive F32 where
  | nan : F32
  | inf (neg : Bool) : F32
  | fin (neg : Bool) (m : Nat) (e : Int) : F32
  deriving DecidableEq, Repr

namespace F32

/-- A finite datum is a binary32 number when its significand has at most 24 bits and its
exponent lies between that of the smallest subnormal and that of the largest number. -/
def representable : F32 → Prop
  | fin _ m e => m < 16777216 ∧ -149 ≤ e ∧ e ≤ 104
  | _ => True

instance (x : F32) : Decidable (representable x) := by
  cases x <;> unfold representable <;> infer_instance

/-- Signed significand. -/
def sgn (neg : Bool) (m : Nat) : Int := if neg then -(m : Int) else (m : Int)

/-- Significand of `fin neg m e` rescaled to the exponent `lo ≤ e`. -/
def scaled (neg : Bool) (m : Nat) (e lo : Int) : Int := sgn neg m * 2 ^ (e - lo).toNat

/-- The comparison `a < b` of C on `float` (false when an operand is NaN). -/
def lt : F32 → F32 → Bool
  | nan, _ => false
  | _, nan => false
  | inf n1, inf n2 => n1 && !n2
  | inf n1, fin _ _ _ => n1
  | fin _ _ _, inf n2 => !n2
  | fin n1 m1 e1, fin n2 m2 e2 =>
    decide (scaled n1 m1 e1 (min e1 e2) < scaled n2 m2 e2 (min e1 e2))

/-- The comparison `a > b` of C on `float`. -/
def gt (a b : F32) : Bool := lt b a

/-- The comparison `a <= b` of C on `float` (false when an operand is NaN). -/
def le : F32 → F32 → Bool
  | nan, _ => false
  | _, nan => false
  | inf n1, inf n2 => n1 || !n2
  | inf n1, fin _ _ _ => n1
  | fin _ _ _, inf n2 => !n2
  | fin n1 m1 e1, fin n2 m2 e2 =>
    decide (scaled n1 m1 e1 (min e1 e2) ≤ scaled n2 m2 e2 (min e1 e2))

/-- Number of low bits a significand must lose to fit in 24 bits. -/
def excessBits : Nat → Nat → Nat
  | 0, _ => 0
  | fuel + 1, M => if M < 16777216 then 0 else excessBits fuel (M / 2) + 1

/-- Division of `M` by `2^sh` rounded to nearest, ties to even. -/
def rne (M sh : Nat) : Nat :=
  let q := M / 2 ^ sh
  let r := M % 2 ^ sh
  if 2 * r > 2 ^ sh ∨ (2 * r = 2 ^ sh ∧ q % 2 = 1) then q + 1 else q

/-- Rounding of the exact value `(-1)^neg * M * 2^E` to binary32 (nearest, ties to even;
gradual underflow at exponent `-149`; a significand rounded up to `2^24` is renormalised;
overflow to infinity from `2^128`). -/
def roundToF32 (neg : Bool) (M : Nat) (E : Int) : F32 :=
  let sh : Nat := max (excessBits M M) (-149 - E).toNat
  let M1 := rne M sh
  let E1 : Int := E + sh
  let M2 := if M1 = 16777216 then 8388608 else M1
  let E2 : Int := if M1 = 16777216 then E1 + 1 else E1
  if M2 * 2 ^ (E2 + 149).toNat ≥ 2 ^ 128 * 2 ^ 149 then inf neg else fin neg M2 E2

/-- The product `a * b` of C on `float`. -/
def mul : F32 → F32 → F32
  | nan, _ => nan
  | _, nan => nan
  | inf n1, inf n2 => inf (xor n1 n2)
  | inf n1, fin n2 m2 _ => if m2 = 0 then nan else inf (xor n1 n2)
  | fin n1 m1 _, inf n2 => if m1 = 0 then nan else inf (xor n1 n2)
  | fin n1 m1 e1, fin n2 m2 e2 => roundToF32 (xor n1 n2) (m1 * m2) (e1 + e2)

/-- The cast `(int32_t)x` of a `float`: the fractional part is discarded; the behaviour
is undefined (`none`) when the integral part is not an `int32_t`, for infinities and for
NaN. -/
def toInt32 : F32 → Option Int
  | fin neg m e =>
    let t : Nat := if 0 ≤ e then m * 2 ^ e.toNat else m / 2 ^ (-e).toNat
    let v : Int := sgn neg t
    if -2147483648 ≤ v ∧ v ≤ 2147483647 then some v else none
  | _ => none

/-- The literal `1.0f`. -/
def one : F32 := fin false 1 0

/-- The literal `-1.0f`. -/
def negOne : F32 := fin true 1 0

/-- The literal `8388607.0f`. -/
def c8388607 : F32 := fin false 8388607 0

/-- Exact value of a finite datum. -/
def toRat : F32 → Option ℚ
  | fin neg m e => some ((sgn neg m : ℚ) * (2 : ℚ) ^ e)
  | _ => none

end F32

/-- Lines 17-18 of `float_to_24bit`: the two clamping statements. -/
def clamp_sample (sample : F32) : F32 :=
  let sample := if F32.gt sample F32.one then F32.one else sample
  let sample := if F32.lt sample F32.negOne then F32.negOne else sample
  sample

/-- Lines 15-27, `float_to_24bit(sample, output)`: the three bytes stored at `output[0..2]`,
or `none` when the cast of line 21 is undefined. -/
def float_to_24bit (sample : F32) : Option (Nat × Nat × Nat) :=
  let sample := clamp_sample sample
  match F32.toInt32 (F32.mul sample F32.c8388607) with
  | none => none
  | some sample_24 => some (pack24 sample_24)

/-! ## The Python-facing interface -/

/-- NumPy element type numbers that matter to the two entry points. -/
inductive NpyType where
  | NPY_FLOAT32 : NpyType
  | NPY_INT32 : NpyType
  | NPY_OTHER (num : Nat) : NpyType
  deriving DecidableEq, Repr

/-- The exception left set when an entry point returns `NULL`. -/
inductive PyErr where
  /-- `ValueError("audio_data must be 2D array")` -/
  | ValueError_not_2D : PyErr
  /-- `TypeError("audio_data must be float32")`, resp. `"... int32"` -/
  | TypeError_dtype (expected : NpyType) : PyErr
  /-- `TypeError("channel_indices must be a list")` -/
  | TypeError_channel_indices : PyErr
  /-- `TypeError("file_objects must be a list")` -/
  | TypeError_file_objects : PyErr
  /-- `ValueError("channel_indices and file_objects must have same length")` -/
  | ValueError_same_length : PyErr
  /-- `PyErr_NoMemory()`, also what a failed `PyBytes_FromStringAndSize` leaves set -/
  | MemoryError : PyErr
  /-- `ValueError("Invalid channel index %ld (total channels: %ld)")` -/
  | ValueError_invalid_channel (channel total_channels : Int) : PyErr
  /-- the exception object `exc` raised by the call of `write`, left untouched -/
  | raised (exc : Nat) : PyErr
  /-- `PyList_GetItem` past the end of `file_objects` (excluded by the length check) -/
  | IndexError : PyErr
  deriving DecidableEq, Repr

/-- What an entry point returns: `PyLong_FromLong(num_frames)` or `NULL` with an exception. -/
inductive PyResult where
  | ok (frames : Nat) : PyResult
  | error (e : PyErr) : PyResult
  deriving DecidableEq, Repr

/-- The array argument: element type, shape (`PyArray_NDIM` is the length of `dims`) and the
element at each flat offset of `PyArray_DATA`. -/
structure PyArray (α : Type) where
  type : NpyType
  dims : List Nat
  data : Nat → α

/-- An argument parsed with format `O`: a list, or some other object. -/
inductive PyArg (α : Type) where
  | list (items : List α) : PyArg α
  | other : PyArg α

/-- An item of the list `channel_indices`: a Python integer of any size, or another
object. -/
inductive PyItem where
  | int (n : Int) : PyItem
  | other : PyItem
  deriving DecidableEq, Repr

/-- Lines 101-102 and 224-225, `PyLong_AsLong(ch_obj)`: the value of a Python integer that
fits a C `long`; `-1` (with an exception set, which the entry points do not test) for an
integer that does not fit and for an object that is not an integer. -/
def PyLong_AsLong : PyItem → Int
  | PyItem.int n => if -9223372036854775808 ≤ n ∧ n ≤ 9223372036854775807 then n else -1
  | PyItem.other => -1

/-- The `long` values the channel loop obtains from the argument `channel_indices`. -/
def channel_longs : PyArg PyItem → PyArg Int
  | PyArg.list items => PyArg.list (items.map PyLong_AsLong)
  | PyArg.other => PyArg.other

/-- A file object: `write(bytes)` returns normally (`none`) or raises (`some exc`). -/
structure FileObj where
  write : List Nat → Option Nat

/-- Allocator behaviour during one call. -/
structure Heap where
  /-- whether `malloc(num_frames * 3)` returns a non-null pointer -/
  malloc_ok : Bool
  /-- contents of the block returned by `malloc` before anything is stored in it -/
  garbage : Nat → Nat
  /-- whether `PyBytes_FromStringAndSize` succeeds in iteration `ch_idx` -/
  bytes_ok : Nat → Bool

/-- One call of `file_obj.write(bytes_obj)`: the position `ch_idx` of the file object in
`file_objects`, the bytes passed, and the exception raised, if any. -/
structure WriteCall where
  ch_idx : Nat
  payload : List Nat
  exc : Option Nat
  deriving DecidableEq, Repr

/-- Observable outcome of a call: the calls of `write` in the order made, and the result. -/
structure Outcome where
  writes : List WriteCall
  result : PyResult
  deriving DecidableEq, Repr

/-- The block returned by `malloc(n)`. -/
def malloc_block (heap : Heap) (n : Nat) : List Nat :=
  (List.range n).map (fun i => heap.garbage i % 256)

/-- Stores of three bytes at `buffer[off]`, `buffer[off + 1]`, `buffer[off + 2]`. -/
def store3 (buffer : List Nat) (off : Nat) (b : Nat × Nat × Nat) : List Nat :=
  ((buffer.set off b.1).set (off + 1) b.2.1).set (off + 2) b.2.2

/-- The frame loop (lines 113-116 and 236-247): for `frame = 0 .. num_frames - 1` convert
`audio_data[frame * total_channels + channel]` and store the bytes at `frame * 3`. -/
def convert_channel {α : Type} (conv : α → Option (Nat × Nat × Nat)) (audio_data : Nat → α)
    (num_frames total_channels : Nat) (channel : Int) (buffer_24bit : List Nat) :
    Option (List Nat) :=
  (List.range num_frames).foldlM
    (fun (buf : List Nat) (frame : Nat) =>
      match conv (audio_data ((frame : Int) * (total_channels : Int) + channel).toNat) with
      | none => none
      | some b => some (store3 buf (frame * 3) b))
    buffer_24bit

/-- Prefixes a call of `write` to the outcome of the rest of the run. -/
def Outcome.after (c : WriteCall) (o : Outcome) : Outcome := ⟨c :: o.writes, o.result⟩

/-- The channel loop (lines 99-141 and 222-272) from iteration `ch_idx` on; the lists are
the items of `channel_indices` and `file_objects` from position `ch_idx`. The result is
`none` when a conversion has undefined behaviour. -/
def process_channels {α : Type} (conv : α → Option (Nat × Nat × Nat)) (heap : Heap)
    (audio_data : Nat → α) (num_frames total_channels : Nat) :
    Nat → List Int → List FileObj → List Nat → Option Outcome
  | _, [], _, _ => some ⟨[], PyResult.ok num_frames⟩
  | ch_idx, channel :: channels, files, buffer_24bit =>
    if channel < 0 ∨ channel ≥ total_channels then
      some ⟨[], PyResult.error (PyErr.ValueError_invalid_channel channel total_channels)⟩
    else
      match convert_channel conv audio_data num_frames total_channels channel buffer_24bit with
      | none => none
      | some buffer_24bit =>
        if heap.bytes_ok ch_idx = false then some ⟨[], PyResult.error PyErr.MemoryError⟩
        else
          let bytes_obj := buffer_24bit.take (num_frames * 3)
          match files with
          | [] => some ⟨[], PyResult.error PyErr.IndexError⟩
          | file_obj :: files =>
            match file_obj.write bytes_obj with
            | some exc => some ⟨[⟨ch_idx, bytes_obj, some exc⟩], PyResult.error (PyErr.raised exc)⟩
            | none =>
              (process_channels conv heap audio_data num_frames total_channels
                (ch_idx + 1) channels files buffer_24bit).map
                (Outcome.after ⟨ch_idx, bytes_obj, none⟩)

/-- The common text of the two entry points after `PyArg_ParseTuple`; they differ in the
element type tested and in the conversion of a sample. -/
def write_multichannel {α : Type} (expected : NpyType) (conv : α → Option (Nat × Nat × Nat))
    (heap : Heap) (audio_array : PyArray α) (channel_list : PyArg Int)
    (file_list : PyArg FileObj) : Option Outcome :=
  match audio_array.dims with
  | [num_frames, total_channels] =>
    if audio_array.type ≠ expected then some ⟨[], PyResult.error (PyErr.TypeError_dtype expected)⟩
    else
      match channel_list with
      | PyArg.other => some ⟨[], PyResult.error PyErr.TypeError_channel_indices⟩
      | PyArg.list channels =>
        match file_list with
        | PyArg.other => some ⟨[], PyResult.error PyErr.TypeError_file_objects⟩
        | PyArg.list files =>
          if channels.length ≠ files.length then
            some ⟨[], PyResult.error PyErr.ValueError_same_length⟩
          else if heap.malloc_ok = false then some ⟨[], PyResult.error PyErr.MemoryError⟩
          else
            process_channels conv heap audio_array.data num_frames total_channels
              0 channels files (malloc_block heap (num_frames * 3))
  | _ => some ⟨[], PyResult.error PyErr.ValueError_not_2D⟩

/-- Lines 40-147, `write_multichannel_24bit`. -/
def write_multichannel_24bit (heap : Heap) (audio_array : PyArray F32)
    (channel_list : PyArg Int) (file_list : PyArg FileObj) : Option Outcome :=
  write_multichannel NpyType.NPY_FLOAT32 float_to_24bit heap audio_array channel_list file_list

/-- Lines 163-278, `write_multichannel_24bit_int32`. -/
def write_multichannel_24bit_int32 (heap : Heap) (audio_array : PyArray Int)
    (channel_list : PyArg Int) (file_list : PyArg FileObj) : Option Outcome :=
  write_multichannel NpyType.NPY_INT32 (fun sample => some (int32_to_24bit sample))
    heap audio_array channel_list file_list

/-! ## Sample inputs -/

/-- A heap on which every allocation succeeds; a fresh block holds `AA AB AC ...`. -/
def heap_ok : Heap := ⟨true, fun i => 170 + i, fun _ => true⟩

/-- A file object whose `write` returns normally. -/
def file_ok : FileObj := ⟨fun _ => none⟩

/-- A file object whose `write` raises the exception `exc`. -/
def file_raising (exc : Nat) : FileObj := ⟨fun _ => some exc⟩

/-- The `int32` buffer `[[1, -1], [256, 70000000]]` of shape `(2, 2)`, flattened. -/
def sample_int32_data : Nat → Int := fun i => [1, -1, 256, 70000000].getD i 0

/-- The same buffer with another first column: `[[5, -1], [6, 70000000]]`. -/
def sample_int32_data_alt : Nat → Int := fun i => [5, -1, 6, 70000000].getD i 0

/-- The `int32` buffer `[[8388607, -8388607], [4194303, 0]]` of shape `(2, 2)`, flattened. -/
def sample_int32_data_scaled : Nat → Int := fun i => [8388607, -8388607, 4194303, 0].getD i 0

/-- The `float32` buffer `[[1.0, -1.0], [0.5, 0.0]]` of shape `(2, 2)`, flattened. -/
def sample_float_data : Nat → F32 :=
  fun i => [F32.one, F32.negOne, F32.fin false 1 (-1), F32.fin false 0 0].getD i F32.nan

/-! ## Specification-side notions -/

/-- The clamp of the specification: `clamp(i, lo, hi)`. -/
def clamp (i lo hi : Int) : Int := max lo (min i hi)

/-- Decoding of three bytes as a little-endian two's-complement signed 24-bit integer:
`b0 + 256*b1 + 65536*b2`, minus `2^24` when `b2 >= 128`. -/
def decode24 (b : Nat × Nat × Nat) : Int :=
  let u : Int := (b.1 : Int) + 256 * (b.2.1 : Int) + 65536 * (b.2.2 : Int)
  if b.2.2 ≥ 128 then u - 16777216 else u

/-- Truncation toward zero of a rational number. -/
def truncQ (q : ℚ) : Int := if 0 ≤ q then ⌊q⌋ else ⌈q⌉

/-- The bytes of a converted sample in the order stored. -/
def bytes3 (b : Nat × Nat × Nat) : List Nat := [b.1, b.2.1, b.2.2]

/-- Payload of column `k` of a buffer of shape `(F, C)`: the conversions of the elements at
flat offsets `0*C + k, 1*C + k, ..., (F-1)*C + k`, concatenated in this order (`none` when
one of the conversions is undefined). -/
def channel_payload {α : Type} (conv : α → Option (Nat × Nat × Nat)) (data : Nat → α)
    (C k : Nat) : Nat → Option (List Nat)
  | 0 => some []
  | F + 1 =>
    match channel_payload conv data C k F, conv (data (F * C + k)) with
    | some p, some b => some (p ++ bytes3 b)
    | _, _ => none

/-- Two buffers of shape `(F, C)` agree on column `k`. -/
def agree_on_column {α : Type} (d1 d2 : Nat → α) (F C k : Nat) : Prop :=
  ∀ f, f < F → d1 (f * C + k) = d2 (f * C + k)

/-- The 3-byte little-endian two's-complement encoding `encode(v)` of the specification. -/
def encode24 (v : Int) : List Nat :=
  [(v % 256).toNat, (v / 256 % 256).toNat, (v / 65536 % 256).toNat]

/-- The three bytes of frame `f` in a payload. -/
def frame_bytes (payload : List Nat) (f : Nat) : List Nat := (payload.drop (3 * f)).take 3

/-- What two runs are compared on for a call of `write`: its position, the number of bytes
passed and the exception raised, if any. -/
def write_shape (c : WriteCall) : Nat × Nat × Option Nat := (c.ch_idx, c.payload.length, c.exc)

/-- A file object whose `write` behaves the same whatever bytes it is given. -/
def payload_blind (f : FileObj) : Prop := ∀ p q : List Nat, f.write p = f.write q

/-! ## Lemmas on the byte stores -/

theorem and_0xFF_eq_emod (x : Int) : (and_0xFF x : Int) = x % 256 := by
  unfold and_0xFF bits32
  have h := Nat.and_pow_two_sub_one_eq_mod ((x % 4294967296).toNat) 8
  norm_num at h
  rw [h]
  omega

theorem u8_and_0xFF (x : Int) : (u8 (and_0xFF x) : Int) = x % 256 := by
  have h := and_0xFF_eq_emod x
  unfold u8
  omega

theorem sar_eq_ediv (x : Int) (n : Nat) : sar x n = x / (2 : Int) ^ n := by
  unfold sar
  have h := Int.shiftRight_eq_div_pow x n
  simpa using h

theorem pack24_fst (v : Int) : ((pack24 v).1 : Int) = v % 256 := by
  simp only [pack24]
  exact u8_and_0xFF v

theorem pack24_snd (v : Int) : ((pack24 v).2.1 : Int) = (v / 256) % 256 := by
  simp only [pack24]
  rw [u8_and_0xFF, sar_eq_ediv]
  norm_num

theorem pack24_thd (v : Int) : ((pack24 v).2.2 : Int) = (v / 65536) % 256 := by
  simp only [pack24]
  rw [u8_and_0xFF, sar_eq_ediv]
  norm_num

theorem clamp_to_24bit_eq_clamp (i : Int) :
    clamp_to_24bit i = clamp i (-8388608) 8388607 := by
  unfold clamp_to_24bit clamp
  simp only
  split_ifs <;> omega

theorem clamp_to_24bit_range (i : Int) :
    -8388608 ≤ clamp_to_24bit i ∧ clamp_to_24bit i ≤ 8388607 := by
  rw [clamp_to_24bit_eq_clamp]
  unfold clamp
  omega

theorem decode24_pack24 (v : Int) (hlo : -8388608 ≤ v) (hhi : v ≤ 8388607) :
    decode24 (pack24 v) = v := by
  have h1 := pack24_fst v
  have h2 := pack24_snd v
  have h3 := pack24_thd v
  unfold decode24
  simp only
  split_ifs with h <;> omega

/-! ## Lemmas on binary32 arithmetic -/

section FloatLemmas

open F32

theorem excessBits_of_lt (fuel M : Nat) (h : M < 16777216) : excessBits fuel M = 0 := by
  cases fuel with
  | zero => rfl
  | succ n => simp [excessBits, h]

theorem excessBits_spec (fuel : Nat) : ∀ M : Nat, M ≤ fuel →
    M < 2 ^ (24 + excessBits fuel M) ∧ (0 < excessBits fuel M → 2 ^ (23 + excessBits fuel M) ≤ M) := by
  induction fuel with
  | zero =>
    intro M hM
    have : M = 0 := by omega
    subst this
    simp [excessBits]
  | succ n ih =>
    intro M hM
    by_cases h : M < 16777216
    · simp [excessBits, h]
    · have hrec : excessBits (n + 1) M = excessBits n (M / 2) + 1 := by simp [excessBits, h]
      rw [hrec]
      have h2 : M / 2 ≤ n := by omega
      obtain ⟨ih1, ih2⟩ := ih (M / 2) h2
      constructor
      · have : 2 ^ (24 + (excessBits n (M / 2) + 1)) = 2 * 2 ^ (24 + excessBits n (M / 2)) := by
          rw [← Nat.add_assoc, Nat.pow_succ]; ring
        omega
      · intro _
        have e : 2 ^ (23 + (excessBits n (M / 2) + 1)) = 2 * 2 ^ (23 + excessBits n (M / 2)) := by
          rw [← Nat.add_assoc, Nat.pow_succ]; ring
        rw [e]
        by_cases hz : 0 < excessBits n (M / 2)
        · have := ih2 hz
          omega
        · have hz0 : excessBits n (M / 2) = 0 := by omega
          rw [hz0]
          norm_num
          omega

theorem rne_le (M sh T : Nat) (h : M ≤ T * 2 ^ sh) : rne M sh ≤ T := by
  unfold rne
  have hp : 0 < 2 ^ sh := Nat.pow_pos (by norm_num)
  have hq : M / 2 ^ sh ≤ T := by
    calc M / 2 ^ sh ≤ (T * 2 ^ sh) / 2 ^ sh := Nat.div_le_div_right h
      _ = T := Nat.mul_div_cancel _ hp
  simp only
  split_ifs with hc
  · by_contra hlt
    have hqT : M / 2 ^ sh = T := by omega
    have hdm := Nat.div_add_mod M (2 ^ sh)
    rw [hqT] at hdm
    have hr0 : M % 2 ^ sh = 0 := by
      have : 2 ^ sh * T = T * 2 ^ sh := Nat.mul_comm _ _
      omega
    rw [hr0] at hc
    omega
  · exact hq

theorem rne_zero (M : Nat) : rne M 0 = M := by
  simp [rne, Nat.mod_one]

/-- A significand of at most 24 bits at an admissible exponent is not changed by rounding. -/
theorem round_exact (neg : Bool) (M : Nat) (E : Int) (hM : M < 16777216) (hE : -149 ≤ E)
    (hov : M * 2 ^ (E + 149).toNat < 2 ^ 128 * 2 ^ 149) : roundToF32 neg M E = fin neg M E := by
  unfold roundToF32
  have hx := excessBits_of_lt M M hM
  have hy : (-149 - E).toNat = 0 := by omega
  have hne : M ≠ 16777216 := by omega
  simp only [hx, hy, Nat.max_self, rne_zero, Nat.cast_zero, add_zero, if_neg hne]
  rw [if_neg (by omega)]

/-- The product of a sample of magnitude at most one with `8388607.0f` is finite and its
integral part has magnitude at most `8388607`. -/
theorem round_unit_bound (neg : Bool) (m : Nat) (e : Int)
    (h : m * 2 ^ (e - min e 0).toNat ≤ 2 ^ (0 - min e 0).toNat) :
    ∃ M E, roundToF32 neg (m * 8388607) e = fin neg M E ∧
      (if 0 ≤ E then M * 2 ^ E.toNat else M / 2 ^ (-E).toNat) ≤ 8388607 := by
  by_cases he : 0 ≤ e
  · have hmin : min e 0 = 0 := by omega
    rw [hmin] at h
    simp only [sub_zero, Int.toNat_zero, pow_zero] at h
    have hp : 0 < 2 ^ e.toNat := Nat.pow_pos (by norm_num)
    have hm : m * 2 ^ e.toNat ≤ 1 := h
    have hm1 : m ≤ 1 := by
      by_contra hc
      have : 2 * 2 ^ e.toNat ≤ m * 2 ^ e.toNat := Nat.mul_le_mul_right _ (by omega)
      omega
    refine ⟨m * 8388607, e, ?_, ?_⟩
    · apply round_exact
      · omega
      · omega
      · have e1 : (e + 149).toNat = e.toNat + 149 := by omega
        rw [e1, Nat.pow_add]
        have : m * 8388607 * (2 ^ e.toNat * 2 ^ 149) = (m * 2 ^ e.toNat) * (8388607 * 2 ^ 149) := by ring
        rw [this]
        calc (m * 2 ^ e.toNat) * (8388607 * 2 ^ 149) ≤ 1 * (8388607 * 2 ^ 149) :=
              Nat.mul_le_mul_right _ hm
          _ < 2 ^ 128 * 2 ^ 149 := by norm_num
    · rw [if_pos he]
      have : m * 8388607 * 2 ^ e.toNat = (m * 2 ^ e.toNat) * 8388607 := by ring
      rw [this]
      calc (m * 2 ^ e.toNat) * 8388607 ≤ 1 * 8388607 := Nat.mul_le_mul_right _ hm
        _ = 8388607 := by norm_num
  · obtain ⟨j, rfl⟩ : ∃ j : Nat, e = -((j : Int) + 1) := ⟨(-e - 1).toNat, by omega⟩
    have hmin : min (-((j : Int) + 1)) 0 = -((j : Int) + 1) := by omega
    rw [hmin] at h
    have e1 : (-((j : Int) + 1) - -((j : Int) + 1)).toNat = 0 := by omega
    have e2 : (0 - -((j : Int) + 1)).toNat = j + 1 := by omega
    rw [e1, e2] at h
    simp only [pow_zero, mul_one] at h
    have hM : m * 8388607 ≤ 8388607 * 2 ^ (j + 1) := by
      calc m * 8388607 ≤ 2 ^ (j + 1) * 8388607 := Nat.mul_le_mul_right _ h
        _ = 8388607 * 2 ^ (j + 1) := Nat.mul_comm _ _
    obtain ⟨hx1, hx2⟩ := excessBits_spec (m * 8388607) (m * 8388607) (le_refl _)
    have hxj : excessBits (m * 8388607) (m * 8388607) ≤ j := by
      by_contra hc
      have hpos : 0 < excessBits (m * 8388607) (m * 8388607) := by omega
      have h1 := hx2 hpos
      have h2 : 2 ^ (23 + (j + 1)) ≤ 2 ^ (23 + excessBits (m * 8388607) (m * 8388607)) :=
        Nat.pow_le_pow_right (by norm_num) (by omega)
      have h3 : 8388607 * 2 ^ (j + 1) < 2 ^ (23 + (j + 1)) := by
        rw [Nat.pow_add 2 23 (j + 1)]
        exact Nat.mul_lt_mul_of_pos_right (show 8388607 < 2 ^ 23 by norm_num)
          (Nat.pow_pos (show 0 < 2 by norm_num))
      omega
    unfold roundToF32
    generalize hsh : max (excessBits (m * 8388607) (m * 8388607))
      (-149 - -((j : Int) + 1)).toNat = sh
    have hshj : sh ≤ j := by
      rw [← hsh]
      apply Nat.max_le.mpr
      exact ⟨hxj, by omega⟩
    have hshy : j + 1 ≤ sh + 149 := by
      have : (-149 - -((j : Int) + 1)).toNat ≤ sh := by
        rw [← hsh]; exact Nat.le_max_right _ _
      omega
    obtain ⟨d, hd⟩ : ∃ d : Nat, j + 1 = sh + (d + 1) := ⟨j - sh, by omega⟩
    have hT : rne (m * 8388607) sh ≤ 8388607 * 2 ^ (d + 1) := by
      apply rne_le
      rw [Nat.mul_assoc, ← Nat.pow_add, Nat.add_comm (d + 1) sh, ← hd]
      exact hM
    have eE : (-((j : Int) + 1) + (sh : Int)) = -((d : Int) + 1) := by omega
    simp only
    rw [eE]
    generalize rne (m * 8388607) sh = M1 at hT
    have h2d : 2 ≤ 2 ^ (d + 1) := by
      calc 2 = 2 ^ 1 := by norm_num
        _ ≤ 2 ^ (d + 1) := Nat.pow_le_pow_right (by norm_num) (by omega)
    by_cases hc : M1 = 16777216
    · -- the significand was rounded up to `2^24`
      subst hc
      simp only [if_true]
      have hd1 : 1 ≤ d := by
        by_contra h0
        have : d = 0 := by omega
        subst this
        norm_num at hT
      have e3 : (-((d : Int) + 1) + 1 + 149).toNat = 149 - d := by omega
      have e4 : (-(-((d : Int) + 1) + 1)).toNat = d := by omega
      rw [e3]
      have hov : 8388608 * 2 ^ (149 - d) < 2 ^ 128 * 2 ^ 149 := by
        calc 8388608 * 2 ^ (149 - d) ≤ 8388608 * 2 ^ 149 :=
              Nat.mul_le_mul_left _ (Nat.pow_le_pow_right (by norm_num) (by omega))
          _ < 2 ^ 128 * 2 ^ 149 := by norm_num
      rw [if_neg (by omega)]
      refine ⟨_, _, rfl, ?_⟩
      rw [if_neg (by omega), e4]
      have h2 : 2 ≤ 2 ^ d := by
        calc 2 = 2 ^ 1 := by norm_num
          _ ≤ 2 ^ d := Nat.pow_le_pow_right (by norm_num) hd1
      calc 8388608 / 2 ^ d ≤ 8388608 / 2 := Nat.div_le_div_left h2 (by norm_num)
        _ ≤ 8388607 := by norm_num
    · simp only [if_neg hc]
      have e3 : (-((d : Int) + 1) + 149).toNat = 148 - d := by omega
      have e4 : (-(-((d : Int) + 1))).toNat = d + 1 := by omega
      rw [e3]
      have hov : M1 * 2 ^ (148 - d) < 2 ^ 128 * 2 ^ 149 := by
        calc M1 * 2 ^ (148 - d)
            ≤ 8388607 * 2 ^ (d + 1) * 2 ^ (148 - d) := Nat.mul_le_mul_right _ hT
          _ = 8388607 * 2 ^ 149 := by
              rw [Nat.mul_assoc, ← Nat.pow_add]
              have : d + 1 + (148 - d) = 149 := by omega
              rw [this]
          _ < 2 ^ 128 * 2 ^ 149 := by norm_num
      rw [if_neg (by omega)]
      refine ⟨_, _, rfl, ?_⟩
      rw [if_neg (by omega), e4]
      calc M1 / 2 ^ (d + 1)
          ≤ (8388607 * 2 ^ (d + 1)) / 2 ^ (d + 1) := Nat.div_le_div_right hT
        _ = 8388607 := Nat.mul_div_cancel _ (Nat.pow_pos (show 0 < 2 by norm_num))

theorem truncQ_neg (q : ℚ) : truncQ (-q) = -truncQ q := by
  unfold truncQ
  rcases lt_trichotomy q 0 with h | h | h
  · rw [if_pos (by linarith), if_neg (by linarith), Int.floor_neg]
  · subst h; simp
  · rw [if_neg (by linarith), if_pos (by linarith), Int.ceil_neg]

theorem truncQ_natCast_mul_pow (m k : Nat) : truncQ ((m : ℚ) * (2 : ℚ) ^ k) = (m * 2 ^ k : Nat) := by
  unfold truncQ
  have h0 : (0 : ℚ) ≤ (m : ℚ) * (2 : ℚ) ^ k := by positivity
  rw [if_pos h0]
  have : ((m : ℚ) * (2 : ℚ) ^ k) = ((m * 2 ^ k : Nat) : ℚ) := by push_cast; ring
  rw [this]
  exact Int.floor_natCast _

theorem truncQ_natCast_div_pow (m k : Nat) : truncQ ((m : ℚ) / (2 : ℚ) ^ k) = (m / 2 ^ k : Nat) := by
  unfold truncQ
  have h0 : (0 : ℚ) ≤ (m : ℚ) / (2 : ℚ) ^ k := by positivity
  rw [if_pos h0]
  have : ((m : ℚ) / (2 : ℚ) ^ k) = ((m : ℚ) / ((2 ^ k : Nat) : ℚ)) := by push_cast; ring
  rw [this]
  have := Nat.floor_div_eq_div (α := ℚ) m (2 ^ k)
  rw [← Int.natCast_floor_eq_floor (by positivity), this]

/-- Integral part of the magnitude `m * 2^e`, as computed by `toInt32`. -/
theorem truncQ_mag (m : Nat) (e : Int) :
    truncQ ((m : ℚ) * (2 : ℚ) ^ e) =
      ((if 0 ≤ e then m * 2 ^ e.toNat else m / 2 ^ (-e).toNat : Nat) : Int) := by
  by_cases he : 0 ≤ e
  · rw [if_pos he]
    obtain ⟨k, rfl⟩ := Int.eq_ofNat_of_zero_le he
    simp only [zpow_natCast, Int.toNat_ofNat]
    exact truncQ_natCast_mul_pow m k
  · rw [if_neg he]
    obtain ⟨k, hk⟩ : ∃ k : Nat, e = -(k : Int) := ⟨(-e).toNat, by omega⟩
    subst hk
    simp only [zpow_neg, zpow_natCast, neg_neg, Int.toNat_ofNat]
    have := truncQ_natCast_div_pow m k
    rw [div_eq_mul_inv] at this
    exact this

theorem sgn_cast (neg : Bool) (m : Nat) : ((sgn neg m : Int) : ℚ) = if neg then -(m : ℚ) else (m : ℚ) := by
  unfold sgn
  cases neg <;> simp

theorem toInt32_eq_truncQ (x : F32) (v : Int) (h : toInt32 x = some v) :
    ∃ q, toRat x = some q ∧ v = truncQ q := by
  cases x with
  | nan => simp [toInt32] at h
  | inf n => simp [toInt32] at h
  | fin neg m e =>
    refine ⟨_, rfl, ?_⟩
    simp only [toInt32] at h
    split_ifs at h with h1 h2 h2
    all_goals
      simp only [Option.some.injEq] at h
      rw [← h, sgn_cast]
      cases neg
      · simp only [Bool.false_eq_true, if_false, sgn]
        rw [truncQ_mag]
        simp [h1]
      · simp only [if_true, sgn]
        rw [neg_mul, truncQ_neg, truncQ_mag]
        simp [h1]

theorem lt_false_of_le (a b : F32) (h : le a b = true) : lt b a = false := by
  cases a with
  | nan => cases b <;> simp [le] at h
  | inf n1 =>
    cases b with
    | nan => simp [le] at h
    | inf n2 => cases n1 <;> cases n2 <;> simp [le, lt] at h ⊢
    | fin n2 m2 e2 => simp [le, lt] at h ⊢; exact h
  | fin n1 m1 e1 =>
    cases b with
    | nan => simp [le] at h
    | inf n2 => simp [le, lt] at h ⊢; exact h
    | fin n2 m2 e2 =>
      simp only [le, decide_eq_true_eq] at h
      simp only [lt, decide_eq_false_iff_not, not_lt]
      rw [min_comm e2 e1]
      exact h

theorem le_of_lt_false (a b : F32) (ha : a ≠ nan) (hb : b ≠ nan) (h : lt b a = false) :
    le a b = true := by
  cases a with
  | nan => exact absurd rfl ha
  | inf n1 =>
    cases b with
    | nan => exact absurd rfl hb
    | inf n2 => cases n1 <;> cases n2 <;> simp [le, lt] at h ⊢
    | fin n2 m2 e2 => simp [le, lt] at h ⊢; exact h
  | fin n1 m1 e1 =>
    cases b with
    | nan => exact absurd rfl hb
    | inf n2 => simp [le, lt] at h ⊢; exact h
    | fin n2 m2 e2 =>
      simp only [lt, decide_eq_false_iff_not, not_lt] at h
      simp only [le, decide_eq_true_eq]
      rw [min_comm e1 e2]
      exact h

/-- Magnitude at most one, on the representation. -/
theorem unit_of_le (n : Bool) (m : Nat) (e : Int)
    (hlo : le negOne (fin n m e) = true) (hhi : le (fin n m e) one = true) :
    m * 2 ^ (e - min e 0).toNat ≤ 2 ^ (0 - min e 0).toNat := by
  simp only [le, negOne, one, decide_eq_true_eq, scaled, sgn] at hlo hhi
  rw [min_comm 0 e] at hlo
  cases n
  · simp only [Bool.false_eq_true, if_false, Nat.cast_one, one_mul] at hhi
    exact_mod_cast hhi
  · simp only [if_true, Nat.cast_one] at hlo
    have : ((m : Int)) * 2 ^ (e - min e 0).toNat ≤ 2 ^ (0 - min e 0).toNat := by linarith
    exact_mod_cast this

theorem clamp_sample_of_le (s : F32) (hlo : le negOne s = true) (hhi : le s one = true) :
    clamp_sample s = s := by
  unfold clamp_sample
  have h1 : gt s one = false := lt_false_of_le s one hhi
  have h2 : lt s negOne = false := lt_false_of_le negOne s hlo
  simp [h1, h2]

theorem clamp_sample_of_gt (s : F32) (h : gt s one = true) : clamp_sample s = one := by
  unfold clamp_sample
  simp only [h, if_true]
  rfl

theorem gt_false_of_lt_negOne (s : F32) (h : lt s negOne = true) : gt s one = false := by
  cases s with
  | nan => simp [lt] at h
  | inf n => cases n <;> simp [lt, gt, negOne, one] at h ⊢
  | fin n m e =>
    simp only [lt, negOne, decide_eq_true_eq, scaled, sgn] at h
    simp only [gt, lt, one, decide_eq_false_iff_not, not_lt, scaled, sgn]
    rw [min_comm 0 e]
    have hp : (0 : Int) < 2 ^ (0 - min e 0).toNat := by positivity
    simp only [if_true, Bool.false_eq_true, if_false] at h ⊢
    push_cast at h ⊢
    linarith

theorem clamp_sample_of_lt (s : F32) (h : lt s negOne = true) : clamp_sample s = negOne := by
  unfold clamp_sample
  have hg := gt_false_of_lt_negOne s h
  simp [hg, h]

/-- After the clamping statements a sample that is not NaN lies in `[-1, 1]`. -/
theorem clamp_sample_range (s : F32) (hs : s ≠ nan) :
    le negOne (clamp_sample s) = true ∧ le (clamp_sample s) one = true := by
  by_cases h1 : gt s one = true
  · rw [clamp_sample_of_gt s h1]; decide
  · by_cases h2 : lt s negOne = true
    · rw [clamp_sample_of_lt s h2]; decide
    · have h1f : gt s one = false := by simpa using h1
      have h2f : lt s negOne = false := by simpa using h2
      have hc : clamp_sample s = s := by
        unfold clamp_sample; simp [h1f, h2f]
      rw [hc]
      exact ⟨le_of_lt_false negOne s (by decide) hs h2f, le_of_lt_false s one hs (by decide) h1f⟩

/-- The cast of line 21 is defined on every product of a sample in `[-1, 1]` with
`8388607.0f`, and its value has magnitude at most `8388607`. -/
theorem toInt32_mul_unit (s : F32) (hlo : le negOne s = true) (hhi : le s one = true) :
    ∃ v, toInt32 (mul s c8388607) = some v ∧ -8388607 ≤ v ∧ v ≤ 8388607 := by
  cases s with
  | nan => simp [le] at hhi
  | inf n => cases n <;> simp [le, negOne, one] at hlo hhi
  | fin n m e =>
    have hu := unit_of_le n m e hlo hhi
    obtain ⟨M, E, hr, hb⟩ := round_unit_bound n m e hu
    simp only [mul, c8388607, Bool.xor_false, add_zero, hr, toInt32]
    have hb2 : ((if 0 ≤ E then M * 2 ^ E.toNat else M / 2 ^ (-E).toNat : Nat) : Int) ≤ 8388607 := by
      exact_mod_cast hb
    generalize (if 0 ≤ E then M * 2 ^ E.toNat else M / 2 ^ (-E).toNat : Nat) = t at hb hb2
    have hs : -8388607 ≤ sgn n t ∧ sgn n t ≤ 8388607 := by
      unfold sgn
      cases n <;> simp <;> omega
    rw [if_pos (by omega)]
    exact ⟨_, rfl, hs.1, hs.2⟩

theorem float_to_24bit_spec (s : F32) (hs : s ≠ nan) :
    ∃ v, toInt32 (mul (clamp_sample s) c8388607) = some v ∧ -8388607 ≤ v ∧ v ≤ 8388607
      ∧ float_to_24bit s = some (pack24 v) := by
  obtain ⟨h1, h2⟩ := clamp_sample_range s hs
  obtain ⟨v, hv, hlo, hhi⟩ := toInt32_mul_unit (clamp_sample s) h1 h2
  refine ⟨v, hv, hlo, hhi, ?_⟩
  unfold float_to_24bit
  simp only [hv]

end FloatLemmas

/-! ## Packing of a converted sample -/

theorem u8_and_0xFF_nat (x : Int) : u8 (and_0xFF x) = and_0xFF x := by
  have h := and_0xFF_eq_emod x
  unfold u8
  omega

/-! ## The frame loop -/

theorem malloc_block_length (heap : Heap) (n : Nat) : (malloc_block heap n).length = n := by
  simp [malloc_block]

theorem store3_length (buffer : List Nat) (off : Nat) (b : Nat × Nat × Nat) :
    (store3 buffer off b).length = buffer.length := by
  simp [store3]

theorem store3_append (p rest : List Nat) (x y z : Nat) (b : Nat × Nat × Nat) :
    store3 (p ++ x :: y :: z :: rest) p.length b = (p ++ bytes3 b) ++ rest := by
  induction p with
  | nil => simp [store3, bytes3]
  | cons a p ih =>
    simp only [store3] at ih
    simp only [store3, List.cons_append, List.length_cons, List.set_cons_succ]
    exact congrArg (fun l => a :: l) ih

theorem channel_payload_length {α : Type} (conv : α → Option (Nat × Nat × Nat)) (data : Nat → α)
    (C k : Nat) : ∀ (F : Nat) (p : List Nat), channel_payload conv data C k F = some p →
    p.length = 3 * F := by
  intro F
  induction F with
  | zero =>
    intro p h
    simp only [channel_payload, Option.some.injEq] at h
    subst h
    rfl
  | succ F ih =>
    intro p h
    simp only [channel_payload] at h
    split at h
    · rename_i q b hq hb
      simp only [Option.some.injEq] at h
      subst h
      have := ih q hq
      simp [bytes3, this]
      omega
    · simp at h

theorem convert_channel_succ {α : Type} (conv : α → Option (Nat × Nat × Nat)) (data : Nat → α)
    (F C : Nat) (channel : Int) (buf : List Nat) :
    convert_channel conv data (F + 1) C channel buf =
      (convert_channel conv data F C channel buf).bind (fun buf1 =>
        match conv (data ((F : Int) * (C : Int) + channel).toNat) with
        | none => none
        | some b => some (store3 buf1 (F * 3) b)) := by
  unfold convert_channel
  rw [List.range_succ, List.foldlM_append]
  simp only [List.foldlM_cons, List.foldlM_nil, Option.bind_eq_bind]
  congr 1
  funext buf1
  cases conv (data ((F : Int) * (C : Int) + channel).toNat) <;> rfl

/-- The frame loop fills the first `3 * F` bytes of the buffer with the payload of the
column, whatever the buffer held before, and leaves the rest alone. -/
theorem convert_channel_eq {α : Type} (conv : α → Option (Nat × Nat × Nat)) (data : Nat → α)
    (C k : Nat) : ∀ (F : Nat) (buf : List Nat), 3 * F ≤ buf.length →
    convert_channel conv data F C (k : Int) buf =
      (channel_payload conv data C k F).map (fun p => p ++ buf.drop (3 * F)) := by
  intro F
  induction F with
  | zero =>
    intro buf _
    simp [convert_channel, channel_payload]
  | succ F ih =>
    intro buf hlen
    rw [convert_channel_succ, ih buf (by omega)]
    have hidx : ((F : Int) * (C : Int) + (k : Int)).toNat = F * C + k := by
      have : ((F : Int) * (C : Int) + (k : Int)) = ((F * C + k : Nat) : Int) := by push_cast; ring
      rw [this, Int.toNat_ofNat]
    rw [hidx]
    simp only [channel_payload]
    cases hp : channel_payload conv data C k F with
    | none => simp
    | some p =>
      have hpl := channel_payload_length conv data C k F p hp
      cases hb : conv (data (F * C + k)) with
      | none => simp
      | some b =>
        simp only [Option.map_some', Option.some_bind, Option.some.injEq]
        obtain ⟨x, y, z, rest, hrest⟩ : ∃ x y z rest, buf.drop (3 * F) = x :: y :: z :: rest := by
          have hl : (buf.drop (3 * F)).length = buf.length - 3 * F := List.length_drop _ _
          match hd : buf.drop (3 * F), hl with
          | [], hl => simp at hl; omega
          | [_], hl => simp at hl; omega
          | [_, _], hl => simp at hl; omega
          | x :: y :: z :: rest, _ => exact ⟨x, y, z, rest, rfl⟩
        have hdrop : buf.drop (3 * (F + 1)) = rest := by
          have : 3 * (F + 1) = 3 * F + 3 := by ring
          rw [this, ← List.drop_drop, hrest]
          rfl
        rw [hrest, hdrop]
        have hoff : F * 3 = p.length := by omega
        rw [hoff]
        exact store3_append p rest x y z b

/-! ## The channel loop -/

/-- One iteration of the channel loop, by cases. -/
theorem process_channels_cons_inv {α : Type} (conv : α → Option (Nat × Nat × Nat)) (heap : Heap)
    (data : Nat → α) (F C i : Nat) (ch : Int) (chs : List Int) (files : List FileObj)
    (buf : List Nat) (o : Outcome) (hbuf : buf.length = 3 * F)
    (h : process_channels conv heap data F C i (ch :: chs) files buf = some o) :
    ((ch < 0 ∨ ch ≥ C) ∧ o = ⟨[], PyResult.error (PyErr.ValueError_invalid_channel ch C)⟩)
    ∨ (∃ (k : Nat) (p : List Nat), ch = (k : Int) ∧ k < C
        ∧ channel_payload conv data C k F = some p ∧ p.length = 3 * F
        ∧ ((heap.bytes_ok i = false ∧ o = ⟨[], PyResult.error PyErr.MemoryError⟩)
          ∨ (heap.bytes_ok i = true ∧ files = [] ∧ o = ⟨[], PyResult.error PyErr.IndexError⟩)
          ∨ (∃ f fs e, heap.bytes_ok i = true ∧ files = f :: fs ∧ f.write p = some e
              ∧ o = ⟨[⟨i, p, some e⟩], PyResult.error (PyErr.raised e)⟩)
          ∨ (∃ f fs o1, heap.bytes_ok i = true ∧ files = f :: fs ∧ f.write p = none
              ∧ process_channels conv heap data F C (i + 1) chs fs p = some o1
              ∧ o = Outcome.after ⟨i, p, none⟩ o1))) := by
  unfold process_channels at h
  by_cases hv : ch < 0 ∨ ch ≥ C
  · left
    rw [if_pos hv] at h
    simp only [Option.some.injEq] at h
    exact ⟨hv, h.symm⟩
  · right
    rw [if_neg hv] at h
    obtain ⟨k, hk⟩ : ∃ k : Nat, ch = (k : Int) := ⟨ch.toNat, by omega⟩
    subst hk
    have hkC : k < C := by omega
    rw [convert_channel_eq conv data C k F buf (by omega)] at h
    cases hp : channel_payload conv data C k F with
    | none => simp [hp] at h
    | some p =>
      have hpl := channel_payload_length conv data C k F p hp
      have hdrop : buf.drop (3 * F) = [] := by
        apply List.drop_of_length_le; omega
      have htake : List.take (F * 3) p = p := by
        apply List.take_of_length_le; omega
      simp only [hp, Option.map_some', hdrop, List.append_nil, htake] at h
      refine ⟨k, p, rfl, hkC, hp, hpl, ?_⟩
      by_cases hb : heap.bytes_ok i = false
      · left
        rw [if_pos hb] at h
        simp only [Option.some.injEq] at h
        exact ⟨hb, h.symm⟩
      · right
        rw [if_neg hb] at h
        have hbt : heap.bytes_ok i = true := by simpa using hb
        cases files with
        | nil =>
          left
          simp only [Option.some.injEq] at h
          exact ⟨hbt, rfl, h.symm⟩
        | cons f fs =>
          right
          simp only at h
          cases hw : f.write p with
          | some e =>
            left
            simp only [hw, Option.some.injEq] at h
            exact ⟨f, fs, e, hbt, rfl, hw, h.symm⟩
          | none =>
            right
            simp only [hw, Option.map_eq_some'] at h
            obtain ⟨o1, ho1, ho⟩ := h
            exact ⟨f, fs, o1, hbt, rfl, hw, ho1, ho.symm⟩

/-- What the calls of `write` made by the channel loop look like: the `n`-th call made from
iteration `i` on is at position `i + n`, goes to the `n`-th remaining file object, carries
the whole payload of the `n`-th remaining channel index, and if it raised, it is the last
call and its exception is the result; a successful run returns `F` after one call per
channel index, none of which raised. -/
theorem process_channels_trace {α : Type} (conv : α → Option (Nat × Nat × Nat)) (heap : Heap)
    (data : Nat → α) (F C : Nat) :
    ∀ (chs : List Int) (i : Nat) (files : List FileObj) (buf : List Nat) (o : Outcome),
    buf.length = 3 * F → process_channels conv heap data F C i chs files buf = some o →
    (∀ (n : Nat) (c : WriteCall), o.writes[n]? = some c →
        c.ch_idx = i + n
        ∧ (∃ k : Nat, chs[n]? = some (k : Int) ∧ k < C
            ∧ channel_payload conv data C k F = some c.payload)
        ∧ (∀ e, c.exc = some e → o.result = PyResult.error (PyErr.raised e)
            ∧ n + 1 = o.writes.length)
        ∧ (∃ f, files[n]? = some f ∧ f.write c.payload = c.exc))
    ∧ (∀ m, o.result = PyResult.ok m →
        m = F ∧ o.writes.length = chs.length ∧ ∀ c ∈ o.writes, c.exc = none)
    ∧ o.writes.length ≤ chs.length := by
  intro chs
  induction chs with
  | nil =>
    intro i files buf o _ h
    simp only [process_channels, Option.some.injEq] at h
    subst h
    simp
  | cons ch chs ih =>
    intro i files buf o hbuf h
    rcases process_channels_cons_inv conv heap data F C i ch chs files buf o hbuf h with
      ⟨_, ho⟩ | ⟨k, p, hk, hkC, hp, hpl, hcase⟩
    · subst ho; simp
    · rcases hcase with ⟨_, ho⟩ | ⟨_, _, ho⟩ | ⟨f, fs, e, _, hf, hw, ho⟩ | ⟨f, fs, o1, _, hf, hw, ho1, ho⟩
      · subst ho; simp
      · subst ho; simp
      · subst ho hf hk
        refine ⟨?_, by simp, by simp⟩
        intro n c hc
        cases n with
        | zero =>
          simp only [List.getElem?_cons_zero, Option.some.injEq] at hc
          subst hc
          refine ⟨rfl, ⟨k, by simp, hkC, hp⟩, ?_, ⟨f, by simp, hw⟩⟩
          intro e1 he1
          simp only [Option.some.injEq] at he1
          subst he1
          simp
        | succ n => simp at hc
      · subst ho hf hk
        obtain ⟨ih1, ih2, ih3⟩ := ih (i + 1) fs p o1 hpl ho1
        refine ⟨?_, ?_, ?_⟩
        · intro n c hc
          cases n with
          | zero =>
            simp only [Outcome.after, List.getElem?_cons_zero, Option.some.injEq] at hc
            subst hc
            refine ⟨rfl, ⟨k, by simp, hkC, hp⟩, ?_, ⟨f, by simp, hw⟩⟩
            intro e1 he1
            simp at he1
          | succ n =>
            simp only [Outcome.after, List.getElem?_cons_succ] at hc
            obtain ⟨a1, a2, a3, a4⟩ := ih1 n c hc
            refine ⟨by omega, ?_, ?_, ?_⟩
            · simpa using a2
            · intro e1 he1
              obtain ⟨b1, b2⟩ := a3 e1 he1
              exact ⟨b1, by simp [Outcome.after]; omega⟩
            · simpa using a4
        · intro m hm
          obtain ⟨b1, b2, b3⟩ := ih2 m hm
          refine ⟨b1, by simp [Outcome.after, b2], ?_⟩
          intro c hc
          simp only [Outcome.after, List.mem_cons] at hc
          rcases hc with hc | hc
          · subst hc; rfl
          · exact b3 c hc
        · simp [Outcome.after]; omega

/-! ## The entry points -/

/-- A call either stops at one of the checks made before the channel loop, with no call of
`write`, or its outcome is that of the channel loop started on a fresh block. -/
theorem write_multichannel_inv {α : Type} (expected : NpyType)
    (conv : α → Option (Nat × Nat × Nat)) (heap : Heap) (ty : NpyType) (F C : Nat)
    (data : Nat → α) (clist : PyArg Int) (flist : PyArg FileObj) (o : Outcome)
    (h : write_multichannel expected conv heap ⟨ty, [F, C], data⟩ clist flist = some o) :
    (o.writes = [] ∧ ∃ e, o.result = PyResult.error e)
    ∨ (∃ channels files, clist = PyArg.list channels ∧ flist = PyArg.list files
        ∧ ty = expected ∧ channels.length = files.length ∧ heap.malloc_ok = true
        ∧ process_channels conv heap data F C 0 channels files (malloc_block heap (F * 3))
            = some o) := by
  unfold write_multichannel at h
  simp only at h
  by_cases hty : ty = expected
  · rw [if_neg (by simpa using hty)] at h
    cases clist with
    | other =>
      simp only [Option.some.injEq] at h
      subst h
      exact Or.inl ⟨rfl, _, rfl⟩
    | list channels =>
      cases flist with
      | other =>
        simp only [Option.some.injEq] at h
        subst h
        exact Or.inl ⟨rfl, _, rfl⟩
      | list files =>
        simp only at h
        by_cases hlen : channels.length = files.length
        · rw [if_neg (by simpa using hlen)] at h
          by_cases hm : heap.malloc_ok = false
          · rw [if_pos hm] at h
            simp only [Option.some.injEq] at h
            subst h
            exact Or.inl ⟨rfl, _, rfl⟩
          · rw [if_neg hm] at h
            exact Or.inr ⟨channels, files, rfl, rfl, hty, hlen, by simpa using hm, h⟩
        · rw [if_pos (by simpa using hlen)] at h
          simp only [Option.some.injEq] at h
          subst h
          exact Or.inl ⟨rfl, _, rfl⟩
  · rw [if_pos (by simpa using hty)] at h
    simp only [Option.some.injEq] at h
    subst h
    exact Or.inl ⟨rfl, _, rfl⟩

/-- A call that passes the checks made before the channel loop runs the loop. -/
theorem write_multichannel_run {α : Type} (expected : NpyType)
    (conv : α → Option (Nat × Nat × Nat)) (heap : Heap) (F C : Nat)
    (data : Nat → α) (channels : List Int) (files : List FileObj)
    (hlen : channels.length = files.length) (hm : heap.malloc_ok = true) :
    write_multichannel expected conv heap ⟨expected, [F, C], data⟩
      (PyArg.list channels) (PyArg.list files)
    = process_channels conv heap data F C 0 channels files (malloc_block heap (F * 3)) := by
  unfold write_multichannel
  simp [hlen, hm]

/-- Every call of `write` made by a call on a buffer of shape `(F, C)`: the `n`-th call is
at position `n`, goes to the file object at that position, and carries the payload of the
channel index at that position. -/
theorem write_multichannel_trace {α : Type} (expected : NpyType)
    (conv : α → Option (Nat × Nat × Nat)) (heap : Heap) (ty : NpyType) (F C : Nat)
    (data : Nat → α) (clist : PyArg Int) (flist : PyArg FileObj) (o : Outcome)
    (h : write_multichannel expected conv heap ⟨ty, [F, C], data⟩ clist flist = some o) :
    (∀ (n : Nat) (c : WriteCall), o.writes[n]? = some c →
        c.ch_idx = n
        ∧ (∃ (channels : List Int) (k : Nat), clist = PyArg.list channels
            ∧ channels[n]? = some (k : Int) ∧ k < C
            ∧ channel_payload conv data C k F = some c.payload)
        ∧ (∀ e, c.exc = some e → o.result = PyResult.error (PyErr.raised e)
            ∧ n + 1 = o.writes.length)
        ∧ (∃ (files : List FileObj) (f : FileObj), flist = PyArg.list files
            ∧ files[n]? = some f ∧ f.write c.payload = c.exc))
    ∧ (∀ m, o.result = PyResult.ok m →
        m = F ∧ (∀ c ∈ o.writes, c.exc = none)
        ∧ ∃ channels, clist = PyArg.list channels ∧ o.writes.length = channels.length) := by
  rcases write_multichannel_inv expected conv heap ty F C data clist flist o h with
    ⟨hw, e, he⟩ | ⟨channels, files, hc, hf, _, _, _, hp⟩
  · rw [hw, he]
    simp
  · have hb : (malloc_block heap (F * 3)).length = 3 * F := by
      rw [malloc_block_length]; omega
    obtain ⟨t1, t2, _⟩ := process_channels_trace conv heap data F C channels 0 files _ o hb hp
    refine ⟨?_, ?_⟩
    · intro n c hn
      obtain ⟨a1, ⟨k, a2, a3, a4⟩, a5, ⟨f, a6, a7⟩⟩ := t1 n c hn
      exact ⟨by omega, ⟨channels, k, hc, a2, a3, a4⟩, a5, ⟨files, f, hf, a6, a7⟩⟩
    · intro m hm
      obtain ⟨b1, b2, b3⟩ := t2 m hm
      exact ⟨b1, b3, channels, hc, b2⟩

theorem channel_payload_congr {α : Type} (conv : α → Option (Nat × Nat × Nat))
    (d1 d2 : Nat → α) (C k : Nat) : ∀ F : Nat, agree_on_column d1 d2 F C k →
    channel_payload conv d1 C k F = channel_payload conv d2 C k F := by
  intro F
  induction F with
  | zero => intro _; rfl
  | succ F ih =>
    intro h
    have h1 : agree_on_column d1 d2 F C k := fun f hf => h f (by omega)
    simp only [channel_payload, ih h1, h F (by omega)]

theorem map_ch_idx_eq_range (l : List WriteCall)
    (h : ∀ (n : Nat) (c : WriteCall), l[n]? = some c → c.ch_idx = n) :
    l.map (fun c => c.ch_idx) = List.range l.length := by
  apply List.ext_getElem?
  intro n
  rw [List.getElem?_map]
  by_cases hn : n < l.length
  · rw [List.getElem?_range hn, List.getElem?_eq_getElem hn]
    simp only [Option.map_some', Option.some.injEq]
    exact h n _ (List.getElem?_eq_getElem hn)
  · have h1 : l[n]? = none := List.getElem?_eq_none (by omega)
    have h2 : (List.range l.length)[n]? = none :=
      List.getElem?_eq_none (by rw [List.length_range]; omega)
    rw [h1, h2]
    rfl

/-! ## Payloads -/

theorem write_multichannel_payload {α : Type} (expected : NpyType)
    (conv : α → Option (Nat × Nat × Nat)) (heap : Heap) (ty : NpyType) (F C : Nat)
    (data : Nat → α) (clist : PyArg Int) (flist : PyArg FileObj) (o : Outcome) (c : WriteCall)
    (h : write_multichannel expected conv heap ⟨ty, [F, C], data⟩ clist flist = some o)
    (hc : c ∈ o.writes) :
    ∃ (channels : List Int) (k : Nat), clist = PyArg.list channels
      ∧ channels[c.ch_idx]? = some (k : Int) ∧ k < C
      ∧ channel_payload conv data C k F = some c.payload := by
  obtain ⟨n, hn⟩ := List.getElem?_of_mem hc
  obtain ⟨a1, ⟨channels, k, a2, a3, a4, a5⟩, _, _⟩ :=
    (write_multichannel_trace expected conv heap ty F C data clist flist o h).1 n c hn
  exact ⟨channels, k, a2, by rw [a1]; exact a3, a4, a5⟩

theorem write_multichannel_column_only {α : Type} (expected : NpyType)
    (conv : α → Option (Nat × Nat × Nat)) (heap1 heap2 : Heap) (ty1 ty2 : NpyType) (F C : Nat)
    (d1 d2 : Nat → α) (channels : List Int) (fl1 fl2 : PyArg FileObj) (o1 o2 : Outcome)
    (c1 c2 : WriteCall) (k : Nat)
    (h1 : write_multichannel expected conv heap1 ⟨ty1, [F, C], d1⟩ (PyArg.list channels) fl1
      = some o1)
    (h2 : write_multichannel expected conv heap2 ⟨ty2, [F, C], d2⟩ (PyArg.list channels) fl2
      = some o2)
    (hc1 : c1 ∈ o1.writes) (hc2 : c2 ∈ o2.writes) (hj : c1.ch_idx = c2.ch_idx)
    (hk : channels[c1.ch_idx]? = some (k : Int)) (hag : agree_on_column d1 d2 F C k) :
    c1.payload = c2.payload := by
  obtain ⟨chs1, k1, e1, a1, _, p1⟩ :=
    write_multichannel_payload expected conv heap1 ty1 F C d1 _ fl1 o1 c1 h1 hc1
  obtain ⟨chs2, k2, e2, a2, _, p2⟩ :=
    write_multichannel_payload expected conv heap2 ty2 F C d2 _ fl2 o2 c2 h2 hc2
  cases e1
  cases e2
  rw [hk] at a1
  rw [← hj, hk] at a2
  simp only [Option.some.injEq, Nat.cast_inj] at a1 a2
  subst a1 a2
  rw [channel_payload_congr conv d1 d2 C k F hag, p2] at p1
  exact (Option.some.inj p1).symm

/-! ## Validation and failure -/

theorem write_multichannel_length_mismatch {α : Type} (expected : NpyType)
    (conv : α → Option (Nat × Nat × Nat)) (heap : Heap) (F C : Nat) (data : Nat → α)
    (channels : List Int) (files : List FileObj) (hne : channels.length ≠ files.length) :
    write_multichannel expected conv heap ⟨expected, [F, C], data⟩
      (PyArg.list channels) (PyArg.list files)
    = some ⟨[], PyResult.error PyErr.ValueError_same_length⟩ := by
  unfold write_multichannel
  simp [hne]

theorem write_multichannel_fail_fast {α : Type} (expected : NpyType)
    (conv : α → Option (Nat × Nat × Nat)) (heap : Heap) (ty : NpyType) (F C : Nat)
    (data : Nat → α) (clist : PyArg Int) (flist : PyArg FileObj) (o : Outcome) (c : WriteCall)
    (e : Nat)
    (h : write_multichannel expected conv heap ⟨ty, [F, C], data⟩ clist flist = some o)
    (hc : c ∈ o.writes) (he : c.exc = some e) :
    o.result = PyResult.error (PyErr.raised e)
    ∧ (∃ (files : List FileObj) (f : FileObj), flist = PyArg.list files
        ∧ files[c.ch_idx]? = some f ∧ f.write c.payload = some e)
    ∧ o.writes.map (fun w => w.ch_idx) = List.range (c.ch_idx + 1)
    ∧ (∀ w ∈ o.writes, w.ch_idx < c.ch_idx →
        w.exc = none ∧ w.payload.length = 3 * F
        ∧ ∃ (channels : List Int) (k : Nat), clist = PyArg.list channels
            ∧ channels[w.ch_idx]? = some (k : Int) ∧ k < C
            ∧ channel_payload conv data C k F = some w.payload) := by
  have ht := (write_multichannel_trace expected conv heap ty F C data clist flist o h).1
  obtain ⟨n, hn⟩ := List.getElem?_of_mem hc
  obtain ⟨a1, _, a3, ⟨files, f, a4, a5, a6⟩⟩ := ht n c hn
  obtain ⟨b1, b2⟩ := a3 e he
  refine ⟨b1, ⟨files, f, a4, by rw [a1]; exact a5, by rw [a6, he]⟩, ?_, ?_⟩
  · rw [map_ch_idx_eq_range o.writes (fun n c hn => (ht n c hn).1), ← b2, a1]
  · intro w hw hlt
    obtain ⟨n1, hn1⟩ := List.getElem?_of_mem hw
    obtain ⟨c1, ⟨channels, k, c2, c3, c4, c5⟩, c6, _⟩ := ht n1 w hn1
    refine ⟨?_, channel_payload_length conv data C k F _ c5,
      ⟨channels, k, c2, by rw [c1]; exact c3, c4, c5⟩⟩
    cases hx : w.exc with
    | none => rfl
    | some e1 =>
      obtain ⟨_, d2⟩ := c6 e1 hx
      omega

/-- When no call of `write` raises and no allocation fails, the channel loop runs up to the
first out-of-range channel index and stops there with the range error. -/
theorem process_channels_stops_at_invalid {α : Type} (conv : α → Option (Nat × Nat × Nat))
    (heap : Heap) (data : Nat → α) (F C : Nat) (bad : Int) (post : List Int)
    (hbad : bad < 0 ∨ bad ≥ C) (hheap : ∀ j, heap.bytes_ok j = true) :
    ∀ (pre : List Int) (i : Nat) (files : List FileObj) (buf : List Nat) (o : Outcome),
    (∀ ch ∈ pre, 0 ≤ ch ∧ ch < C) → buf.length = 3 * F → pre.length ≤ files.length →
    process_channels conv heap data F C i (pre ++ bad :: post) files buf = some o →
    (∀ c ∈ o.writes, c.exc = none) →
    o.result = PyResult.error (PyErr.ValueError_invalid_channel bad C)
      ∧ o.writes.length = pre.length := by
  intro pre
  induction pre with
  | nil =>
    intro i files buf o _ hbuf _ h _
    rcases process_channels_cons_inv conv heap data F C i bad post files buf o hbuf h with
      ⟨_, ho⟩ | ⟨k, _, hk, hkC, _⟩
    · subst ho; exact ⟨rfl, rfl⟩
    · omega
  | cons a pre ih =>
    intro i files buf o hpre hbuf hfl h hexc
    have ha := hpre a (List.mem_cons_self a pre)
    rcases process_channels_cons_inv conv heap data F C i a (pre ++ bad :: post) files buf o
        hbuf h with ⟨hinv, _⟩ | ⟨k, p, _, _, _, hpl, hcase⟩
    · omega
    · rcases hcase with ⟨hb, _⟩ | ⟨_, hf, _⟩ | ⟨f, fs, e, _, _, _, ho⟩ | ⟨f, fs, o1, _, hf, _, ho1, ho⟩
      · rw [hheap i] at hb; cases hb
      · subst hf; simp at hfl
      · subst ho
        have := hexc ⟨i, p, some e⟩ (List.mem_singleton.mpr rfl)
        cases this
      · subst ho hf
        have hfl1 : pre.length ≤ fs.length := by simpa using hfl
        obtain ⟨r1, r2⟩ := ih (i + 1) fs p o1 (fun ch hch => hpre ch (List.mem_cons_of_mem a hch))
          hpl hfl1 ho1 (fun c hc => hexc c (List.mem_cons_of_mem _ hc))
        exact ⟨r1, by simp [Outcome.after, r2]⟩

theorem write_multichannel_invalid_index {α : Type} (expected : NpyType)
    (conv : α → Option (Nat × Nat × Nat)) (F C : Nat) (pre post : List Int) (bad : Int)
    (hpre : ∀ ch ∈ pre, 0 ≤ ch ∧ ch < C) (hbad : bad < 0 ∨ bad ≥ C)
    (heap : Heap) (ty : NpyType) (data : Nat → α) (flist : PyArg FileObj) (o : Outcome)
    (h : write_multichannel expected conv heap ⟨ty, [F, C], data⟩
      (PyArg.list (pre ++ bad :: post)) flist = some o) :
    (∀ c ∈ o.writes, c.ch_idx < pre.length)
    ∧ (∀ m, o.result ≠ PyResult.ok m)
    ∧ (ty = expected → (∃ files, flist = PyArg.list files
          ∧ files.length = (pre ++ bad :: post).length) →
        heap.malloc_ok = true → (∀ j, heap.bytes_ok j = true) →
        (∀ c ∈ o.writes, c.exc = none) →
        o.result = PyResult.error (PyErr.ValueError_invalid_channel bad C)
          ∧ o.writes.length = pre.length) := by
  have ht := write_multichannel_trace expected conv heap ty F C data _ flist o h
  have hno : ∀ c, o.writes[pre.length]? = some c → False := by
    intro c hc
    obtain ⟨_, ⟨channels, k, e1, e2, e3, _⟩, _, _⟩ := ht.1 _ c hc
    cases e1
    rw [List.getElem?_append_right (le_refl _)] at e2
    simp only [Nat.sub_self, List.getElem?_cons_zero, Option.some.injEq] at e2
    omega
  have hlen : o.writes.length ≤ pre.length := by
    by_contra hgt
    have hlt : pre.length < o.writes.length := by omega
    exact hno _ (List.getElem?_eq_getElem hlt)
  refine ⟨?_, ?_, ?_⟩
  · intro c hc
    obtain ⟨n, hn⟩ := List.getElem?_of_mem hc
    have h1 := (ht.1 n c hn).1
    have h2 : n < o.writes.length := by
      by_contra hge
      rw [List.getElem?_eq_none (by omega)] at hn
      cases hn
    omega
  · intro m hm
    obtain ⟨_, _, channels, e1, e2⟩ := ht.2 m hm
    cases e1
    simp at e2
    omega
  · intro hty hfl hm hheap hexc
    obtain ⟨files, hf, hfl⟩ := hfl
    subst hty hf
    rw [write_multichannel_run _ conv heap F C data _ files hfl.symm hm] at h
    have hb : (malloc_block heap (F * 3)).length = 3 * F := by
      rw [malloc_block_length]; omega
    exact process_channels_stops_at_invalid conv heap data F C bad post hbad hheap pre 0 files _ o
      hpre hb (by simp at hfl; omega) h hexc

theorem write_multichannel_invalid_first {α : Type} (expected : NpyType)
    (conv : α → Option (Nat × Nat × Nat)) (F C : Nat) (post : List Int) (bad : Int)
    (hbad : bad < 0 ∨ bad ≥ C) (heap : Heap) (data : Nat → α) (files : List FileObj)
    (hfl : files.length = (bad :: post).length) (hm : heap.malloc_ok = true) :
    write_multichannel expected conv heap ⟨expected, [F, C], data⟩
      (PyArg.list (bad :: post)) (PyArg.list files)
    = some ⟨[], PyResult.error (PyErr.ValueError_invalid_channel bad C)⟩ := by
  rw [write_multichannel_run expected conv heap F C data _ files hfl.symm hm]
  unfold process_channels
  rw [if_pos hbad]

/-! ## Definedness -/

theorem convert_channel_defined {α : Type} (conv : α → Option (Nat × Nat × Nat))
    (data : Nat → α) (hconv : ∀ idx, ∃ b, conv (data idx) = some b) (C : Nat) (channel : Int) :
    ∀ (F : Nat) (buf : List Nat), ∃ buf1, convert_channel conv data F C channel buf = some buf1 := by
  intro F
  induction F with
  | zero => intro buf; exact ⟨buf, rfl⟩
  | succ F ih =>
    intro buf
    obtain ⟨buf1, h1⟩ := ih buf
    obtain ⟨b, hb⟩ := hconv ((F : Int) * (C : Int) + channel).toNat
    rw [convert_channel_succ, h1]
    simp only [Option.some_bind, hb]
    exact ⟨_, rfl⟩

theorem process_channels_defined {α : Type} (conv : α → Option (Nat × Nat × Nat)) (heap : Heap)
    (data : Nat → α) (hconv : ∀ idx, ∃ b, conv (data idx) = some b) (F C : Nat) :
    ∀ (chs : List Int) (i : Nat) (files : List FileObj) (buf : List Nat),
    ∃ o, process_channels conv heap data F C i chs files buf = some o := by
  intro chs
  induction chs with
  | nil => intro i files buf; exact ⟨_, rfl⟩
  | cons ch chs ih =>
    intro i files buf
    unfold process_channels
    by_cases hv : ch < 0 ∨ ch ≥ C
    · rw [if_pos hv]; exact ⟨_, rfl⟩
    · rw [if_neg hv]
      obtain ⟨buf1, h1⟩ := convert_channel_defined conv data hconv C ch F buf
      rw [h1]
      simp only
      by_cases hb : heap.bytes_ok i = false
      · rw [if_pos hb]; exact ⟨_, rfl⟩
      · rw [if_neg hb]
        cases files with
        | nil => exact ⟨_, rfl⟩
        | cons f fs =>
          simp only
          cases hw : f.write (List.take (F * 3) buf1) with
          | some e => exact ⟨_, rfl⟩
          | none =>
            obtain ⟨o1, ho1⟩ := ih (i + 1) fs buf1
            simp only [ho1, Option.map_some']
            exact ⟨_, rfl⟩

/-- A call on a buffer none of whose samples has an undefined conversion has an outcome. -/
theorem write_multichannel_defined {α : Type} (expected : NpyType)
    (conv : α → Option (Nat × Nat × Nat)) (heap : Heap) (audio_array : PyArray α)
    (hconv : ∀ idx, ∃ b, conv (audio_array.data idx) = some b)
    (clist : PyArg Int) (flist : PyArg FileObj) :
    ∃ o, write_multichannel expected conv heap audio_array clist flist = some o := by
  unfold write_multichannel
  split
  · by_cases hty : audio_array.type ≠ expected
    · rw [if_pos hty]; exact ⟨_, rfl⟩
    · rw [if_neg hty]
      cases clist with
      | other => exact ⟨_, rfl⟩
      | list channels =>
        cases flist with
        | other => exact ⟨_, rfl⟩
        | list files =>
          simp only
          by_cases hlen : channels.length ≠ files.length
          · rw [if_pos hlen]; exact ⟨_, rfl⟩
          · rw [if_neg hlen]
            by_cases hm : heap.malloc_ok = false
            · rw [if_pos hm]; exact ⟨_, rfl⟩
            · rw [if_neg hm]
              exact process_channels_defined conv heap _ hconv _ _ channels 0 files _
  · exact ⟨_, rfl⟩

/-- The integer entry point has an outcome on every input. -/
theorem write_multichannel_24bit_int32_defined (heap : Heap) (audio_array : PyArray Int)
    (clist : PyArg Int) (flist : PyArg FileObj) :
    ∃ o, write_multichannel_24bit_int32 heap audio_array clist flist = some o :=
  write_multichannel_defined _ _ heap audio_array (fun _ => ⟨_, rfl⟩) clist flist

/-- The conversion of a sample that is not NaN is defined. -/
theorem float_to_24bit_defined (s : F32) (hs : s ≠ F32.nan) : ∃ b, float_to_24bit s = some b := by
  obtain ⟨v, _, _, _, h⟩ := float_to_24bit_spec s hs
  exact ⟨_, h⟩

/-- The float entry point has an outcome on every buffer without NaN. -/
theorem write_multichannel_24bit_defined (heap : Heap) (audio_array : PyArray F32)
    (hdata : ∀ idx, audio_array.data idx ≠ F32.nan)
    (clist : PyArg Int) (flist : PyArg FileObj) :
    ∃ o, write_multichannel_24bit heap audio_array clist flist = some o :=
  write_multichannel_defined _ _ heap audio_array
    (fun idx => float_to_24bit_defined _ (hdata idx)) clist flist

/-! ## Runs of the channel loop -/

/-- One iteration of the channel loop on an in-range index whose conversions are defined,
with a successful allocation and a call of `write` that returns normally. -/
theorem process_channels_cons_ok {α : Type} (conv : α → Option (Nat × Nat × Nat)) (heap : Heap)
    (data : Nat → α) (F C i k : Nat) (chs : List Int) (f : FileObj) (fs : List FileObj)
    (buf p : List Nat) (hbuf : buf.length = 3 * F) (hk : k < C)
    (hp : channel_payload conv data C k F = some p) (hb : heap.bytes_ok i = true)
    (hw : f.write p = none) :
    process_channels conv heap data F C i ((k : Int) :: chs) (f :: fs) buf
    = (process_channels conv heap data F C (i + 1) chs fs p).map
        (Outcome.after ⟨i, p, none⟩) := by
  have hpl := channel_payload_length conv data C k F p hp
  have hv : ¬ ((k : Int) < 0 ∨ (k : Int) ≥ (C : Int)) := by omega
  have hdrop : buf.drop (3 * F) = [] := by
    apply List.drop_of_length_le; omega
  have htake : List.take (F * 3) p = p := by
    apply List.take_of_length_le; omega
  rw [process_channels, if_neg hv, convert_channel_eq conv data C k F buf (by omega), hp]
  simp only [Option.map_some', hdrop, List.append_nil, htake, hb, hw]
  simp

/-- When every channel index is in range, no allocation fails and no call of `write`
raises, the channel loop runs to its end and returns `F`. -/
theorem process_channels_all_valid {α : Type} (conv : α → Option (Nat × Nat × Nat))
    (heap : Heap) (data : Nat → α) (F C : Nat) (hheap : ∀ j, heap.bytes_ok j = true) :
    ∀ (chs : List Int) (i : Nat) (files : List FileObj) (buf : List Nat) (o : Outcome),
    (∀ ch ∈ chs, 0 ≤ ch ∧ ch < C) → buf.length = 3 * F → chs.length ≤ files.length →
    process_channels conv heap data F C i chs files buf = some o →
    (∀ c ∈ o.writes, c.exc = none) →
    o.result = PyResult.ok F ∧ o.writes.length = chs.length := by
  intro chs
  induction chs with
  | nil =>
    intro i files buf o _ _ _ h _
    simp only [process_channels, Option.some.injEq] at h
    subst h
    exact ⟨rfl, rfl⟩
  | cons a chs ih =>
    intro i files buf o hval hbuf hfl h hexc
    have ha := hval a (List.mem_cons_self a chs)
    rcases process_channels_cons_inv conv heap data F C i a chs files buf o hbuf h with
      ⟨hinv, _⟩ | ⟨k, p, _, _, _, hpl, hcase⟩
    · omega
    · rcases hcase with ⟨hb, _⟩ | ⟨_, hf, _⟩ | ⟨f, fs, e, _, _, _, ho⟩ | ⟨f, fs, o1, _, hf, _, ho1, ho⟩
      · rw [hheap i] at hb; cases hb
      · subst hf; simp at hfl
      · subst ho
        have := hexc ⟨i, p, some e⟩ (List.mem_singleton.mpr rfl)
        cases this
      · subst ho hf
        have hfl1 : chs.length ≤ fs.length := by simpa using hfl
        obtain ⟨r1, r2⟩ := ih (i + 1) fs p o1 (fun ch hch => hval ch (List.mem_cons_of_mem a hch))
          hpl hfl1 ho1 (fun c hc => hexc c (List.mem_cons_of_mem _ hc))
        exact ⟨r1, by simp [Outcome.after, r2]⟩

/-- The range error of the channel loop names the first out-of-range channel index and
`total_channels`, and is returned after one call of `write` per index before it. -/
theorem process_channels_range_error {α : Type} (conv : α → Option (Nat × Nat × Nat))
    (heap : Heap) (data : Nat → α) (F C : Nat) (ch tc : Int) :
    ∀ (chs : List Int) (i : Nat) (files : List FileObj) (buf : List Nat) (o : Outcome),
    buf.length = 3 * F → process_channels conv heap data F C i chs files buf = some o →
    o.result = PyResult.error (PyErr.ValueError_invalid_channel ch tc) →
    tc = (C : Int) ∧ ∃ pre post, chs = pre ++ ch :: post ∧ (∀ x ∈ pre, 0 ≤ x ∧ x < C)
      ∧ (ch < 0 ∨ ch ≥ C) ∧ o.writes.length = pre.length := by
  intro chs
  induction chs with
  | nil =>
    intro i files buf o _ h hr
    simp only [process_channels, Option.some.injEq] at h
    subst h
    cases hr
  | cons a chs ih =>
    intro i files buf o hbuf h hr
    rcases process_channels_cons_inv conv heap data F C i a chs files buf o hbuf h with
      ⟨hinv, ho⟩ | ⟨k, p, hk, hkC, _, hpl, hcase⟩
    · subst ho
      simp only [PyResult.error.injEq, PyErr.ValueError_invalid_channel.injEq] at hr
      obtain ⟨h1, h2⟩ := hr
      subst h1 h2
      exact ⟨rfl, [], chs, rfl, by simp, hinv, rfl⟩
    · rcases hcase with ⟨_, ho⟩ | ⟨_, _, ho⟩ | ⟨f, fs, e, _, _, _, ho⟩ | ⟨f, fs, o1, _, hf, _, ho1, ho⟩
      · subst ho; cases hr
      · subst ho; cases hr
      · subst ho; cases hr
      · subst ho
        obtain ⟨r1, pre, post, r2, r3, r4, r5⟩ := ih (i + 1) fs p o1 hpl ho1 hr
        refine ⟨r1, a :: pre, post, by rw [r2]; rfl, ?_, r4, by simp [Outcome.after, r5]⟩
        intro x hx
        rcases List.mem_cons.mp hx with hx | hx
        · subst hx; omega
        · exact r3 x hx

/-- The checks made before the channel loop never produce the range error: a call that
fails with it has entered the loop. -/
theorem write_multichannel_range_error_inv {α : Type} (expected : NpyType)
    (conv : α → Option (Nat × Nat × Nat)) (heap : Heap) (ty : NpyType) (F C : Nat)
    (data : Nat → α) (clist : PyArg Int) (flist : PyArg FileObj) (o : Outcome) (ch tc : Int)
    (h : write_multichannel expected conv heap ⟨ty, [F, C], data⟩ clist flist = some o)
    (hr : o.result = PyResult.error (PyErr.ValueError_invalid_channel ch tc)) :
    ∃ channels files, clist = PyArg.list channels ∧ flist = PyArg.list files
      ∧ process_channels conv heap data F C 0 channels files (malloc_block heap (F * 3))
          = some o := by
  unfold write_multichannel at h
  simp only at h
  by_cases hty : ty = expected
  · rw [if_neg (by simpa using hty)] at h
    cases clist with
    | other =>
      simp only [Option.some.injEq] at h
      subst h
      cases hr
    | list channels =>
      cases flist with
      | other =>
        simp only [Option.some.injEq] at h
        subst h
        cases hr
      | list files =>
        simp only at h
        by_cases hlen : channels.length = files.length
        · rw [if_neg (by simpa using hlen)] at h
          by_cases hm : heap.malloc_ok = false
          · rw [if_pos hm] at h
            simp only [Option.some.injEq] at h
            subst h
            cases hr
          · rw [if_neg hm] at h
            exact ⟨channels, files, rfl, rfl, h⟩
        · rw [if_pos (by simpa using hlen)] at h
          simp only [Option.some.injEq] at h
          subst h
          cases hr
  · rw [if_pos (by simpa using hty)] at h
    simp only [Option.some.injEq] at h
    subst h
    cases hr

/-! ## Frames of a payload -/

/-- The bytes of frame `f` in the payload of a column are the conversion of the element of
that frame. -/
theorem channel_payload_frame {α : Type} (conv : α → Option (Nat × Nat × Nat)) (data : Nat → α)
    (C k : Nat) : ∀ (F : Nat) (p : List Nat), channel_payload conv data C k F = some p →
    ∀ f, f < F → ∃ b, conv (data (f * C + k)) = some b ∧ frame_bytes p f = bytes3 b := by
  intro F
  induction F with
  | zero => intro p _ f hf; omega
  | succ F ih =>
    intro p h f hf
    simp only [channel_payload] at h
    split at h
    · rename_i q b hq hb
      simp only [Option.some.injEq] at h
      subst h
      have hql := channel_payload_length conv data C k F q hq
      by_cases hfF : f < F
      · obtain ⟨b1, hb1, hfb⟩ := ih q hq f hfF
        refine ⟨b1, hb1, ?_⟩
        unfold frame_bytes at hfb ⊢
        rw [List.drop_append_of_le_length (by omega), List.take_append_of_le_length, hfb]
        rw [List.length_drop]
        omega
      · have hfe : f = F := by omega
        subst hfe
        refine ⟨b, hb, ?_⟩
        unfold frame_bytes
        have : 3 * f = q.length := by omega
        rw [this, List.drop_left]
        simp [bytes3]
    · simp at h

/-- The bytes written for a sample by the float path never decode to `-8388608`. -/
theorem float_to_24bit_range (s : F32) (b : Nat × Nat × Nat) (h : float_to_24bit s = some b) :
    -8388607 ≤ decode24 b ∧ decode24 b ≤ 8388607 := by
  have hs : s ≠ F32.nan := by
    intro hn
    subst hn
    have hnone : float_to_24bit F32.nan = none := by decide
    rw [hnone] at h
    cases h
  obtain ⟨v, _, h1, h2, h3⟩ := float_to_24bit_spec s hs
  rw [h3] at h
  simp only [Option.some.injEq] at h
  subst h
  rw [decode24_pack24 v (by omega) (by omega)]
  exact ⟨h1, h2⟩

/-! ## Two runs side by side -/

/-- Two runs of the channel loop on the same channel indices, file objects and heap, from
the same iteration, with any two conversions and buffers: when the file objects do not look
at the bytes they are given, the two runs end with the same result after calls of `write`
at the same positions, with the same numbers of bytes and the same exceptions. -/
theorem process_channels_sim {α β : Type} (convA : α → Option (Nat × Nat × Nat))
    (convB : β → Option (Nat × Nat × Nat)) (heap : Heap) (dA : Nat → α) (dB : Nat → β)
    (F C : Nat) :
    ∀ (chs : List Int) (i : Nat) (files : List FileObj) (bufA bufB : List Nat)
      (oA oB : Outcome),
    bufA.length = 3 * F → bufB.length = 3 * F → (∀ f ∈ files, payload_blind f) →
    process_channels convA heap dA F C i chs files bufA = some oA →
    process_channels convB heap dB F C i chs files bufB = some oB →
    oA.result = oB.result ∧ oA.writes.map write_shape = oB.writes.map write_shape := by
  intro chs
  induction chs with
  | nil =>
    intro i files bufA bufB oA oB _ _ _ hA hB
    simp only [process_channels, Option.some.injEq] at hA hB
    subst hA hB
    exact ⟨rfl, rfl⟩
  | cons ch chs ih =>
    intro i files bufA bufB oA oB hbA hbB hblind hA hB
    rcases process_channels_cons_inv convA heap dA F C i ch chs files bufA oA hbA hA with
      ⟨hinvA, hoA⟩ | ⟨kA, pA, hkA, hkCA, _, hplA, hcaseA⟩
    · rcases process_channels_cons_inv convB heap dB F C i ch chs files bufB oB hbB hB with
        ⟨_, hoB⟩ | ⟨kB, pB, hkB, hkCB, _, _, _⟩
      · subst hoA hoB
        exact ⟨rfl, rfl⟩
      · omega
    · rcases process_channels_cons_inv convB heap dB F C i ch chs files bufB oB hbB hB with
        ⟨hinvB, _⟩ | ⟨kB, pB, hkB, hkCB, _, hplB, hcaseB⟩
      · omega
      · rcases hcaseA with ⟨ha1, hoA⟩ | ⟨ha1, hfA, hoA⟩ | ⟨fA, fsA, eA, ha1, hfA, hwA, hoA⟩
            | ⟨fA, fsA, oA1, ha1, hfA, hwA, hoA1, hoA⟩
        · rcases hcaseB with ⟨hb1, hoB⟩ | ⟨hb1, _, _⟩ | ⟨_, _, _, hb1, _, _, _⟩
              | ⟨_, _, _, hb1, _, _, _, _⟩
          · subst hoA hoB
            exact ⟨rfl, rfl⟩
          · rw [ha1] at hb1; cases hb1
          · rw [ha1] at hb1; cases hb1
          · rw [ha1] at hb1; cases hb1
        · rcases hcaseB with ⟨hb1, _⟩ | ⟨_, _, hoB⟩ | ⟨_, _, _, _, hfB, _, _⟩
              | ⟨_, _, _, _, hfB, _, _, _⟩
          · rw [ha1] at hb1; cases hb1
          · subst hoA hoB
            exact ⟨rfl, rfl⟩
          · rw [hfA] at hfB; cases hfB
          · rw [hfA] at hfB; cases hfB
        · have hbl : payload_blind fA := hblind fA (by rw [hfA]; exact List.mem_cons_self _ _)
          rcases hcaseB with ⟨hb1, _⟩ | ⟨_, hfB, _⟩ | ⟨fB, fsB, eB, _, hfB, hwB, hoB⟩
              | ⟨fB, fsB, oB1, _, hfB, hwB, _, _⟩
          · rw [ha1] at hb1; cases hb1
          · rw [hfA] at hfB; cases hfB
          · rw [hfA] at hfB
            cases hfB
            rw [hbl pA pB, hwB] at hwA
            cases hwA
            subst hoA hoB
            simp [write_shape, hplA, hplB]
          · rw [hfA] at hfB
            cases hfB
            rw [hbl pA pB, hwB] at hwA
            cases hwA
        · have hbl : payload_blind fA := hblind fA (by rw [hfA]; exact List.mem_cons_self _ _)
          rcases hcaseB with ⟨hb1, _⟩ | ⟨_, hfB, _⟩ | ⟨fB, fsB, eB, _, hfB, hwB, _⟩
              | ⟨fB, fsB, oB1, _, hfB, hwB, hoB1, hoB⟩
          · rw [ha1] at hb1; cases hb1
          · rw [hfA] at hfB; cases hfB
          · rw [hfA] at hfB
            cases hfB
            rw [hbl pA pB, hwB] at hwA
            cases hwA
          · rw [hfA] at hfB
            cases hfB
            subst hoA hoB
            have hbl2 : ∀ f ∈ fsA, payload_blind f := fun f hf =>
              hblind f (by rw [hfA]; exact List.mem_cons_of_mem _ hf)
            obtain ⟨r1, r2⟩ := ih (i + 1) fsA pA pB oA1 oB1 hplA hplB hbl2 hoA1 hoB1
            exact ⟨r1, by simp [Outcome.after, write_shape, hplA, hplB]; exact r2⟩

/-- The two entry points on buffers of the same shape (each of its own element type), with
the same heap, channel indices and file objects, the file objects not looking at the bytes
they are given: the same result, after calls of `write` at the same positions with the same
numbers of bytes. -/
theorem write_multichannel_sim {α β : Type} (expA expB : NpyType)
    (convA : α → Option (Nat × Nat × Nat)) (convB : β → Option (Nat × Nat × Nat))
    (heap : Heap) (dims : List Nat) (dA : Nat → α) (dB : Nat → β) (clist : PyArg Int)
    (flist : PyArg FileObj) (oA oB : Outcome)
    (hblind : ∀ files, flist = PyArg.list files → ∀ f ∈ files, payload_blind f)
    (hA : write_multichannel expA convA heap ⟨expA, dims, dA⟩ clist flist = some oA)
    (hB : write_multichannel expB convB heap ⟨expB, dims, dB⟩ clist flist = some oB) :
    oA.result = oB.result ∧ oA.writes.map write_shape = oB.writes.map write_shape := by
  rcases dims with _ | ⟨F, _ | ⟨C, _ | ⟨x, rest⟩⟩⟩
  · simp only [write_multichannel, Option.some.injEq] at hA hB
    subst hA hB
    exact ⟨rfl, rfl⟩
  · simp only [write_multichannel, Option.some.injEq] at hA hB
    subst hA hB
    exact ⟨rfl, rfl⟩
  · rcases write_multichannel_inv expA convA heap expA F C dA clist flist oA hA with
      ⟨hwA, eA, heA⟩ | ⟨chsA, fsA, hcA, hfA, _, hlA, hmA, hpA⟩
    · -- the first call stops before the loop: so does the second, at the same check
      cases clist with
      | other =>
        simp only [write_multichannel, ne_eq, not_true_eq_false, if_false,
          Option.some.injEq] at hA hB
        subst hA hB
        exact ⟨rfl, rfl⟩
      | list channels =>
        cases flist with
        | other =>
          simp only [write_multichannel, ne_eq, not_true_eq_false, if_false,
            Option.some.injEq] at hA hB
          subst hA hB
          exact ⟨rfl, rfl⟩
        | list files =>
          by_cases hlen : channels.length = files.length
          · by_cases hm : heap.malloc_ok = true
            · rw [write_multichannel_run expA convA heap F C dA channels files hlen hm] at hA
              rw [write_multichannel_run expB convB heap F C dB channels files hlen hm] at hB
              have hb : (malloc_block heap (F * 3)).length = 3 * F := by
                rw [malloc_block_length]; omega
              exact process_channels_sim convA convB heap dA dB F C channels 0 files _ _ oA oB
                hb hb (hblind files rfl) hA hB
            · have hm2 : heap.malloc_ok = false := by simpa using hm
              simp only [write_multichannel, ne_eq, not_true_eq_false, if_false, hlen, hm2,
                if_true, Option.some.injEq] at hA hB
              subst hA hB
              exact ⟨rfl, rfl⟩
          · rw [write_multichannel_length_mismatch expA convA heap F C dA channels files hlen]
              at hA
            rw [write_multichannel_length_mismatch expB convB heap F C dB channels files hlen]
              at hB
            simp only [Option.some.injEq] at hA hB
            subst hA hB
            exact ⟨rfl, rfl⟩
    · subst hcA hfA
      rw [write_multichannel_run expA convA heap F C dA chsA fsA hlA hmA] at hA
      rw [write_multichannel_run expB convB heap F C dB chsA fsA hlA hmA] at hB
      have hb : (malloc_block heap (F * 3)).length = 3 * F := by
        rw [malloc_block_length]; omega
      exact process_channels_sim convA convB heap dA dB F C chsA 0 fsA _ _ oA oB
        hb hb (hblind fsA rfl) hA hB
  · simp only [write_multichannel, Option.some.injEq] at hA hB
    subst hA hB
    exact ⟨rfl, rfl⟩

/-! ## Further facts on the entry points -/

/-- A call that succeeds has made one call of `write` per channel index, in list order,
each to the file object at the same position and with the whole payload of its channel. -/
theorem write_multichannel_success {α : Type} (expected : NpyType)
    (conv : α → Option (Nat × Nat × Nat)) (heap : Heap) (ty : NpyType) (F C : Nat)
    (data : Nat → α) (clist : PyArg Int) (flist : PyArg FileObj) (o : Outcome) (m : Nat)
    (h : write_multichannel expected conv heap ⟨ty, [F, C], data⟩ clist flist = some o)
    (hm : o.result = PyResult.ok m) :
    ∃ (channels : List Int) (files : List FileObj), clist = PyArg.list channels
      ∧ flist = PyArg.list files
      ∧ o.writes.length = channels.length
      ∧ o.writes.map (fun w => w.ch_idx) = List.range channels.length
      ∧ ∀ (j : Nat) (c : WriteCall), o.writes[j]? = some c →
          c.ch_idx = j ∧ c.exc = none ∧ c.payload.length = 3 * F
          ∧ (∃ f, files[j]? = some f ∧ f.write c.payload = none)
          ∧ ∃ k : Nat, channels[j]? = some (k : Int) ∧ k < C
              ∧ channel_payload conv data C k F = some c.payload := by
  have ht := write_multichannel_trace expected conv heap ty F C data clist flist o h
  obtain ⟨_, hnone, channels, hc, hlen⟩ := ht.2 m hm
  rcases write_multichannel_inv expected conv heap ty F C data clist flist o h with
    ⟨_, e, he⟩ | ⟨channels1, files, hc1, hf, _, _, _, _⟩
  · rw [he] at hm; cases hm
  · subst hc hf
    refine ⟨channels, files, rfl, rfl, hlen, ?_, ?_⟩
    · rw [map_ch_idx_eq_range o.writes (fun n c hn => (ht.1 n c hn).1), hlen]
    · intro j c hj
      obtain ⟨a1, ⟨chs, k, a2, a3, a4, a5⟩, _, ⟨fs, f, a6, a7, a8⟩⟩ := ht.1 j c hj
      cases a2
      cases a6
      have hex : c.exc = none := hnone c (List.mem_iff_getElem?.mpr ⟨j, hj⟩)
      exact ⟨a1, hex, channel_payload_length conv data C k F _ a5,
        ⟨f, a7, by rw [a8, hex]⟩, ⟨k, a3, a4, a5⟩⟩

theorem write_multichannel_duplicates {α : Type} (expected : NpyType)
    (conv : α → Option (Nat × Nat × Nat)) (heap : Heap) (F C : Nat) (data : Nat → α)
    (channels : List Int) (files : List FileObj) (o : Outcome) (i j : Nat) (k : Int)
    (h : write_multichannel expected conv heap ⟨expected, [F, C], data⟩
      (PyArg.list channels) (PyArg.list files) = some o)
    (hlen : channels.length = files.length) (hm : heap.malloc_ok = true)
    (hheap : ∀ n, heap.bytes_ok n = true) (hval : ∀ ch ∈ channels, 0 ≤ ch ∧ ch < C)
    (hexc : ∀ c ∈ o.writes, c.exc = none)
    (hi : channels[i]? = some k) (hj : channels[j]? = some k) :
    o.result = PyResult.ok F
    ∧ ∃ ci cj, o.writes[i]? = some ci ∧ o.writes[j]? = some cj
        ∧ ci.ch_idx = i ∧ cj.ch_idx = j ∧ ci.payload = cj.payload := by
  have ht := write_multichannel_trace expected conv heap expected F C data _ _ o h
  rw [write_multichannel_run expected conv heap F C data channels files hlen hm] at h
  have hb : (malloc_block heap (F * 3)).length = 3 * F := by
    rw [malloc_block_length]; omega
  obtain ⟨r1, r2⟩ := process_channels_all_valid conv heap data F C hheap channels 0 files _ o
    hval hb (by omega) h hexc
  have hil : i < o.writes.length := by
    rw [r2]
    by_contra hge
    rw [List.getElem?_eq_none (by omega)] at hi
    cases hi
  have hjl : j < o.writes.length := by
    rw [r2]
    by_contra hge
    rw [List.getElem?_eq_none (by omega)] at hj
    cases hj
  obtain ⟨a1, ⟨chs1, k1, a2, a3, _, a5⟩, _, _⟩ := ht.1 i _ (List.getElem?_eq_getElem hil)
  obtain ⟨b1, ⟨chs2, k2, b2, b3, _, b5⟩, _, _⟩ := ht.1 j _ (List.getElem?_eq_getElem hjl)
  cases a2
  cases b2
  rw [hi] at a3
  rw [hj] at b3
  simp only [Option.some.injEq] at a3 b3
  have hk : k1 = k2 := by omega
  subst hk
  rw [a5] at b5
  exact ⟨r1, _, _, List.getElem?_eq_getElem hil, List.getElem?_eq_getElem hjl, a1, b1,
    Option.some.inj b5⟩

theorem write_multichannel_range_error {α : Type} (expected : NpyType)
    (conv : α → Option (Nat × Nat × Nat)) (heap : Heap) (ty : NpyType) (F C : Nat)
    (data : Nat → α) (clist : PyArg Int) (flist : PyArg FileObj) (o : Outcome) (ch tc : Int)
    (h : write_multichannel expected conv heap ⟨ty, [F, C], data⟩ clist flist = some o)
    (hr : o.result = PyResult.error (PyErr.ValueError_invalid_channel ch tc)) :
    tc = (C : Int)
    ∧ ∃ (pre post : List Int), clist = PyArg.list (pre ++ ch :: post)
        ∧ (∀ x ∈ pre, 0 ≤ x ∧ x < C) ∧ (ch < 0 ∨ ch ≥ C) ∧ o.writes.length = pre.length := by
  obtain ⟨channels, files, hc, _, hp⟩ :=
    write_multichannel_range_error_inv expected conv heap ty F C data clist flist o ch tc h hr
  have hb : (malloc_block heap (F * 3)).length = 3 * F := by
    rw [malloc_block_length]; omega
  obtain ⟨r1, pre, post, r2, r3, r4, r5⟩ :=
    process_channels_range_error conv heap data F C ch tc channels 0 files _ o hb hp hr
  exact ⟨r1, pre, post, by rw [hc, r2], r3, r4, r5⟩

/-- The float path packs the truncated value as the integer path packs that value. -/
theorem float_to_24bit_eq_int32_to_24bit (s : F32) (v : Int)
    (h : F32.toInt32 (F32.mul (clamp_sample s) F32.c8388607) = some v) :
    float_to_24bit s = some (int32_to_24bit v) := by
  have hs : s ≠ F32.nan := by
    intro hn
    subst hn
    have hnone : F32.toInt32 (F32.mul (clamp_sample F32.nan) F32.c8388607) = none := by decide
    rw [hnone] at h
    cases h
  obtain ⟨v1, hv1, h1, h2, h3⟩ := float_to_24bit_spec s hs
  rw [h] at hv1
  simp only [Option.some.injEq] at hv1
  subst hv1
  have hc : clamp_to_24bit v = v := by
    rw [clamp_to_24bit_eq_clamp]
    unfold clamp
    omega
  rw [h3, int32_to_24bit, hc]

/-- In every outcome the positions written are `0, 1, ..., n-1` for some `n`. -/
theorem write_multichannel_initial_segment {α : Type} (expected : NpyType)
    (conv : α → Option (Nat × Nat × Nat)) (heap : Heap) (ty : NpyType) (F C : Nat)
    (data : Nat → α) (clist : PyArg Int) (flist : PyArg FileObj) (o : Outcome)
    (h : write_multichannel expected conv heap ⟨ty, [F, C], data⟩ clist flist = some o) :
    o.writes.map (fun w => w.ch_idx) = List.range o.writes.length :=
  map_ch_idx_eq_range o.writes (fun n c hn =>
    ((write_multichannel_trace expected conv heap ty F C data clist flist o h).1 n c hn).1)

theorem write_multichannel_range_check_in_loop {α : Type} (expected : NpyType)
    (conv : α → Option (Nat × Nat × Nat)) (F C : Nat) (pre post : List Int) (bad : Int)
    (hpre : ∀ ch ∈ pre, 0 ≤ ch ∧ ch < C) (hbad : bad < 0 ∨ bad ≥ C)
    (heap : Heap) (data : Nat → α) (files : List FileObj) (o : Outcome)
    (hlen : (pre ++ bad :: post).length = files.length) (hm : heap.malloc_ok = true)
    (hheap : ∀ n, heap.bytes_ok n = true)
    (h : write_multichannel expected conv heap ⟨expected, [F, C], data⟩
      (PyArg.list (pre ++ bad :: post)) (PyArg.list files) = some o)
    (hexc : ∀ c ∈ o.writes, c.exc = none) :
    o.result = PyResult.error (PyErr.ValueError_invalid_channel bad C)
    ∧ o.writes.length = pre.length
    ∧ o.writes.map (fun w => w.ch_idx) = List.range pre.length
    ∧ ∀ c ∈ o.writes, c.payload.length = 3 * F
        ∧ ∃ k : Nat, pre[c.ch_idx]? = some (k : Int) ∧ k < C
            ∧ channel_payload conv data C k F = some c.payload := by
  obtain ⟨a1, _, a3⟩ := write_multichannel_invalid_index expected conv F C pre post bad hpre hbad
    heap expected data (PyArg.list files) o h
  obtain ⟨r1, r2⟩ := a3 rfl ⟨files, rfl, hlen.symm⟩ hm hheap hexc
  refine ⟨r1, r2, ?_, ?_⟩
  · rw [write_multichannel_initial_segment expected conv heap expected F C data _ _ o h, r2]
  · intro c hc
    obtain ⟨chs, k, e1, e2, e3, e4⟩ :=
      write_multichannel_payload expected conv heap expected F C data _ _ o c h hc
    cases e1
    have hlt := a1 c hc
    rw [List.getElem?_append_left hlt] at e2
    exact ⟨channel_payload_length conv data C k F _ e4, k, e2, e3, e4⟩

theorem bytes3_ne_min (b : Nat × Nat × Nat) (h : -8388607 ≤ decode24 b) :
    bytes3 b ≠ [0, 0, 128] := by
  intro hb
  obtain ⟨b0, b1, b2⟩ := b
  simp only [bytes3, List.cons.injEq, and_true] at hb
  obtain ⟨h0, h1, h2⟩ := hb
  subst h0 h1 h2
  revert h
  decide

theorem write_multichannel_24bit_never_min (heap : Heap) (ty : NpyType) (F C : Nat)
    (data : Nat → F32) (clist : PyArg Int) (flist : PyArg FileObj) (o : Outcome)
    (c : WriteCall) (f : Nat)
    (h : write_multichannel_24bit heap ⟨ty, [F, C], data⟩ clist flist = some o)
    (hc : c ∈ o.writes) (hf : f < F) :
    frame_bytes c.payload f ≠ [0, 0, 128] := by
  obtain ⟨_, k, _, _, _, hp⟩ :=
    write_multichannel_payload _ _ heap ty F C data clist flist o c h hc
  obtain ⟨b, hb, hfb⟩ := channel_payload_frame float_to_24bit data C k F _ hp f hf
  rw [hfb]
  exact bytes3_ne_min b (float_to_24bit_range _ b hb).1

theorem write_multichannel_empty {α : Type} (expected : NpyType)
    (conv : α → Option (Nat × Nat × Nat)) (heap : Heap) (F C : Nat) (data : Nat → α)
    (hm : heap.malloc_ok = true) :
    write_multichannel expected conv heap ⟨expected, [F, C], data⟩ (PyArg.list [])
      (PyArg.list [])
    = some ⟨[], PyResult.ok F⟩ := by
  rw [write_multichannel_run expected conv heap F C data [] [] rfl hm]
  rfl

/-! ## Calls that produce their result -/

/-- The payload of a column all of whose conversions are defined is defined. -/
theorem channel_payload_defined {α : Type} (conv : α → Option (Nat × Nat × Nat))
    (data : Nat → α) (C k : Nat) : ∀ F : Nat,
    (∀ f, f < F → ∃ b, conv (data (f * C + k)) = some b) →
    ∃ p, channel_payload conv data C k F = some p := by
  intro F
  induction F with
  | zero => intro _; exact ⟨[], rfl⟩
  | succ F ih =>
    intro h
    obtain ⟨p, hp⟩ := ih (fun f hf => h f (by omega))
    obtain ⟨b, hb⟩ := h F (by omega)
    exact ⟨p ++ bytes3 b, by simp only [channel_payload, hp, hb]⟩

/-- The channel loop has an outcome when the channel indices are in range, with defined
payloads, up to the end of the list or up to an out-of-range index. -/
theorem process_channels_defined_segment {α : Type} (conv : α → Option (Nat × Nat × Nat))
    (heap : Heap) (data : Nat → α) (F C : Nat) (rest : List Int)
    (hrest : rest = [] ∨ ∃ bad post, rest = bad :: post ∧ (bad < 0 ∨ bad ≥ C)) :
    ∀ (pre : List Int) (i : Nat) (files : List FileObj) (buf : List Nat),
    (∀ ch ∈ pre, ∃ k : Nat, ch = (k : Int) ∧ k < C
      ∧ ∃ p, channel_payload conv data C k F = some p) →
    buf.length = 3 * F →
    ∃ o, process_channels conv heap data F C i (pre ++ rest) files buf = some o := by
  intro pre
  induction pre with
  | nil =>
    intro i files buf _ _
    rcases hrest with h | ⟨bad, post, h, hbad⟩
    · subst h; exact ⟨_, rfl⟩
    · subst h
      simp only [List.nil_append]
      unfold process_channels
      rw [if_pos hbad]
      exact ⟨_, rfl⟩
  | cons a pre ih =>
    intro i files buf hpre hbuf
    obtain ⟨k, hk, hkC, p, hp⟩ := hpre a (List.mem_cons_self a pre)
    subst hk
    have hpl := channel_payload_length conv data C k F p hp
    have hv : ¬ ((k : Int) < 0 ∨ (k : Int) ≥ (C : Int)) := by omega
    have hdrop : buf.drop (3 * F) = [] := by
      apply List.drop_of_length_le; omega
    simp only [List.cons_append]
    rw [process_channels, if_neg hv, convert_channel_eq conv data C k F buf (by omega), hp]
    simp only [Option.map_some', hdrop, List.append_nil]
    by_cases hb : heap.bytes_ok i = false
    · rw [if_pos hb]; exact ⟨_, rfl⟩
    · rw [if_neg hb]
      cases files with
      | nil => exact ⟨_, rfl⟩
      | cons f fs =>
        simp only
        cases hw : f.write (List.take (F * 3) p) with
        | some e => exact ⟨_, rfl⟩
        | none =>
          obtain ⟨o1, ho1⟩ := ih (i + 1) fs p
            (fun ch hch => hpre ch (List.mem_cons_of_mem _ hch)) hpl
          simp only [ho1, Option.map_some']
          exact ⟨_, rfl⟩

/-- When each file object accepts the payload of the channel at its position, no call of
`write` made by a call raises. -/
theorem write_multichannel_no_exc {α : Type} (expected : NpyType)
    (conv : α → Option (Nat × Nat × Nat)) (heap : Heap) (ty : NpyType) (F C : Nat)
    (data : Nat → α) (channels : List Int) (files : List FileObj) (o : Outcome)
    (hacc : ∀ (n : Nat) (f : FileObj) (k : Nat) (p : List Nat), files[n]? = some f →
      channels[n]? = some (k : Int) → channel_payload conv data C k F = some p →
      f.write p = none)
    (h : write_multichannel expected conv heap ⟨ty, [F, C], data⟩ (PyArg.list channels)
      (PyArg.list files) = some o) :
    ∀ c ∈ o.writes, c.exc = none := by
  intro c hc
  obtain ⟨n, hn⟩ := List.getElem?_of_mem hc
  obtain ⟨_, ⟨chs, k, e1, e2, _, e4⟩, _, ⟨fs, f, e5, e6, e7⟩⟩ :=
    (write_multichannel_trace expected conv heap ty F C data _ _ o h).1 n c hn
  cases e1
  cases e5
  rw [← e7]
  exact hacc n f k c.payload e6 e2 e4

/-- A call that passes the checks made before the loop, with all channel indices in range
and their payloads defined, no failing allocation, and each file object accepting the
payload of the channel at its position, has an outcome: it returns `F` after one
call of `write` per channel index, none of which raised. -/
theorem write_multichannel_succeeds {α : Type} (expected : NpyType)
    (conv : α → Option (Nat × Nat × Nat)) (heap : Heap) (F C : Nat) (data : Nat → α)
    (channels : List Int) (files : List FileObj)
    (hlen : channels.length = files.length) (hm : heap.malloc_ok = true)
    (hheap : ∀ n, heap.bytes_ok n = true) (hval : ∀ ch ∈ channels, 0 ≤ ch ∧ ch < C)
    (hdef : ∀ k : Nat, (k : Int) ∈ channels → ∃ p, channel_payload conv data C k F = some p)
    (hacc : ∀ (n : Nat) (f : FileObj) (k : Nat) (p : List Nat), files[n]? = some f →
      channels[n]? = some (k : Int) → channel_payload conv data C k F = some p →
      f.write p = none) :
    ∃ o, write_multichannel expected conv heap ⟨expected, [F, C], data⟩
        (PyArg.list channels) (PyArg.list files) = some o
      ∧ o.result = PyResult.ok F ∧ o.writes.length = channels.length
      ∧ ∀ c ∈ o.writes, c.exc = none := by
  have hb : (malloc_block heap (F * 3)).length = 3 * F := by
    rw [malloc_block_length]; omega
  have hseg : ∀ ch ∈ channels, ∃ k : Nat, ch = (k : Int) ∧ k < C
      ∧ ∃ p, channel_payload conv data C k F = some p := by
    intro ch hch
    obtain ⟨h0, h1⟩ := hval ch hch
    obtain ⟨k, hk⟩ : ∃ k : Nat, ch = (k : Int) := ⟨ch.toNat, by omega⟩
    subst hk
    exact ⟨k, rfl, by omega, hdef k hch⟩
  obtain ⟨o, ho⟩ := process_channels_defined_segment conv heap data F C [] (Or.inl rfl)
    channels 0 files _ hseg hb
  rw [List.append_nil] at ho
  have hrun := write_multichannel_run expected conv heap F C data channels files hlen hm
  have h : write_multichannel expected conv heap ⟨expected, [F, C], data⟩
      (PyArg.list channels) (PyArg.list files) = some o := by rw [hrun, ho]
  have hexc := write_multichannel_no_exc expected conv heap expected F C data channels files o
    hacc h
  obtain ⟨r1, r2⟩ := process_channels_all_valid conv heap data F C hheap channels 0 files _ o
    hval hb (by omega) ho hexc
  exact ⟨o, h, r1, r2, hexc⟩

/-- A call that passes the checks made before the loop, whose first out-of-range channel
index `bad` comes after the in-range indices `pre`, with the payloads of `pre` defined, no
failing allocation, and each file object before `bad` accepting the payload of the channel
at its position, has an outcome: the range error for `bad`, after one call of `write` per
index of `pre`. -/
theorem write_multichannel_range_error_produced {α : Type} (expected : NpyType)
    (conv : α → Option (Nat × Nat × Nat)) (F C : Nat) (pre post : List Int) (bad : Int)
    (hpre : ∀ ch ∈ pre, 0 ≤ ch ∧ ch < C) (hbad : bad < 0 ∨ bad ≥ C)
    (heap : Heap) (data : Nat → α) (files : List FileObj)
    (hlen : (pre ++ bad :: post).length = files.length) (hm : heap.malloc_ok = true)
    (hheap : ∀ n, heap.bytes_ok n = true)
    (hdef : ∀ k : Nat, (k : Int) ∈ pre → ∃ p, channel_payload conv data C k F = some p)
    (hacc : ∀ (n : Nat) (f : FileObj) (k : Nat) (p : List Nat), files[n]? = some f →
      pre[n]? = some (k : Int) → channel_payload conv data C k F = some p →
      f.write p = none) :
    ∃ o, write_multichannel expected conv heap ⟨expected, [F, C], data⟩
        (PyArg.list (pre ++ bad :: post)) (PyArg.list files) = some o
      ∧ o.result = PyResult.error (PyErr.ValueError_invalid_channel bad C)
      ∧ o.writes.length = pre.length
      ∧ o.writes.map (fun w => w.ch_idx) = List.range pre.length
      ∧ ∀ c ∈ o.writes, c.exc = none ∧ c.payload.length = 3 * F
          ∧ ∃ k : Nat, pre[c.ch_idx]? = some (k : Int) ∧ k < C
              ∧ channel_payload conv data C k F = some c.payload := by
  have hb : (malloc_block heap (F * 3)).length = 3 * F := by
    rw [malloc_block_length]; omega
  have hseg : ∀ ch ∈ pre, ∃ k : Nat, ch = (k : Int) ∧ k < C
      ∧ ∃ p, channel_payload conv data C k F = some p := by
    intro ch hch
    obtain ⟨h0, h1⟩ := hpre ch hch
    obtain ⟨k, hk⟩ : ∃ k : Nat, ch = (k : Int) := ⟨ch.toNat, by omega⟩
    subst hk
    exact ⟨k, rfl, by omega, hdef k hch⟩
  obtain ⟨o, ho⟩ := process_channels_defined_segment conv heap data F C (bad :: post)
    (Or.inr ⟨bad, post, rfl, hbad⟩) pre 0 files _ hseg hb
  have hrun := write_multichannel_run expected conv heap F C data (pre ++ bad :: post) files
    hlen hm
  have h : write_multichannel expected conv heap ⟨expected, [F, C], data⟩
      (PyArg.list (pre ++ bad :: post)) (PyArg.list files) = some o := by rw [hrun, ho]
  have hlt := (write_multichannel_invalid_index expected conv F C pre post bad hpre hbad
    heap expected data (PyArg.list files) o h).1
  have hexc : ∀ c ∈ o.writes, c.exc = none := by
    intro c hc
    obtain ⟨n, hn⟩ := List.getElem?_of_mem hc
    obtain ⟨e0, ⟨chs, k, e1, e2, _, e4⟩, _, ⟨fs, f, e5, e6, e7⟩⟩ :=
      (write_multichannel_trace expected conv heap expected F C data _ _ o h).1 n c hn
    cases e1
    cases e5
    have hn2 : n < pre.length := by
      have := hlt c hc
      omega
    rw [List.getElem?_append_left hn2] at e2
    rw [← e7]
    exact hacc n f k c.payload e6 e2 e4
  obtain ⟨r1, r2, r3, r4⟩ := write_multichannel_range_check_in_loop expected conv F C pre post
    bad hpre hbad heap data files o hlen hm hheap h hexc
  exact ⟨o, h, r1, r2, r3, fun c hc => ⟨hexc c hc, r4 c hc⟩⟩

/-- The payload of a column of a float buffer without NaN in that column is defined. -/
theorem float_channel_payload_defined (data : Nat → F32) (F C k : Nat)
    (h : ∀ f, f < F → data (f * C + k) ≠ F32.nan) :
    ∃ p, channel_payload float_to_24bit data C k F = some p :=
  channel_payload_defined float_to_24bit data C k F
    (fun f hf => float_to_24bit_defined _ (h f hf))

/-- The payload of a column of an integer buffer is defined. -/
theorem int32_channel_payload_defined (data : Nat → Int) (F C k : Nat) :
    ∃ p, channel_payload (fun sample => some (int32_to_24bit sample)) data C k F = some p :=
  channel_payload_defined _ data C k F (fun _ _ => ⟨_, rfl⟩)

/-- On indices that are Python integers, and with fewer than `2^63` channels, the range
check on the `long` obtained by `PyLong_AsLong` decides whether the index itself is in
`[0, total_channels)`. -/
theorem PyLong_AsLong_in_range_iff (n : Int) (C : Nat) (hC : (C : Int) ≤ 9223372036854775808) :
    (0 ≤ PyLong_AsLong (PyItem.int n) ∧ PyLong_AsLong (PyItem.int n) < C)
      ↔ (0 ≤ n ∧ n < C) := by
  simp only [PyLong_AsLong]
  split_ifs with h <;> omega

/-- A Python integer that fits a C `long` is carried by the range error as it is. -/
theorem PyLong_AsLong_of_fits (n : Int) (h1 : -9223372036854775808 ≤ n)
    (h2 : n ≤ 9223372036854775807) : PyLong_AsLong (PyItem.int n) = n := by
  simp only [PyLong_AsLong]
  rw [if_pos ⟨h1, h2⟩]

/-- A list of file objects whose `write` returns normally accepts every payload. -/
theorem accepts_of_all_file_ok (files : List FileObj) (hall : ∀ f ∈ files, f = file_ok)
    (n : Nat) (f : FileObj) (p : List Nat) (h : files[n]? = some f) : f.write p = none := by
  rw [hall f (List.getElem?_mem h)]
  rfl

/-! ## The claims

Each theorem below settles one claim of the specification; a claim that fails as stated
comes with the input at which it fails and with the statement that holds instead. -/

/-- C1: for every integer sample `i`, the three bytes stored by the frame loop of
`write_multichannel_24bit_int32` are `v mod 256`, `(v >> 8) mod 256`, `(v >> 16) mod 256`
with `v = clamp(i, -8388608, 8388607)` and `>>` the arithmetic shift; the first byte is
the least significant byte of `v`. -/
theorem C1_int32_bytes_little_endian (i : Int) :
    ((int32_to_24bit i).1 : Int) = clamp i (-8388608) 8388607 % 256
    ∧ ((int32_to_24bit i).2.1 : Int) = Int.shiftRight (clamp i (-8388608) 8388607) 8 % 256
    ∧ ((int32_to_24bit i).2.2 : Int) = Int.shiftRight (clamp i (-8388608) 8388607) 16 % 256 := by
  unfold int32_to_24bit
  rw [clamp_to_24bit_eq_clamp]
  refine ⟨pack24_fst _, ?_, ?_⟩
  · simp only [pack24]
    rw [u8_and_0xFF]
    rfl
  · simp only [pack24]
    rw [u8_and_0xFF]
    rfl

/-- C2: for every integer sample `i`, decoding the three stored bytes as a little-endian
two's-complement 24-bit integer gives `clamp(i, -8388608, 8388607)`; the decoded value
stays in `[-8388608, 8388607]`, and is `i` itself when `i` is in that range. -/
theorem C2_int32_round_trip (i : Int) :
    decode24 (int32_to_24bit i) = clamp i (-8388608) 8388607
    ∧ -8388608 ≤ decode24 (int32_to_24bit i)
    ∧ decode24 (int32_to_24bit i) ≤ 8388607
    ∧ (-8388608 ≤ i → i ≤ 8388607 → decode24 (int32_to_24bit i) = i) := by
  have hr := clamp_to_24bit_range i
  have hd : decode24 (int32_to_24bit i) = clamp_to_24bit i := by
    unfold int32_to_24bit
    exact decode24_pack24 _ hr.1 hr.2
  rw [hd]
  refine ⟨clamp_to_24bit_eq_clamp i, hr.1, hr.2, ?_⟩
  intro hlo hhi
  rw [clamp_to_24bit_eq_clamp]
  unfold clamp
  omega

/-- Witness for C2 at the in-range sample `-5`. -/
theorem C2_int32_round_trip_witness :
    ((-8388608 : Int) ≤ -5 ∧ (-5 : Int) ≤ 8388607) ∧ decode24 (int32_to_24bit (-5)) = -5 :=
  ⟨by decide, (C2_int32_round_trip (-5)).2.2.2 (by decide) (by decide)⟩

/-- C3 as stated fails at the sample `0.5 + 2^-24`: the exact product with `8388607` is
`4194304 - 2^-24`, whose truncation toward zero is `4194303`, with bytes `FF FF 3F`; but
the binary32 product of line 21 rounds to `4194304.0f`, and the bytes written are
`00 00 40`, which decode to `4194304`. -/
theorem C3_exact_product_counterexample :
    F32.representable (F32.fin false 8388609 (-24))
    ∧ F32.le F32.negOne (F32.fin false 8388609 (-24)) = true
    ∧ F32.le (F32.fin false 8388609 (-24)) F32.one = true
    ∧ F32.toRat (F32.fin false 8388609 (-24)) = some (8388609 / 16777216)
    ∧ truncQ ((8388609 / 16777216 : ℚ) * 8388607) = 4194303
    ∧ (and_0xFF 4194303, and_0xFF (sar 4194303 8), and_0xFF (sar 4194303 16)) = (255, 255, 63)
    ∧ F32.mul (F32.fin false 8388609 (-24)) F32.c8388607 = F32.fin false 8388608 (-1)
    ∧ float_to_24bit (F32.fin false 8388609 (-24)) = some (0, 0, 64)
    ∧ decode24 (0, 0, 64) = 4194304 := by
  refine ⟨by decide, by decide, by decide, ?_, ?_, by decide, by decide, by decide, by decide⟩
  · simp [F32.toRat, F32.sgn]
    norm_num
  · unfold truncQ
    rw [if_pos (by norm_num), Int.floor_eq_iff]
    norm_num

/-- C3 (amended): for every float sample `s` with `-1.0 <= s <= 1.0`, the three bytes
written by `float_to_24bit` are `v & 0xFF`, `(v >> 8) & 0xFF`, `(v >> 16) & 0xFF` where `v`
is the truncation toward zero of the binary32 product `s * 8388607.0f` that line 21
computes, that is, of the exact product rounded to the nearest binary32 number (ties to
even). -/
theorem C3_float_bytes_truncated_product (s : F32)
    (hlo : F32.le F32.negOne s = true) (hhi : F32.le s F32.one = true) :
    ∃ q : ℚ, F32.toRat (F32.mul s F32.c8388607) = some q ∧
      float_to_24bit s =
        some (and_0xFF (truncQ q), and_0xFF (sar (truncQ q) 8), and_0xFF (sar (truncQ q) 16)) := by
  obtain ⟨v, hv, _, _⟩ := toInt32_mul_unit s hlo hhi
  obtain ⟨q, hq, hvq⟩ := toInt32_eq_truncQ _ v hv
  refine ⟨q, hq, ?_⟩
  unfold float_to_24bit
  simp only [clamp_sample_of_le s hlo hhi, hv, pack24, u8_and_0xFF_nat, hvq]

/-- Witness for C3 (amended) at the sample `0.5`: the product is `4194303.5`, truncated to
`4194303`, and the bytes written are `FF FF 3F`. -/
theorem C3_float_bytes_truncated_product_witness :
    (F32.le F32.negOne (F32.fin false 1 (-1)) = true
      ∧ F32.le (F32.fin false 1 (-1)) F32.one = true)
    ∧ (∃ q : ℚ, F32.toRat (F32.mul (F32.fin false 1 (-1)) F32.c8388607) = some q ∧
        float_to_24bit (F32.fin false 1 (-1)) =
          some (and_0xFF (truncQ q), and_0xFF (sar (truncQ q) 8), and_0xFF (sar (truncQ q) 16)))
    ∧ F32.toRat (F32.mul (F32.fin false 1 (-1)) F32.c8388607) = some (8388607 / 2)
    ∧ truncQ (8388607 / 2) = 4194303
    ∧ float_to_24bit (F32.fin false 1 (-1)) = some (255, 255, 63) := by
  refine ⟨⟨by decide, by decide⟩,
    C3_float_bytes_truncated_product (F32.fin false 1 (-1)) (by decide) (by decide),
    ?_, ?_, by decide⟩
  · have h : F32.mul (F32.fin false 1 (-1)) F32.c8388607 = F32.fin false 8388607 (-1) := by
      decide
    rw [h]
    simp [F32.toRat, F32.sgn]
    norm_num
  · unfold truncQ
    rw [if_pos (by norm_num), Int.floor_eq_iff]
    norm_num

/-- C4 as stated fails at the sample `-0.5`: the product `-0.5 * 8388607.0f` is exactly
`-4194303.5`, the bytes written are `01 00 C0`, which decode to `-4194303`, whereas
`floor(-4194303.5) = -4194304`. -/
theorem C4_floor_counterexample :
    F32.representable (F32.fin true 1 (-1))
    ∧ F32.le F32.negOne (F32.fin true 1 (-1)) = true
    ∧ F32.le (F32.fin true 1 (-1)) F32.one = true
    ∧ F32.toRat (F32.fin true 1 (-1)) = some (-(1 / 2))
    ∧ F32.toRat (F32.mul (F32.fin true 1 (-1)) F32.c8388607) = some (-(1 / 2) * 8388607)
    ∧ float_to_24bit (F32.fin true 1 (-1)) = some (1, 0, 192)
    ∧ decode24 (1, 0, 192) = -4194303
    ∧ ⌊(-(1 / 2) * 8388607 : ℚ)⌋ = -4194304 := by
  refine ⟨by decide, by decide, by decide, ?_, ?_, by decide, by decide, ?_⟩
  · simp [F32.toRat, F32.sgn]
  · have h : F32.mul (F32.fin true 1 (-1)) F32.c8388607 = F32.fin true 8388607 (-1) := by decide
    rw [h]
    simp [F32.toRat, F32.sgn]
    norm_num
  · rw [Int.floor_eq_iff]
    norm_num

/-- C4 (amended): for every float sample `s` with `-1.0 <= s <= 1.0`, decoding the three
bytes written by `float_to_24bit` as a signed 24-bit integer gives the truncation toward
zero of the product `s * 8388607.0f` (which is its floor when the product is not
negative), and the decoded value lies in `[-8388608, 8388607]`. -/
theorem C4_float_round_trip_truncation (s : F32)
    (hlo : F32.le F32.negOne s = true) (hhi : F32.le s F32.one = true) :
    ∃ (b : Nat × Nat × Nat) (q : ℚ), float_to_24bit s = some b
      ∧ F32.toRat (F32.mul s F32.c8388607) = some q
      ∧ decode24 b = truncQ q
      ∧ (0 ≤ q → decode24 b = ⌊q⌋)
      ∧ -8388608 ≤ decode24 b ∧ decode24 b ≤ 8388607 := by
  obtain ⟨v, hv, h1, h2⟩ := toInt32_mul_unit s hlo hhi
  obtain ⟨q, hq, hvq⟩ := toInt32_eq_truncQ _ v hv
  have hd : decode24 (pack24 v) = v := decode24_pack24 v (by omega) (by omega)
  refine ⟨pack24 v, q, ?_, hq, ?_, ?_, ?_, ?_⟩
  · unfold float_to_24bit
    simp only [clamp_sample_of_le s hlo hhi, hv]
  · rw [hd, hvq]
  · intro h0
    rw [hd, hvq]
    unfold truncQ
    rw [if_pos h0]
  · rw [hd]; omega
  · rw [hd]; omega

/-- Witness for C4 (amended) at the sample `-0.5`. -/
theorem C4_float_round_trip_truncation_witness :
    F32.le F32.negOne (F32.fin true 1 (-1)) = true ∧ F32.le (F32.fin true 1 (-1)) F32.one = true ∧
    ∃ (b : Nat × Nat × Nat) (q : ℚ), float_to_24bit (F32.fin true 1 (-1)) = some b
      ∧ F32.toRat (F32.mul (F32.fin true 1 (-1)) F32.c8388607) = some q
      ∧ decode24 b = truncQ q
      ∧ (0 ≤ q → decode24 b = ⌊q⌋)
      ∧ -8388608 ≤ decode24 b ∧ decode24 b ≤ 8388607 :=
  ⟨by decide, by decide, C4_float_round_trip_truncation (F32.fin true 1 (-1)) (by decide) (by decide)⟩

/-- C5: every float sample greater than `1.0` is written as `1.0` is, every sample less
than `-1.0` as `-1.0` is (NaN compares false and is not covered); these are the bytes
`FF FF 7F` of `8388607` and `01 00 80` of `-8388607`, the extreme values, so no
out-of-range sample wraps around. -/
theorem C5_float_saturation :
    (∀ s : F32, F32.gt s F32.one = true → float_to_24bit s = float_to_24bit F32.one)
    ∧ (∀ s : F32, F32.lt s F32.negOne = true → float_to_24bit s = float_to_24bit F32.negOne)
    ∧ float_to_24bit F32.one = some (255, 255, 127)
    ∧ float_to_24bit F32.negOne = some (1, 0, 128)
    ∧ decode24 (255, 255, 127) = 8388607
    ∧ decode24 (1, 0, 128) = -8388607 := by
  refine ⟨?_, ?_, by decide, by decide, by decide, by decide⟩
  · intro s h
    unfold float_to_24bit
    rw [clamp_sample_of_gt s h]
    rfl
  · intro s h
    unfold float_to_24bit
    rw [clamp_sample_of_lt s h]
    rfl

/-- Witness for C5 at the samples `3.0` and minus infinity. -/
theorem C5_float_saturation_witness :
    (F32.gt (F32.fin false 3 0) F32.one = true
      ∧ float_to_24bit (F32.fin false 3 0) = float_to_24bit F32.one)
    ∧ (F32.lt (F32.inf true) F32.negOne = true
      ∧ float_to_24bit (F32.inf true) = float_to_24bit F32.negOne) :=
  ⟨⟨by decide, C5_float_saturation.1 (F32.fin false 3 0) (by decide)⟩,
   ⟨by decide, C5_float_saturation.2.1 (F32.inf true) (by decide)⟩⟩

/-- C6: in a call of either entry point on a buffer of shape `(F, C)`, every call of
`write` at a position `j` carries exactly the concatenation, for `f = 0 .. F-1` in this
order, of the conversions of the elements at flat offsets `f*C + k`, where
`k = channel_indices[j]`; hence two buffers that agree on column `k` deliver the same
payload to position `j`, whatever their other columns (and the block used) contain. -/
theorem C6_channel_selection (F C : Nat) :
    (∀ (heap : Heap) (ty : NpyType) (data : Nat → F32) (clist : PyArg Int)
        (flist : PyArg FileObj) (o : Outcome) (c : WriteCall),
        write_multichannel_24bit heap ⟨ty, [F, C], data⟩ clist flist = some o → c ∈ o.writes →
        ∃ (channels : List Int) (k : Nat), clist = PyArg.list channels
          ∧ channels[c.ch_idx]? = some (k : Int) ∧ k < C
          ∧ channel_payload float_to_24bit data C k F = some c.payload)
    ∧ (∀ (heap : Heap) (ty : NpyType) (data : Nat → Int) (clist : PyArg Int)
        (flist : PyArg FileObj) (o : Outcome) (c : WriteCall),
        write_multichannel_24bit_int32 heap ⟨ty, [F, C], data⟩ clist flist = some o →
        c ∈ o.writes →
        ∃ (channels : List Int) (k : Nat), clist = PyArg.list channels
          ∧ channels[c.ch_idx]? = some (k : Int) ∧ k < C
          ∧ channel_payload (fun sample => some (int32_to_24bit sample)) data C k F
              = some c.payload)
    ∧ (∀ (heap1 heap2 : Heap) (ty1 ty2 : NpyType) (d1 d2 : Nat → F32) (channels : List Int)
        (fl1 fl2 : PyArg FileObj) (o1 o2 : Outcome) (c1 c2 : WriteCall) (k : Nat),
        write_multichannel_24bit heap1 ⟨ty1, [F, C], d1⟩ (PyArg.list channels) fl1 = some o1 →
        write_multichannel_24bit heap2 ⟨ty2, [F, C], d2⟩ (PyArg.list channels) fl2 = some o2 →
        c1 ∈ o1.writes → c2 ∈ o2.writes → c1.ch_idx = c2.ch_idx →
        channels[c1.ch_idx]? = some (k : Int) → agree_on_column d1 d2 F C k →
        c1.payload = c2.payload)
    ∧ (∀ (heap1 heap2 : Heap) (ty1 ty2 : NpyType) (d1 d2 : Nat → Int) (channels : List Int)
        (fl1 fl2 : PyArg FileObj) (o1 o2 : Outcome) (c1 c2 : WriteCall) (k : Nat),
        write_multichannel_24bit_int32 heap1 ⟨ty1, [F, C], d1⟩ (PyArg.list channels) fl1
          = some o1 →
        write_multichannel_24bit_int32 heap2 ⟨ty2, [F, C], d2⟩ (PyArg.list channels) fl2
          = some o2 →
        c1 ∈ o1.writes → c2 ∈ o2.writes → c1.ch_idx = c2.ch_idx →
        channels[c1.ch_idx]? = some (k : Int) → agree_on_column d1 d2 F C k →
        c1.payload = c2.payload) := by
  refine ⟨?_, ?_, ?_, ?_⟩
  · intro heap ty data clist flist o c h hc
    exact write_multichannel_payload _ _ heap ty F C data clist flist o c h hc
  · intro heap ty data clist flist o c h hc
    exact write_multichannel_payload _ _ heap ty F C data clist flist o c h hc
  · intro heap1 heap2 ty1 ty2 d1 d2 channels fl1 fl2 o1 o2 c1 c2 k h1 h2 hc1 hc2 hj hk hag
    exact write_multichannel_column_only _ _ heap1 heap2 ty1 ty2 F C d1 d2 channels fl1 fl2
      o1 o2 c1 c2 k h1 h2 hc1 hc2 hj hk hag
  · intro heap1 heap2 ty1 ty2 d1 d2 channels fl1 fl2 o1 o2 c1 c2 k h1 h2 hc1 hc2 hj hk hag
    exact write_multichannel_column_only _ _ heap1 heap2 ty1 ty2 F C d1 d2 channels fl1 fl2
      o1 o2 c1 c2 k h1 h2 hc1 hc2 hj hk hag

/-- Witness for C6: the `int32` buffer `[[1, -1], [256, 70000000]]` with
`channel_indices = [1, 0]`, and the same call on a buffer with another column 0. -/
theorem C6_channel_selection_witness :
    (write_multichannel_24bit_int32 heap_ok ⟨NpyType.NPY_INT32, [2, 2], sample_int32_data⟩
        (PyArg.list [1, 0]) (PyArg.list [file_ok, file_ok])
      = some ⟨[⟨0, [255, 255, 255, 255, 255, 127], none⟩, ⟨1, [1, 0, 0, 0, 1, 0], none⟩],
          PyResult.ok 2⟩
      ∧ write_multichannel_24bit_int32 heap_ok
          ⟨NpyType.NPY_INT32, [2, 2], sample_int32_data_alt⟩
          (PyArg.list [1, 0]) (PyArg.list [file_ok, file_raising 7])
        = some ⟨[⟨0, [255, 255, 255, 255, 255, 127], none⟩, ⟨1, [5, 0, 0, 6, 0, 0], some 7⟩],
            PyResult.error (PyErr.raised 7)⟩
      ∧ agree_on_column sample_int32_data sample_int32_data_alt 2 2 1)
    ∧ (∃ (channels : List Int) (k : Nat), PyArg.list [1, 0] = PyArg.list channels
        ∧ channels[0]? = some (k : Int) ∧ k < 2
        ∧ channel_payload (fun sample => some (int32_to_24bit sample)) sample_int32_data 2 k 2
            = some [255, 255, 255, 255, 255, 127])
    ∧ (⟨0, [255, 255, 255, 255, 255, 127], none⟩ : WriteCall).payload
        = (⟨0, [255, 255, 255, 255, 255, 127], none⟩ : WriteCall).payload :=
  have hag : agree_on_column sample_int32_data sample_int32_data_alt 2 2 1 := by
    intro f hf
    interval_cases f <;> rfl
  ⟨⟨by decide, by decide, hag⟩,
   (C6_channel_selection 2 2).2.1 heap_ok NpyType.NPY_INT32 sample_int32_data (PyArg.list [1, 0])
     (PyArg.list [file_ok, file_ok])
     ⟨[⟨0, [255, 255, 255, 255, 255, 127], none⟩, ⟨1, [1, 0, 0, 0, 1, 0], none⟩], PyResult.ok 2⟩
     ⟨0, [255, 255, 255, 255, 255, 127], none⟩ (by decide) (by decide),
   (C6_channel_selection 2 2).2.2.2 heap_ok heap_ok NpyType.NPY_INT32 NpyType.NPY_INT32
     sample_int32_data sample_int32_data_alt [1, 0] (PyArg.list [file_ok, file_ok])
     (PyArg.list [file_ok, file_raising 7])
     ⟨[⟨0, [255, 255, 255, 255, 255, 127], none⟩, ⟨1, [1, 0, 0, 0, 1, 0], none⟩], PyResult.ok 2⟩
     ⟨[⟨0, [255, 255, 255, 255, 255, 127], none⟩, ⟨1, [5, 0, 0, 6, 0, 0], some 7⟩],
       PyResult.error (PyErr.raised 7)⟩
     ⟨0, [255, 255, 255, 255, 255, 127], none⟩ ⟨0, [255, 255, 255, 255, 255, 127], none⟩ 1
     (by decide) (by decide) (by decide) (by decide) rfl (by decide) hag⟩

/-- C7: in a call of either entry point on a buffer of shape `(F, C)`, every payload handed
to `write` has exactly `3 * F` bytes, and a call that succeeds returns `F`, however many
channel indices were given. -/
theorem C7_payload_length_and_frame_count (F C : Nat) :
    (∀ (heap : Heap) (ty : NpyType) (data : Nat → F32) (clist : PyArg Int)
        (flist : PyArg FileObj) (o : Outcome),
        write_multichannel_24bit heap ⟨ty, [F, C], data⟩ clist flist = some o →
        (∀ c ∈ o.writes, c.payload.length = 3 * F)
        ∧ (∀ m, o.result = PyResult.ok m → m = F))
    ∧ (∀ (heap : Heap) (ty : NpyType) (data : Nat → Int) (clist : PyArg Int)
        (flist : PyArg FileObj) (o : Outcome),
        write_multichannel_24bit_int32 heap ⟨ty, [F, C], data⟩ clist flist = some o →
        (∀ c ∈ o.writes, c.payload.length = 3 * F)
        ∧ (∀ m, o.result = PyResult.ok m → m = F)) := by
  refine ⟨?_, ?_⟩
  · intro heap ty data clist flist o h
    refine ⟨?_, ?_⟩
    · intro c hc
      obtain ⟨_, k, _, _, _, hp⟩ :=
        write_multichannel_payload _ _ heap ty F C data clist flist o c h hc
      exact channel_payload_length _ data C k F _ hp
    · intro m hm
      exact ((write_multichannel_trace _ _ heap ty F C data clist flist o h).2 m hm).1
  · intro heap ty data clist flist o h
    refine ⟨?_, ?_⟩
    · intro c hc
      obtain ⟨_, k, _, _, _, hp⟩ :=
        write_multichannel_payload _ _ heap ty F C data clist flist o c h hc
      exact channel_payload_length _ data C k F _ hp
    · intro m hm
      exact ((write_multichannel_trace _ _ heap ty F C data clist flist o h).2 m hm).1

/-- Witness for C7: the `float32` buffer `[[1.0, -1.0], [0.5, 0.0]]` with
`channel_indices = [0, 1]`; both payloads have `3 * 2` bytes and the call returns `2`. -/
theorem C7_payload_length_and_frame_count_witness :
    write_multichannel_24bit heap_ok ⟨NpyType.NPY_FLOAT32, [2, 2], sample_float_data⟩
        (PyArg.list [0, 1]) (PyArg.list [file_ok, file_ok])
      = some ⟨[⟨0, [255, 255, 127, 255, 255, 63], none⟩, ⟨1, [1, 0, 128, 0, 0, 0], none⟩],
          PyResult.ok 2⟩
    ∧ ((∀ c ∈ [(⟨0, [255, 255, 127, 255, 255, 63], none⟩ : WriteCall),
          ⟨1, [1, 0, 128, 0, 0, 0], none⟩], c.payload.length = 3 * 2)
      ∧ (∀ m, PyResult.ok 2 = PyResult.ok m → m = 2)) :=
  ⟨by decide,
   (C7_payload_length_and_frame_count 2 2).1 heap_ok NpyType.NPY_FLOAT32 sample_float_data
     (PyArg.list [0, 1]) (PyArg.list [file_ok, file_ok])
     ⟨[⟨0, [255, 255, 127, 255, 255, 63], none⟩, ⟨1, [1, 0, 128, 0, 0, 0], none⟩],
       PyResult.ok 2⟩ (by decide)⟩

/-- C8 as stated fails: on the `int32` buffer `[[1, -1], [256, 70000000]]` (two channels)
with `channel_indices = [0, 2]` and two file objects, the index `2` equals
`total_channels`, the call fails with the range error, and yet the file object at
position 0 has received the payload of channel 0. -/
theorem C8_counterexample :
    ((2 : Int) ∈ [(0 : Int), 2] ∧ (2 : Int) ≥ ((2 : Nat) : Int))
    ∧ write_multichannel_24bit_int32 heap_ok ⟨NpyType.NPY_INT32, [2, 2], sample_int32_data⟩
        (PyArg.list [0, 2]) (PyArg.list [file_ok, file_ok])
      = some ⟨[⟨0, [1, 0, 0, 0, 1, 0], none⟩],
          PyResult.error (PyErr.ValueError_invalid_channel 2 2)⟩ := by
  decide

/-- C8 (amended): the range check is made per channel inside the channel loop. In a call of
either entry point on a buffer of shape `(F, C)` whose channel index list has its first
out-of-range index `bad` at position `p` (after `p` in-range indices): no call of `write`
is made at position `p` or later and the call does not succeed; if the call passes the
checks made before the loop, no allocation fails and no call of `write` raises, it fails
with the range error for `bad` after exactly `p` calls of `write`; and when `bad` is the
first index the call fails with the range error without any call of `write`. -/
theorem C8_range_check_inside_loop (F C : Nat) (pre post : List Int) (bad : Int)
    (hpre : ∀ ch ∈ pre, 0 ≤ ch ∧ ch < C) (hbad : bad < 0 ∨ bad ≥ C) :
    (∀ (heap : Heap) (ty : NpyType) (data : Nat → F32) (flist : PyArg FileObj) (o : Outcome),
        write_multichannel_24bit heap ⟨ty, [F, C], data⟩ (PyArg.list (pre ++ bad :: post)) flist
          = some o →
        (∀ c ∈ o.writes, c.ch_idx < pre.length)
        ∧ (∀ m, o.result ≠ PyResult.ok m)
        ∧ (ty = NpyType.NPY_FLOAT32 → (∃ files, flist = PyArg.list files
              ∧ files.length = (pre ++ bad :: post).length) →
            heap.malloc_ok = true → (∀ j, heap.bytes_ok j = true) →
            (∀ c ∈ o.writes, c.exc = none) →
            o.result = PyResult.error (PyErr.ValueError_invalid_channel bad C)
              ∧ o.writes.length = pre.length))
    ∧ (∀ (heap : Heap) (ty : NpyType) (data : Nat → Int) (flist : PyArg FileObj) (o : Outcome),
        write_multichannel_24bit_int32 heap ⟨ty, [F, C], data⟩
          (PyArg.list (pre ++ bad :: post)) flist = some o →
        (∀ c ∈ o.writes, c.ch_idx < pre.length)
        ∧ (∀ m, o.result ≠ PyResult.ok m)
        ∧ (ty = NpyType.NPY_INT32 → (∃ files, flist = PyArg.list files
              ∧ files.length = (pre ++ bad :: post).length) →
            heap.malloc_ok = true → (∀ j, heap.bytes_ok j = true) →
            (∀ c ∈ o.writes, c.exc = none) →
            o.result = PyResult.error (PyErr.ValueError_invalid_channel bad C)
              ∧ o.writes.length = pre.length))
    ∧ (∀ (heap : Heap) (data : Nat → F32) (files : List FileObj),
        files.length = (bad :: post).length → heap.malloc_ok = true →
        write_multichannel_24bit heap ⟨NpyType.NPY_FLOAT32, [F, C], data⟩
          (PyArg.list (bad :: post)) (PyArg.list files)
        = some ⟨[], PyResult.error (PyErr.ValueError_invalid_channel bad C)⟩)
    ∧ (∀ (heap : Heap) (data : Nat → Int) (files : List FileObj),
        files.length = (bad :: post).length → heap.malloc_ok = true →
        write_multichannel_24bit_int32 heap ⟨NpyType.NPY_INT32, [F, C], data⟩
          (PyArg.list (bad :: post)) (PyArg.list files)
        = some ⟨[], PyResult.error (PyErr.ValueError_invalid_channel bad C)⟩) :=
  ⟨fun heap ty data flist o h =>
     write_multichannel_invalid_index _ _ F C pre post bad hpre hbad heap ty data flist o h,
   fun heap ty data flist o h =>
     write_multichannel_invalid_index _ _ F C pre post bad hpre hbad heap ty data flist o h,
   fun heap data files hfl hm =>
     write_multichannel_invalid_first _ _ F C post bad hbad heap data files hfl hm,
   fun heap data files hfl hm =>
     write_multichannel_invalid_first _ _ F C post bad hbad heap data files hfl hm⟩

/-- Witness for C8 (amended): `channel_indices = [0, 2]` on two channels (`p = 1`), and
`channel_indices = [2]` (`p = 0`). -/
theorem C8_range_check_inside_loop_witness :
    ((∀ ch ∈ [(0 : Int)], 0 ≤ ch ∧ ch < ((2 : Nat) : Int))
      ∧ ((2 : Int) < 0 ∨ (2 : Int) ≥ ((2 : Nat) : Int))
      ∧ write_multichannel_24bit_int32 heap_ok ⟨NpyType.NPY_INT32, [2, 2], sample_int32_data⟩
          (PyArg.list ([0] ++ 2 :: [])) (PyArg.list [file_ok, file_ok])
        = some ⟨[⟨0, [1, 0, 0, 0, 1, 0], none⟩],
            PyResult.error (PyErr.ValueError_invalid_channel 2 2)⟩)
    ∧ ((∀ c ∈ [(⟨0, [1, 0, 0, 0, 1, 0], none⟩ : WriteCall)], c.ch_idx < [(0 : Int)].length)
      ∧ (∀ m, PyResult.error (PyErr.ValueError_invalid_channel 2 2) ≠ PyResult.ok m)
      ∧ (NpyType.NPY_INT32 = NpyType.NPY_INT32 →
          (∃ files, PyArg.list [file_ok, file_ok] = PyArg.list files
            ∧ files.length = ([(0 : Int)] ++ 2 :: []).length) →
          heap_ok.malloc_ok = true → (∀ j, heap_ok.bytes_ok j = true) →
          (∀ c ∈ [(⟨0, [1, 0, 0, 0, 1, 0], none⟩ : WriteCall)], c.exc = none) →
          PyResult.error (PyErr.ValueError_invalid_channel 2 2)
              = PyResult.error (PyErr.ValueError_invalid_channel 2 ((2 : Nat) : Int))
            ∧ [(⟨0, [1, 0, 0, 0, 1, 0], none⟩ : WriteCall)].length = [(0 : Int)].length))
    ∧ write_multichannel_24bit heap_ok ⟨NpyType.NPY_FLOAT32, [2, 2], sample_float_data⟩
        (PyArg.list (2 :: [])) (PyArg.list [file_ok])
      = some ⟨[], PyResult.error (PyErr.ValueError_invalid_channel 2 ((2 : Nat) : Int))⟩ :=
  ⟨⟨by decide, by decide, by decide⟩,
   (C8_range_check_inside_loop 2 2 [0] [] 2 (by decide) (by decide)).2.1 heap_ok
     NpyType.NPY_INT32 sample_int32_data (PyArg.list [file_ok, file_ok])
     ⟨[⟨0, [1, 0, 0, 0, 1, 0], none⟩], PyResult.error (PyErr.ValueError_invalid_channel 2 2)⟩
     (by decide),
   (C8_range_check_inside_loop 2 2 [0] [] 2 (by decide) (by decide)).2.2.1 heap_ok
     sample_float_data [file_ok] (by decide) (by decide)⟩

/-- C9: a call of either entry point (on a two-dimensional buffer of the expected element
type) whose `channel_indices` and `file_objects` lists differ in length fails with
`ValueError("channel_indices and file_objects must have same length")` without any call
of `write`, whatever the two lists and the buffer contain; no sample is converted: the
outcome is the same for every conversion, even one that is undefined on every sample. -/
theorem C9_length_mismatch_rejected (F C : Nat) (channels : List Int) (files : List FileObj)
    (hne : channels.length ≠ files.length) :
    (∀ (heap : Heap) (data : Nat → F32),
        write_multichannel_24bit heap ⟨NpyType.NPY_FLOAT32, [F, C], data⟩
          (PyArg.list channels) (PyArg.list files)
        = some ⟨[], PyResult.error PyErr.ValueError_same_length⟩)
    ∧ (∀ (heap : Heap) (data : Nat → Int),
        write_multichannel_24bit_int32 heap ⟨NpyType.NPY_INT32, [F, C], data⟩
          (PyArg.list channels) (PyArg.list files)
        = some ⟨[], PyResult.error PyErr.ValueError_same_length⟩)
    ∧ (∀ (expected : NpyType) (heap : Heap) (data : Nat → F32),
        write_multichannel expected (fun _ => none) heap ⟨expected, [F, C], data⟩
          (PyArg.list channels) (PyArg.list files)
        = some ⟨[], PyResult.error PyErr.ValueError_same_length⟩) :=
  ⟨fun heap data => write_multichannel_length_mismatch _ _ heap F C data channels files hne,
   fun heap data => write_multichannel_length_mismatch _ _ heap F C data channels files hne,
   fun expected heap data =>
     write_multichannel_length_mismatch expected _ heap F C data channels files hne⟩

/-- Witness for C9: two channel indices and three file objects. -/
theorem C9_length_mismatch_rejected_witness :
    [(0 : Int), 1].length ≠ [file_ok, file_ok, file_ok].length
    ∧ write_multichannel_24bit heap_ok ⟨NpyType.NPY_FLOAT32, [2, 2], sample_float_data⟩
        (PyArg.list [0, 1]) (PyArg.list [file_ok, file_ok, file_ok])
      = some ⟨[], PyResult.error PyErr.ValueError_same_length⟩
    ∧ write_multichannel_24bit_int32 heap_ok ⟨NpyType.NPY_INT32, [2, 2], sample_int32_data⟩
        (PyArg.list [0, 1]) (PyArg.list [file_ok, file_ok, file_ok])
      = some ⟨[], PyResult.error PyErr.ValueError_same_length⟩ :=
  ⟨by decide,
   (C9_length_mismatch_rejected 2 2 [0, 1] [file_ok, file_ok, file_ok] (by decide)).1
     heap_ok sample_float_data,
   (C9_length_mismatch_rejected 2 2 [0, 1] [file_ok, file_ok, file_ok] (by decide)).2.1
     heap_ok sample_int32_data⟩

/-- C10: in a call of either entry point on a buffer of shape `(F, C)` in which a call of
`write`, at position `k`, raises, the call returns with that exception (not a frame
count); the calls of `write` made are exactly those at positions `0, 1, ..., k`, once
each and in this order, so that no position after `k` is written; and each call at a
position before `k` returned normally and carried the whole `3 * F`-byte payload of its
channel. -/
theorem C10_fail_fast_no_rollback (F C : Nat) :
    (∀ (heap : Heap) (ty : NpyType) (data : Nat → F32) (clist : PyArg Int)
        (flist : PyArg FileObj) (o : Outcome) (c : WriteCall) (e : Nat),
        write_multichannel_24bit heap ⟨ty, [F, C], data⟩ clist flist = some o →
        c ∈ o.writes → c.exc = some e →
        o.result = PyResult.error (PyErr.raised e)
        ∧ (∃ (files : List FileObj) (f : FileObj), flist = PyArg.list files
            ∧ files[c.ch_idx]? = some f ∧ f.write c.payload = some e)
        ∧ o.writes.map (fun w => w.ch_idx) = List.range (c.ch_idx + 1)
        ∧ (∀ w ∈ o.writes, w.ch_idx < c.ch_idx →
            w.exc = none ∧ w.payload.length = 3 * F
            ∧ ∃ (channels : List Int) (k : Nat), clist = PyArg.list channels
                ∧ channels[w.ch_idx]? = some (k : Int) ∧ k < C
                ∧ channel_payload float_to_24bit data C k F = some w.payload))
    ∧ (∀ (heap : Heap) (ty : NpyType) (data : Nat → Int) (clist : PyArg Int)
        (flist : PyArg FileObj) (o : Outcome) (c : WriteCall) (e : Nat),
        write_multichannel_24bit_int32 heap ⟨ty, [F, C], data⟩ clist flist = some o →
        c ∈ o.writes → c.exc = some e →
        o.result = PyResult.error (PyErr.raised e)
        ∧ (∃ (files : List FileObj) (f : FileObj), flist = PyArg.list files
            ∧ files[c.ch_idx]? = some f ∧ f.write c.payload = some e)
        ∧ o.writes.map (fun w => w.ch_idx) = List.range (c.ch_idx + 1)
        ∧ (∀ w ∈ o.writes, w.ch_idx < c.ch_idx →
            w.exc = none ∧ w.payload.length = 3 * F
            ∧ ∃ (channels : List Int) (k : Nat), clist = PyArg.list channels
                ∧ channels[w.ch_idx]? = some (k : Int) ∧ k < C
                ∧ channel_payload (fun sample => some (int32_to_24bit sample)) data C k F
                    = some w.payload)) :=
  ⟨fun heap ty data clist flist o c e h hc he =>
     write_multichannel_fail_fast _ _ heap ty F C data clist flist o c e h hc he,
   fun heap ty data clist flist o c e h hc he =>
     write_multichannel_fail_fast _ _ heap ty F C data clist flist o c e h hc he⟩

/-- Witness for C10: three channel indices, the file object at position 1 raises. -/
theorem C10_fail_fast_no_rollback_witness :
    (write_multichannel_24bit_int32 heap_ok ⟨NpyType.NPY_INT32, [2, 2], sample_int32_data⟩
        (PyArg.list [1, 0, 1]) (PyArg.list [file_ok, file_raising 7, file_ok])
      = some ⟨[⟨0, [255, 255, 255, 255, 255, 127], none⟩, ⟨1, [1, 0, 0, 0, 1, 0], some 7⟩],
          PyResult.error (PyErr.raised 7)⟩)
    ∧ (PyResult.error (PyErr.raised 7) = PyResult.error (PyErr.raised 7)
      ∧ (∃ (files : List FileObj) (f : FileObj),
          PyArg.list [file_ok, file_raising 7, file_ok] = PyArg.list files
          ∧ files[1]? = some f ∧ f.write [1, 0, 0, 0, 1, 0] = some 7)
      ∧ [(⟨0, [255, 255, 255, 255, 255, 127], none⟩ : WriteCall),
          ⟨1, [1, 0, 0, 0, 1, 0], some 7⟩].map (fun w => w.ch_idx) = List.range (1 + 1)
      ∧ (∀ w ∈ [(⟨0, [255, 255, 255, 255, 255, 127], none⟩ : WriteCall),
            ⟨1, [1, 0, 0, 0, 1, 0], some 7⟩], w.ch_idx < 1 →
          w.exc = none ∧ w.payload.length = 3 * 2
          ∧ ∃ (channels : List Int) (k : Nat), PyArg.list [1, 0, 1] = PyArg.list channels
              ∧ channels[w.ch_idx]? = some (k : Int) ∧ k < 2
              ∧ channel_payload (fun sample => some (int32_to_24bit sample))
                  sample_int32_data 2 k 2 = some w.payload)) :=
  ⟨by decide,
   (C10_fail_fast_no_rollback 2 2).2 heap_ok NpyType.NPY_INT32 sample_int32_data
     (PyArg.list [1, 0, 1]) (PyArg.list [file_ok, file_raising 7, file_ok])
     ⟨[⟨0, [255, 255, 255, 255, 255, 127], none⟩, ⟨1, [1, 0, 0, 0, 1, 0], some 7⟩],
       PyResult.error (PyErr.raised 7)⟩
     ⟨1, [1, 0, 0, 0, 1, 0], some 7⟩ 7 (by decide) (by decide) rfl⟩

/-- C11: a successful call of either entry point with `n` channel indices has made exactly
`n` calls of `write`, at positions `0, 1, ..., n-1` in this order (so no position twice and
none skipped); the `j`-th call goes to the file object at position `j`, returns normally,
and carries in one piece the whole `3 * F`-byte payload of channel `channel_indices[j]`. -/
theorem C11_one_write_per_sink_in_order (F C : Nat) :
    (∀ (heap : Heap) (ty : NpyType) (data : Nat → F32) (clist : PyArg Int)
        (flist : PyArg FileObj) (o : Outcome) (m : Nat),
        write_multichannel_24bit heap ⟨ty, [F, C], data⟩ clist flist = some o →
        o.result = PyResult.ok m →
        ∃ (channels : List Int) (files : List FileObj), clist = PyArg.list channels
          ∧ flist = PyArg.list files
          ∧ o.writes.length = channels.length
          ∧ o.writes.map (fun w => w.ch_idx) = List.range channels.length
          ∧ ∀ (j : Nat) (c : WriteCall), o.writes[j]? = some c →
              c.ch_idx = j ∧ c.exc = none ∧ c.payload.length = 3 * F
              ∧ (∃ f, files[j]? = some f ∧ f.write c.payload = none)
              ∧ ∃ k : Nat, channels[j]? = some (k : Int) ∧ k < C
                  ∧ channel_payload float_to_24bit data C k F = some c.payload)
    ∧ (∀ (heap : Heap) (ty : NpyType) (data : Nat → Int) (clist : PyArg Int)
        (flist : PyArg FileObj) (o : Outcome) (m : Nat),
        write_multichannel_24bit_int32 heap ⟨ty, [F, C], data⟩ clist flist = some o →
        o.result = PyResult.ok m →
        ∃ (channels : List Int) (files : List FileObj), clist = PyArg.list channels
          ∧ flist = PyArg.list files
          ∧ o.writes.length = channels.length
          ∧ o.writes.map (fun w => w.ch_idx) = List.range channels.length
          ∧ ∀ (j : Nat) (c : WriteCall), o.writes[j]? = some c →
              c.ch_idx = j ∧ c.exc = none ∧ c.payload.length = 3 * F
              ∧ (∃ f, files[j]? = some f ∧ f.write c.payload = none)
              ∧ ∃ k : Nat, channels[j]? = some (k : Int) ∧ k < C
                  ∧ channel_payload (fun sample => some (int32_to_24bit sample)) data C k F
                      = some c.payload) :=
  ⟨fun heap ty data clist flist o m h hm =>
     write_multichannel_success _ _ heap ty F C data clist flist o m h hm,
   fun heap ty data clist flist o m h hm =>
     write_multichannel_success _ _ heap ty F C data clist flist o m h hm⟩

/-- Witness for C11: the `int32` buffer `[[1, -1], [256, 70000000]]` with
`channel_indices = [1, 0, 1]` and three file objects. -/
theorem C11_one_write_per_sink_in_order_witness :
    (write_multichannel_24bit_int32 heap_ok ⟨NpyType.NPY_INT32, [2, 2], sample_int32_data⟩
        (PyArg.list [1, 0, 1]) (PyArg.list [file_ok, file_ok, file_ok])
      = some ⟨[⟨0, [255, 255, 255, 255, 255, 127], none⟩, ⟨1, [1, 0, 0, 0, 1, 0], none⟩,
            ⟨2, [255, 255, 255, 255, 255, 127], none⟩], PyResult.ok 2⟩)
    ∧ ∃ (channels : List Int) (files : List FileObj),
        PyArg.list [(1 : Int), 0, 1] = PyArg.list channels
        ∧ PyArg.list [file_ok, file_ok, file_ok] = PyArg.list files
        ∧ [(⟨0, [255, 255, 255, 255, 255, 127], none⟩ : WriteCall), ⟨1, [1, 0, 0, 0, 1, 0], none⟩,
            ⟨2, [255, 255, 255, 255, 255, 127], none⟩].length = channels.length
        ∧ [(⟨0, [255, 255, 255, 255, 255, 127], none⟩ : WriteCall), ⟨1, [1, 0, 0, 0, 1, 0], none⟩,
            ⟨2, [255, 255, 255, 255, 255, 127], none⟩].map (fun w => w.ch_idx)
            = List.range channels.length
        ∧ ∀ (j : Nat) (c : WriteCall),
            [(⟨0, [255, 255, 255, 255, 255, 127], none⟩ : WriteCall),
              ⟨1, [1, 0, 0, 0, 1, 0], none⟩,
              ⟨2, [255, 255, 255, 255, 255, 127], none⟩][j]? = some c →
            c.ch_idx = j ∧ c.exc = none ∧ c.payload.length = 3 * 2
            ∧ (∃ f, files[j]? = some f ∧ f.write c.payload = none)
            ∧ ∃ k : Nat, channels[j]? = some (k : Int) ∧ k < 2
                ∧ channel_payload (fun sample => some (int32_to_24bit sample))
                    sample_int32_data 2 k 2 = some c.payload :=
  ⟨by decide,
   (C11_one_write_per_sink_in_order 2 2).2 heap_ok NpyType.NPY_INT32 sample_int32_data
     (PyArg.list [1, 0, 1]) (PyArg.list [file_ok, file_ok, file_ok])
     ⟨[⟨0, [255, 255, 255, 255, 255, 127], none⟩, ⟨1, [1, 0, 0, 0, 1, 0], none⟩,
       ⟨2, [255, 255, 255, 255, 255, 127], none⟩], PyResult.ok 2⟩ 2 (by decide) rfl⟩

/-- C12 as stated fails: on the buffer `[[1.0, -1.0], [0.5, 0.0]]` with
`channel_indices = [0, 1]` and two file objects whose `write` returns normally, the call
returns `2` and position 0 receives `FF FF 7F FF FF 3F`, but position 1 receives
`01 00 80 00 00 00`, that is `encode(-8388607)` followed by `encode(0)`, and not
`encode(-8388608)` followed by `encode(0)`, which is `00 00 80 00 00 00`. -/
theorem C12_counterexample :
    write_multichannel_24bit heap_ok ⟨NpyType.NPY_FLOAT32, [2, 2], sample_float_data⟩
        (PyArg.list [0, 1]) (PyArg.list [file_ok, file_ok])
      = some ⟨[⟨0, [255, 255, 127, 255, 255, 63], none⟩, ⟨1, [1, 0, 128, 0, 0, 0], none⟩],
          PyResult.ok 2⟩
    ∧ encode24 8388607 ++ encode24 4194303 = [255, 255, 127, 255, 255, 63]
    ∧ encode24 (-8388607) ++ encode24 0 = [1, 0, 128, 0, 0, 0]
    ∧ encode24 (-8388608) ++ encode24 0 = [0, 0, 128, 0, 0, 0]
    ∧ [1, 0, 128, 0, 0, 0] ≠ encode24 (-8388608) ++ encode24 0 := by
  decide

/-- C12 (amended): on the buffer `[[1.0, -1.0], [0.5, 0.0]]` of shape `(2, 2)` with
`channel_indices = [0, 1]`, two file objects whose `write` returns normally and no failing
allocation, position 0 receives the 6 bytes `encode(8388607)` then `encode(4194303)`
(`FF FF 7F FF FF 3F`), position 1 receives `encode(-8388607)` then `encode(0)`
(`01 00 80 00 00 00`), and the call returns `2`. -/
theorem C12_float_end_to_end (heap : Heap) (f0 f1 : FileObj)
    (hm : heap.malloc_ok = true) (hb0 : heap.bytes_ok 0 = true) (hb1 : heap.bytes_ok 1 = true)
    (hw0 : f0.write (encode24 8388607 ++ encode24 4194303) = none)
    (hw1 : f1.write (encode24 (-8388607) ++ encode24 0) = none) :
    write_multichannel_24bit heap ⟨NpyType.NPY_FLOAT32, [2, 2], sample_float_data⟩
        (PyArg.list [0, 1]) (PyArg.list [f0, f1])
      = some ⟨[⟨0, encode24 8388607 ++ encode24 4194303, none⟩,
            ⟨1, encode24 (-8388607) ++ encode24 0, none⟩], PyResult.ok 2⟩
    ∧ encode24 8388607 ++ encode24 4194303 = [255, 255, 127, 255, 255, 63]
    ∧ encode24 (-8388607) ++ encode24 0 = [1, 0, 128, 0, 0, 0] := by
  refine ⟨?_, by decide, by decide⟩
  have hp0 : channel_payload float_to_24bit sample_float_data 2 0 2
      = some (encode24 8388607 ++ encode24 4194303) := by decide
  have hp1 : channel_payload float_to_24bit sample_float_data 2 1 2
      = some (encode24 (-8388607) ++ encode24 0) := by decide
  have hl : ([0, 1] : List Int) = [((0 : Nat) : Int), ((1 : Nat) : Int)] := rfl
  unfold write_multichannel_24bit
  rw [write_multichannel_run _ _ heap 2 2 sample_float_data [0, 1] [f0, f1] rfl hm, hl]
  rw [process_channels_cons_ok float_to_24bit heap sample_float_data 2 2 0 0 _ f0 [f1] _ _
    (by rw [malloc_block_length]) (by decide) hp0 hb0 hw0]
  rw [process_channels_cons_ok float_to_24bit heap sample_float_data 2 2 (0 + 1) 1 _ f1 [] _ _
    (by decide) (by decide) hp1 hb1 hw1]
  rfl

/-- Witness for C12 (amended): the heap on which every allocation succeeds and two file
objects whose `write` returns normally. -/
theorem C12_float_end_to_end_witness :
    (heap_ok.malloc_ok = true ∧ heap_ok.bytes_ok 0 = true ∧ heap_ok.bytes_ok 1 = true
      ∧ file_ok.write (encode24 8388607 ++ encode24 4194303) = none
      ∧ file_ok.write (encode24 (-8388607) ++ encode24 0) = none)
    ∧ (write_multichannel_24bit heap_ok ⟨NpyType.NPY_FLOAT32, [2, 2], sample_float_data⟩
          (PyArg.list [0, 1]) (PyArg.list [file_ok, file_ok])
        = some ⟨[⟨0, encode24 8388607 ++ encode24 4194303, none⟩,
              ⟨1, encode24 (-8388607) ++ encode24 0, none⟩], PyResult.ok 2⟩
      ∧ encode24 8388607 ++ encode24 4194303 = [255, 255, 127, 255, 255, 63]
      ∧ encode24 (-8388607) ++ encode24 0 = [1, 0, 128, 0, 0, 0]) :=
  ⟨⟨rfl, rfl, rfl, rfl, rfl⟩, C12_float_end_to_end heap_ok file_ok file_ok rfl rfl rfl rfl rfl⟩

/-- C13 as stated fails: the result of a call in which a call of `write` raises is the
exception raised, and nothing else. With `channel_indices = [0, 1]`, a call whose file
object at position 0 raises exception `7` and a call whose file object at position 1
raises exception `7` return the same error, although the failing position (0, resp. 1)
and the failing channel (0, resp. 1) differ. -/
theorem C13_counterexample :
    write_multichannel_24bit_int32 heap_ok ⟨NpyType.NPY_INT32, [2, 2], sample_int32_data⟩
        (PyArg.list [0, 1]) (PyArg.list [file_raising 7, file_ok])
      = some ⟨[⟨0, [1, 0, 0, 0, 1, 0], some 7⟩], PyResult.error (PyErr.raised 7)⟩
    ∧ write_multichannel_24bit_int32 heap_ok ⟨NpyType.NPY_INT32, [2, 2], sample_int32_data⟩
        (PyArg.list [0, 1]) (PyArg.list [file_ok, file_raising 7])
      = some ⟨[⟨0, [1, 0, 0, 0, 1, 0], none⟩, ⟨1, [255, 255, 255, 255, 255, 127], some 7⟩],
          PyResult.error (PyErr.raised 7)⟩ := by
  decide

/-- C13 (amended): when a call of `write`, at position `k`, raises in a call of either
entry point, the error returned is the exception raised by the file object at position `k`,
passed on unchanged; the call adds neither `k` nor the channel number to it, so two calls
in which the same exception is raised return the same error, wherever it was raised. -/
theorem C13_sink_error_passed_unchanged (F C : Nat) :
    (∀ (heap : Heap) (ty : NpyType) (data : Nat → F32) (clist : PyArg Int)
        (flist : PyArg FileObj) (o : Outcome) (c : WriteCall) (e : Nat),
        write_multichannel_24bit heap ⟨ty, [F, C], data⟩ clist flist = some o →
        c ∈ o.writes → c.exc = some e →
        o.result = PyResult.error (PyErr.raised e)
        ∧ ∃ (files : List FileObj) (f : FileObj), flist = PyArg.list files
            ∧ files[c.ch_idx]? = some f ∧ f.write c.payload = some e)
    ∧ (∀ (heap : Heap) (ty : NpyType) (data : Nat → Int) (clist : PyArg Int)
        (flist : PyArg FileObj) (o : Outcome) (c : WriteCall) (e : Nat),
        write_multichannel_24bit_int32 heap ⟨ty, [F, C], data⟩ clist flist = some o →
        c ∈ o.writes → c.exc = some e →
        o.result = PyResult.error (PyErr.raised e)
        ∧ ∃ (files : List FileObj) (f : FileObj), flist = PyArg.list files
            ∧ files[c.ch_idx]? = some f ∧ f.write c.payload = some e)
    ∧ (∀ (heap1 heap2 : Heap) (ty1 ty2 : NpyType) (d1 d2 : Nat → Int) (cl1 cl2 : PyArg Int)
        (fl1 fl2 : PyArg FileObj) (o1 o2 : Outcome) (c1 c2 : WriteCall) (e : Nat),
        write_multichannel_24bit_int32 heap1 ⟨ty1, [F, C], d1⟩ cl1 fl1 = some o1 →
        write_multichannel_24bit_int32 heap2 ⟨ty2, [F, C], d2⟩ cl2 fl2 = some o2 →
        c1 ∈ o1.writes → c2 ∈ o2.writes → c1.exc = some e → c2.exc = some e →
        o1.result = o2.result) := by
  refine ⟨?_, ?_, ?_⟩
  · intro heap ty data clist flist o c e h hc he
    obtain ⟨r1, r2, _⟩ := write_multichannel_fail_fast _ _ heap ty F C data clist flist o c e h hc he
    exact ⟨r1, r2⟩
  · intro heap ty data clist flist o c e h hc he
    obtain ⟨r1, r2, _⟩ := write_multichannel_fail_fast _ _ heap ty F C data clist flist o c e h hc he
    exact ⟨r1, r2⟩
  · intro heap1 heap2 ty1 ty2 d1 d2 cl1 cl2 fl1 fl2 o1 o2 c1 c2 e h1 h2 hc1 hc2 he1 he2
    rw [(write_multichannel_fail_fast _ _ heap1 ty1 F C d1 cl1 fl1 o1 c1 e h1 hc1 he1).1,
      (write_multichannel_fail_fast _ _ heap2 ty2 F C d2 cl2 fl2 o2 c2 e h2 hc2 he2).1]

/-- Witness for C13 (amended): the two calls of the counterexample. -/
theorem C13_sink_error_passed_unchanged_witness :
    (write_multichannel_24bit_int32 heap_ok ⟨NpyType.NPY_INT32, [2, 2], sample_int32_data⟩
        (PyArg.list [0, 1]) (PyArg.list [file_raising 7, file_ok])
      = some ⟨[⟨0, [1, 0, 0, 0, 1, 0], some 7⟩], PyResult.error (PyErr.raised 7)⟩
      ∧ write_multichannel_24bit_int32 heap_ok ⟨NpyType.NPY_INT32, [2, 2], sample_int32_data⟩
          (PyArg.list [0, 1]) (PyArg.list [file_ok, file_raising 7])
        = some ⟨[⟨0, [1, 0, 0, 0, 1, 0], none⟩, ⟨1, [255, 255, 255, 255, 255, 127], some 7⟩],
            PyResult.error (PyErr.raised 7)⟩)
    ∧ (PyResult.error (PyErr.raised 7) = PyResult.error (PyErr.raised 7)
      ∧ ∃ (files : List FileObj) (f : FileObj),
          PyArg.list [file_ok, file_raising 7] = PyArg.list files
          ∧ files[1]? = some f ∧ f.write [255, 255, 255, 255, 255, 127] = some 7)
    ∧ PyResult.error (PyErr.raised 7) = PyResult.error (PyErr.raised 7) :=
  ⟨⟨by decide, by decide⟩,
   (C13_sink_error_passed_unchanged 2 2).2.1 heap_ok NpyType.NPY_INT32 sample_int32_data
     (PyArg.list [0, 1]) (PyArg.list [file_ok, file_raising 7])
     ⟨[⟨0, [1, 0, 0, 0, 1, 0], none⟩, ⟨1, [255, 255, 255, 255, 255, 127], some 7⟩],
       PyResult.error (PyErr.raised 7)⟩
     ⟨1, [255, 255, 255, 255, 255, 127], some 7⟩ 7 (by decide) (by decide) rfl,
   (C13_sink_error_passed_unchanged 2 2).2.2 heap_ok heap_ok NpyType.NPY_INT32 NpyType.NPY_INT32
     sample_int32_data sample_int32_data (PyArg.list [0, 1]) (PyArg.list [0, 1])
     (PyArg.list [file_raising 7, file_ok]) (PyArg.list [file_ok, file_raising 7])
     ⟨[⟨0, [1, 0, 0, 0, 1, 0], some 7⟩], PyResult.error (PyErr.raised 7)⟩
     ⟨[⟨0, [1, 0, 0, 0, 1, 0], none⟩, ⟨1, [255, 255, 255, 255, 255, 127], some 7⟩],
       PyResult.error (PyErr.raised 7)⟩
     ⟨0, [1, 0, 0, 0, 1, 0], some 7⟩ ⟨1, [255, 255, 255, 255, 255, 127], some 7⟩ 7
     (by decide) (by decide) (by decide) (by decide) rfl rfl⟩

/-- C14: a channel index may occur at two positions `i` and `j` of `channel_indices`. A
call of either entry point on a buffer of shape `(F, C)` of its element type, with lists of
equal length, all indices in range, no failing allocation, each file object accepting the
payload of the channel at its position (and, for the float entry point, no NaN in the
selected columns) has an outcome: it returns `F`, no call of `write` raised, and the calls
of `write` at positions `i` and `j` carry the same bytes. -/
theorem C14_duplicate_indices_accepted (F C : Nat) (channels : List Int) (files : List FileObj)
    (i j : Nat) (k : Int) (hlen : channels.length = files.length)
    (hval : ∀ ch ∈ channels, 0 ≤ ch ∧ ch < C)
    (hi : channels[i]? = some k) (hj : channels[j]? = some k) :
    (∀ (heap : Heap) (data : Nat → F32),
        heap.malloc_ok = true → (∀ n, heap.bytes_ok n = true) →
        (∀ c : Nat, (c : Int) ∈ channels → ∀ f, f < F → data (f * C + c) ≠ F32.nan) →
        (∀ (n : Nat) (f : FileObj) (c : Nat) (p : List Nat), files[n]? = some f →
          channels[n]? = some (c : Int) → channel_payload float_to_24bit data C c F = some p →
          f.write p = none) →
        ∃ o, write_multichannel_24bit heap ⟨NpyType.NPY_FLOAT32, [F, C], data⟩
            (PyArg.list channels) (PyArg.list files) = some o
          ∧ o.result = PyResult.ok F ∧ (∀ c ∈ o.writes, c.exc = none)
          ∧ ∃ ci cj, o.writes[i]? = some ci ∧ o.writes[j]? = some cj
              ∧ ci.ch_idx = i ∧ cj.ch_idx = j ∧ ci.payload = cj.payload)
    ∧ (∀ (heap : Heap) (data : Nat → Int),
        heap.malloc_ok = true → (∀ n, heap.bytes_ok n = true) →
        (∀ (n : Nat) (f : FileObj) (c : Nat) (p : List Nat), files[n]? = some f →
          channels[n]? = some (c : Int) →
          channel_payload (fun sample => some (int32_to_24bit sample)) data C c F = some p →
          f.write p = none) →
        ∃ o, write_multichannel_24bit_int32 heap ⟨NpyType.NPY_INT32, [F, C], data⟩
            (PyArg.list channels) (PyArg.list files) = some o
          ∧ o.result = PyResult.ok F ∧ (∀ c ∈ o.writes, c.exc = none)
          ∧ ∃ ci cj, o.writes[i]? = some ci ∧ o.writes[j]? = some cj
              ∧ ci.ch_idx = i ∧ cj.ch_idx = j ∧ ci.payload = cj.payload) := by
  refine ⟨?_, ?_⟩
  · intro heap data hm hheap hnan hacc
    obtain ⟨o, h, _, _, hexc⟩ := write_multichannel_succeeds NpyType.NPY_FLOAT32 float_to_24bit
      heap F C data channels files hlen hm hheap hval
      (fun c hc => float_channel_payload_defined data F C c (hnan c hc)) hacc
    obtain ⟨r1, r2⟩ := write_multichannel_duplicates _ _ heap F C data channels files o i j k h
      hlen hm hheap hval hexc hi hj
    exact ⟨o, h, r1, hexc, r2⟩
  · intro heap data hm hheap hacc
    obtain ⟨o, h, _, _, hexc⟩ := write_multichannel_succeeds NpyType.NPY_INT32
      (fun sample => some (int32_to_24bit sample))
      heap F C data channels files hlen hm hheap hval
      (fun c _ => int32_channel_payload_defined data F C c) hacc
    obtain ⟨r1, r2⟩ := write_multichannel_duplicates _ _ heap F C data channels files o i j k h
      hlen hm hheap hval hexc hi hj
    exact ⟨o, h, r1, hexc, r2⟩

/-- Witness for C14: `channel_indices = [1, 0, 1]` on the buffers
`[[1.0, -1.0], [0.5, 0.0]]` and `[[1, -1], [256, 70000000]]`: both entry points return `2`
and positions 0 and 2 receive the same bytes. -/
theorem C14_duplicate_indices_accepted_witness :
    ([(1 : Int), 0, 1].length = [file_ok, file_ok, file_ok].length
      ∧ (∀ ch ∈ [(1 : Int), 0, 1], 0 ≤ ch ∧ ch < ((2 : Nat) : Int))
      ∧ [(1 : Int), 0, 1][0]? = some 1 ∧ [(1 : Int), 0, 1][2]? = some 1
      ∧ heap_ok.malloc_ok = true ∧ (∀ n, heap_ok.bytes_ok n = true)
      ∧ (∀ c : Nat, (c : Int) ∈ [(1 : Int), 0, 1] → ∀ f, f < 2 →
          sample_float_data (f * 2 + c) ≠ F32.nan))
    ∧ (∃ o, write_multichannel_24bit heap_ok ⟨NpyType.NPY_FLOAT32, [2, 2], sample_float_data⟩
          (PyArg.list [1, 0, 1]) (PyArg.list [file_ok, file_ok, file_ok]) = some o
        ∧ o.result = PyResult.ok 2 ∧ (∀ c ∈ o.writes, c.exc = none)
        ∧ ∃ ci cj, o.writes[0]? = some ci ∧ o.writes[2]? = some cj
            ∧ ci.ch_idx = 0 ∧ cj.ch_idx = 2 ∧ ci.payload = cj.payload)
    ∧ (∃ o, write_multichannel_24bit_int32 heap_ok
          ⟨NpyType.NPY_INT32, [2, 2], sample_int32_data⟩
          (PyArg.list [1, 0, 1]) (PyArg.list [file_ok, file_ok, file_ok]) = some o
        ∧ o.result = PyResult.ok 2 ∧ (∀ c ∈ o.writes, c.exc = none)
        ∧ ∃ ci cj, o.writes[0]? = some ci ∧ o.writes[2]? = some cj
            ∧ ci.ch_idx = 0 ∧ cj.ch_idx = 2 ∧ ci.payload = cj.payload)
    ∧ write_multichannel_24bit heap_ok ⟨NpyType.NPY_FLOAT32, [2, 2], sample_float_data⟩
        (PyArg.list [1, 0, 1]) (PyArg.list [file_ok, file_ok, file_ok])
      = some ⟨[⟨0, [1, 0, 128, 0, 0, 0], none⟩, ⟨1, [255, 255, 127, 255, 255, 63], none⟩,
            ⟨2, [1, 0, 128, 0, 0, 0], none⟩], PyResult.ok 2⟩
    ∧ write_multichannel_24bit_int32 heap_ok ⟨NpyType.NPY_INT32, [2, 2], sample_int32_data⟩
        (PyArg.list [1, 0, 1]) (PyArg.list [file_ok, file_ok, file_ok])
      = some ⟨[⟨0, [255, 255, 255, 255, 255, 127], none⟩, ⟨1, [1, 0, 0, 0, 1, 0], none⟩,
            ⟨2, [255, 255, 255, 255, 255, 127], none⟩], PyResult.ok 2⟩ := by
  have hall : ∀ f ∈ [file_ok, file_ok, file_ok], f = file_ok := by
    intro f hf
    simp only [List.mem_cons, List.mem_singleton, List.not_mem_nil, or_false, or_self] at hf
    exact hf
  have hnan : ∀ c : Nat, (c : Int) ∈ [(1 : Int), 0, 1] → ∀ f, f < 2 →
      sample_float_data (f * 2 + c) ≠ F32.nan := by
    intro c hc f hf
    have hc2 : c < 2 := by
      simp only [List.mem_cons, List.mem_singleton, List.not_mem_nil, or_false] at hc
      omega
    interval_cases c <;> interval_cases f <;> decide
  have hthm := C14_duplicate_indices_accepted 2 2 [1, 0, 1] [file_ok, file_ok, file_ok] 0 2 1
    (by decide) (by decide) (by decide) (by decide)
  exact ⟨⟨by decide, by decide, by decide, by decide, rfl, fun _ => rfl, hnan⟩,
    hthm.1 heap_ok sample_float_data rfl (fun _ => rfl) hnan
      (fun n f _ p hf _ _ => accepts_of_all_file_ok _ hall n f p hf),
    hthm.2 heap_ok sample_int32_data rfl (fun _ => rfl)
      (fun n f _ p hf _ _ => accepts_of_all_file_ok _ hall n f p hf),
    by decide, by decide⟩

/-- C15: the code does not do what the claim says when the first out-of-range index does
not fit a C `long`. With `channel_indices = [0, 2^64]` on two channels, `PyLong_AsLong`
yields `-1` for `2^64` and its failure is not tested, so both entry points fail with the
range error carrying `-1` and `2`, not the index `2^64`. -/
theorem C15_range_error_reports_minus_one :
    channel_longs (PyArg.list [PyItem.int 0, PyItem.int 18446744073709551616])
      = PyArg.list [0, -1]
    ∧ write_multichannel_24bit_int32 heap_ok ⟨NpyType.NPY_INT32, [2, 2], sample_int32_data⟩
        (channel_longs (PyArg.list [PyItem.int 0, PyItem.int 18446744073709551616]))
        (PyArg.list [file_ok, file_ok])
      = some ⟨[⟨0, [1, 0, 0, 0, 1, 0], none⟩],
          PyResult.error (PyErr.ValueError_invalid_channel (-1) 2)⟩
    ∧ write_multichannel_24bit heap_ok ⟨NpyType.NPY_FLOAT32, [2, 2], sample_float_data⟩
        (channel_longs (PyArg.list [PyItem.int 0, PyItem.int 18446744073709551616]))
        (PyArg.list [file_ok, file_ok])
      = some ⟨[⟨0, [255, 255, 127, 255, 255, 63], none⟩],
          PyResult.error (PyErr.ValueError_invalid_channel (-1) 2)⟩
    ∧ (18446744073709551616 : Int) ≠ -1 :=
  ⟨by rfl, by decide, by decide, by decide⟩

/-- C16: the float path writes, for a sample whose clamped, scaled and truncated value is
`v`, the three bytes the integer path writes for `v`; and a call of the float entry point
and a call of the integer entry point on buffers of the same shape (each of its own element
type), with the same heap, channel indices and file objects, the file objects behaving the
same whatever bytes they are given, end with the same result (the same frame count or the
same error) after calls of `write` at the same positions with the same numbers of bytes. -/
theorem C16_entry_points_pack_identically :
    (∀ (s : F32) (v : Int),
        F32.toInt32 (F32.mul (clamp_sample s) F32.c8388607) = some v →
        float_to_24bit s = some (int32_to_24bit v))
    ∧ (∀ (heap : Heap) (dims : List Nat) (dF : Nat → F32) (dI : Nat → Int) (clist : PyArg Int)
        (flist : PyArg FileObj) (oF oI : Outcome),
        (∀ files, flist = PyArg.list files → ∀ f ∈ files, payload_blind f) →
        write_multichannel_24bit heap ⟨NpyType.NPY_FLOAT32, dims, dF⟩ clist flist = some oF →
        write_multichannel_24bit_int32 heap ⟨NpyType.NPY_INT32, dims, dI⟩ clist flist
          = some oI →
        oF.result = oI.result ∧ oF.writes.map write_shape = oI.writes.map write_shape) :=
  ⟨float_to_24bit_eq_int32_to_24bit,
   fun heap dims dF dI clist flist oF oI hblind hF hI =>
     write_multichannel_sim _ _ _ _ heap dims dF dI clist flist oF oI hblind hF hI⟩

/-- Witness for C16: the sample `0.5`, whose value is `4194303`, and the two entry points
on buffers of shape `(2, 2)` with `channel_indices = [0, 1]`, the second file object
raising. -/
theorem C16_entry_points_pack_identically_witness :
    (F32.toInt32 (F32.mul (clamp_sample (F32.fin false 1 (-1))) F32.c8388607) = some 4194303
      ∧ float_to_24bit (F32.fin false 1 (-1)) = some (int32_to_24bit 4194303))
    ∧ ((∀ files, PyArg.list [file_ok, file_raising 7] = PyArg.list files →
          ∀ f ∈ files, payload_blind f)
      ∧ write_multichannel_24bit heap_ok ⟨NpyType.NPY_FLOAT32, [2, 2], sample_float_data⟩
          (PyArg.list [0, 1]) (PyArg.list [file_ok, file_raising 7])
        = some ⟨[⟨0, [255, 255, 127, 255, 255, 63], none⟩, ⟨1, [1, 0, 128, 0, 0, 0], some 7⟩],
            PyResult.error (PyErr.raised 7)⟩
      ∧ write_multichannel_24bit_int32 heap_ok ⟨NpyType.NPY_INT32, [2, 2], sample_int32_data⟩
          (PyArg.list [0, 1]) (PyArg.list [file_ok, file_raising 7])
        = some ⟨[⟨0, [1, 0, 0, 0, 1, 0], none⟩, ⟨1, [255, 255, 255, 255, 255, 127], some 7⟩],
            PyResult.error (PyErr.raised 7)⟩
      ∧ PyResult.error (PyErr.raised 7) = PyResult.error (PyErr.raised 7)
      ∧ [(⟨0, [255, 255, 127, 255, 255, 63], none⟩ : WriteCall),
            ⟨1, [1, 0, 128, 0, 0, 0], some 7⟩].map write_shape
          = [(⟨0, [1, 0, 0, 0, 1, 0], none⟩ : WriteCall),
              ⟨1, [255, 255, 255, 255, 255, 127], some 7⟩].map write_shape) :=
  have hblind : ∀ files, PyArg.list [file_ok, file_raising 7] = PyArg.list files →
      ∀ f ∈ files, payload_blind f := by
    intro files hf f hmem
    cases hf
    simp only [List.mem_cons, List.mem_singleton, List.not_mem_nil, or_false] at hmem
    rcases hmem with h | h <;> subst h <;> exact fun _ _ => rfl
  have hsim := C16_entry_points_pack_identically.2 heap_ok [2, 2] sample_float_data
    sample_int32_data (PyArg.list [0, 1]) (PyArg.list [file_ok, file_raising 7])
    ⟨[⟨0, [255, 255, 127, 255, 255, 63], none⟩, ⟨1, [1, 0, 128, 0, 0, 0], some 7⟩],
      PyResult.error (PyErr.raised 7)⟩
    ⟨[⟨0, [1, 0, 0, 0, 1, 0], none⟩, ⟨1, [255, 255, 255, 255, 255, 127], some 7⟩],
      PyResult.error (PyErr.raised 7)⟩ hblind (by decide) (by decide)
  ⟨⟨by decide, C16_entry_points_pack_identically.1 (F32.fin false 1 (-1)) 4194303 (by decide)⟩,
   hblind, by decide, by decide, hsim.1, hsim.2⟩

/-- C17: the range check is made per channel inside the channel loop. A call of either
entry point on a buffer of shape `(F, C)` of its element type, with lists of equal length,
whose first out-of-range channel index `bad` is at position `p` (after the `p` in-range
indices `pre`), in which no allocation fails and each file object before position `p`
accepts the payload of the channel at its position (and, for the float entry point, the
columns `pre` hold no NaN) has an outcome: it fails with the range error for `bad` after
exactly `p` calls of `write`, at positions `0 .. p-1`, none of which raised and each of
which carried the whole payload of its channel; nothing is written at position `p` or
later. And in every outcome of either entry point the positions written form an initial
segment `0, 1, ..., n-1` of the positions. -/
theorem C17_range_check_per_channel (F C : Nat) (pre post : List Int) (bad : Int)
    (hpre : ∀ ch ∈ pre, 0 ≤ ch ∧ ch < C) (hbad : bad < 0 ∨ bad ≥ C) :
    (∀ (heap : Heap) (data : Nat → F32) (files : List FileObj),
        (pre ++ bad :: post).length = files.length → heap.malloc_ok = true →
        (∀ n, heap.bytes_ok n = true) →
        (∀ c : Nat, (c : Int) ∈ pre → ∀ f, f < F → data (f * C + c) ≠ F32.nan) →
        (∀ (n : Nat) (f : FileObj) (c : Nat) (p : List Nat), files[n]? = some f →
          pre[n]? = some (c : Int) → channel_payload float_to_24bit data C c F = some p →
          f.write p = none) →
        ∃ o, write_multichannel_24bit heap ⟨NpyType.NPY_FLOAT32, [F, C], data⟩
            (PyArg.list (pre ++ bad :: post)) (PyArg.list files) = some o
          ∧ o.result = PyResult.error (PyErr.ValueError_invalid_channel bad C)
          ∧ o.writes.length = pre.length
          ∧ o.writes.map (fun w => w.ch_idx) = List.range pre.length
          ∧ ∀ c ∈ o.writes, c.exc = none ∧ c.payload.length = 3 * F
              ∧ ∃ k : Nat, pre[c.ch_idx]? = some (k : Int) ∧ k < C
                  ∧ channel_payload float_to_24bit data C k F = some c.payload)
    ∧ (∀ (heap : Heap) (data : Nat → Int) (files : List FileObj),
        (pre ++ bad :: post).length = files.length → heap.malloc_ok = true →
        (∀ n, heap.bytes_ok n = true) →
        (∀ (n : Nat) (f : FileObj) (c : Nat) (p : List Nat), files[n]? = some f →
          pre[n]? = some (c : Int) →
          channel_payload (fun sample => some (int32_to_24bit sample)) data C c F = some p →
          f.write p = none) →
        ∃ o, write_multichannel_24bit_int32 heap ⟨NpyType.NPY_INT32, [F, C], data⟩
            (PyArg.list (pre ++ bad :: post)) (PyArg.list files) = some o
          ∧ o.result = PyResult.error (PyErr.ValueError_invalid_channel bad C)
          ∧ o.writes.length = pre.length
          ∧ o.writes.map (fun w => w.ch_idx) = List.range pre.length
          ∧ ∀ c ∈ o.writes, c.exc = none ∧ c.payload.length = 3 * F
              ∧ ∃ k : Nat, pre[c.ch_idx]? = some (k : Int) ∧ k < C
                  ∧ channel_payload (fun sample => some (int32_to_24bit sample)) data C k F
                      = some c.payload)
    ∧ (∀ (heap : Heap) (ty : NpyType) (data : Nat → F32) (clist : PyArg Int)
        (flist : PyArg FileObj) (o : Outcome),
        write_multichannel_24bit heap ⟨ty, [F, C], data⟩ clist flist = some o →
        o.writes.map (fun w => w.ch_idx) = List.range o.writes.length)
    ∧ (∀ (heap : Heap) (ty : NpyType) (data : Nat → Int) (clist : PyArg Int)
        (flist : PyArg FileObj) (o : Outcome),
        write_multichannel_24bit_int32 heap ⟨ty, [F, C], data⟩ clist flist = some o →
        o.writes.map (fun w => w.ch_idx) = List.range o.writes.length) :=
  ⟨fun heap data files hlen hm hheap hnan hacc =>
     write_multichannel_range_error_produced _ _ F C pre post bad hpre hbad heap data files
       hlen hm hheap (fun c hc => float_channel_payload_defined data F C c (hnan c hc)) hacc,
   fun heap data files hlen hm hheap hacc =>
     write_multichannel_range_error_produced _ _ F C pre post bad hpre hbad heap data files
       hlen hm hheap (fun c _ => int32_channel_payload_defined data F C c) hacc,
   fun heap ty data clist flist o h =>
     write_multichannel_initial_segment _ _ heap ty F C data clist flist o h,
   fun heap ty data clist flist o h =>
     write_multichannel_initial_segment _ _ heap ty F C data clist flist o h⟩

/-- Witness for C17: `channel_indices = [1, 0, 2, 0]` on two channels, the first
out-of-range index at position 2, on the buffers `[[1.0, -1.0], [0.5, 0.0]]` and
`[[1, -1], [256, 70000000]]`: both entry points fail with the range error after the calls
of `write` at positions 0 and 1. -/
theorem C17_range_check_per_channel_witness :
    ((∀ ch ∈ [(1 : Int), 0], 0 ≤ ch ∧ ch < ((2 : Nat) : Int))
      ∧ ((2 : Int) < 0 ∨ (2 : Int) ≥ ((2 : Nat) : Int))
      ∧ ([(1 : Int), 0] ++ 2 :: [0]).length = [file_ok, file_ok, file_ok, file_ok].length
      ∧ heap_ok.malloc_ok = true ∧ (∀ n, heap_ok.bytes_ok n = true)
      ∧ (∀ c : Nat, (c : Int) ∈ [(1 : Int), 0] → ∀ f, f < 2 →
          sample_float_data (f * 2 + c) ≠ F32.nan))
    ∧ (∃ o, write_multichannel_24bit heap_ok ⟨NpyType.NPY_FLOAT32, [2, 2], sample_float_data⟩
          (PyArg.list ([1, 0] ++ 2 :: [0])) (PyArg.list [file_ok, file_ok, file_ok, file_ok])
          = some o
        ∧ o.result = PyResult.error (PyErr.ValueError_invalid_channel 2 ((2 : Nat) : Int))
        ∧ o.writes.length = [(1 : Int), 0].length
        ∧ o.writes.map (fun w => w.ch_idx) = List.range [(1 : Int), 0].length
        ∧ ∀ c ∈ o.writes, c.exc = none ∧ c.payload.length = 3 * 2
            ∧ ∃ k : Nat, [(1 : Int), 0][c.ch_idx]? = some (k : Int) ∧ k < 2
                ∧ channel_payload float_to_24bit sample_float_data 2 k 2 = some c.payload)
    ∧ (∃ o, write_multichannel_24bit_int32 heap_ok
          ⟨NpyType.NPY_INT32, [2, 2], sample_int32_data⟩
          (PyArg.list ([1, 0] ++ 2 :: [0])) (PyArg.list [file_ok, file_ok, file_ok, file_ok])
          = some o
        ∧ o.result = PyResult.error (PyErr.ValueError_invalid_channel 2 ((2 : Nat) : Int))
        ∧ o.writes.length = [(1 : Int), 0].length
        ∧ o.writes.map (fun w => w.ch_idx) = List.range [(1 : Int), 0].length
        ∧ ∀ c ∈ o.writes, c.exc = none ∧ c.payload.length = 3 * 2
            ∧ ∃ k : Nat, [(1 : Int), 0][c.ch_idx]? = some (k : Int) ∧ k < 2
                ∧ channel_payload (fun sample => some (int32_to_24bit sample))
                    sample_int32_data 2 k 2 = some c.payload)
    ∧ write_multichannel_24bit heap_ok ⟨NpyType.NPY_FLOAT32, [2, 2], sample_float_data⟩
        (PyArg.list ([1, 0] ++ 2 :: [0])) (PyArg.list [file_ok, file_ok, file_ok, file_ok])
      = some ⟨[⟨0, [1, 0, 128, 0, 0, 0], none⟩, ⟨1, [255, 255, 127, 255, 255, 63], none⟩],
          PyResult.error (PyErr.ValueError_invalid_channel 2 2)⟩
    ∧ write_multichannel_24bit_int32 heap_ok ⟨NpyType.NPY_INT32, [2, 2], sample_int32_data⟩
        (PyArg.list ([1, 0] ++ 2 :: [0])) (PyArg.list [file_ok, file_ok, file_ok, file_ok])
      = some ⟨[⟨0, [255, 255, 255, 255, 255, 127], none⟩, ⟨1, [1, 0, 0, 0, 1, 0], none⟩],
          PyResult.error (PyErr.ValueError_invalid_channel 2 2)⟩ := by
  have hall : ∀ f ∈ [file_ok, file_ok, file_ok, file_ok], f = file_ok := by
    intro f hf
    simp only [List.mem_cons, List.mem_singleton, List.not_mem_nil, or_false, or_self] at hf
    exact hf
  have hnan : ∀ c : Nat, (c : Int) ∈ [(1 : Int), 0] → ∀ f, f < 2 →
      sample_float_data (f * 2 + c) ≠ F32.nan := by
    intro c hc f hf
    have hc2 : c < 2 := by
      simp only [List.mem_cons, List.mem_singleton, List.not_mem_nil, or_false] at hc
      omega
    interval_cases c <;> interval_cases f <;> decide
  have hthm := C17_range_check_per_channel 2 2 [1, 0] [0] 2 (by decide) (by decide)
  exact ⟨⟨by decide, by decide, by decide, rfl, fun _ => rfl, hnan⟩,
    hthm.1 heap_ok sample_float_data [file_ok, file_ok, file_ok, file_ok] (by decide) rfl
      (fun _ => rfl) hnan (fun n f _ p hf _ _ => accepts_of_all_file_ok _ hall n f p hf),
    hthm.2.1 heap_ok sample_int32_data [file_ok, file_ok, file_ok, file_ok] (by decide) rfl
      (fun _ => rfl) (fun n f _ p hf _ _ => accepts_of_all_file_ok _ hall n f p hf),
    by decide, by decide⟩

/-- C18: the float path writes, for every sample that is not NaN, three bytes whose
decoded value lies in `[-8388607, 8388607]`; `-1.0` is written as `01 00 80`, which
decodes to `-8388607`; and the bytes `00 00 80` of `-8388608` never occur as a frame of a
payload handed to `write` by the float entry point. -/
theorem C18_float_range_symmetric :
    (∀ s : F32, s ≠ F32.nan →
        ∃ b, float_to_24bit s = some b ∧ -8388607 ≤ decode24 b ∧ decode24 b ≤ 8388607
          ∧ bytes3 b ≠ [0, 0, 128])
    ∧ float_to_24bit F32.negOne = some (1, 0, 128)
    ∧ decode24 (1, 0, 128) = -8388607
    ∧ decode24 (0, 0, 128) = -8388608
    ∧ (∀ (F C : Nat) (heap : Heap) (ty : NpyType) (data : Nat → F32) (clist : PyArg Int)
        (flist : PyArg FileObj) (o : Outcome) (c : WriteCall) (f : Nat),
        write_multichannel_24bit heap ⟨ty, [F, C], data⟩ clist flist = some o →
        c ∈ o.writes → f < F → frame_bytes c.payload f ≠ [0, 0, 128]) := by
  refine ⟨?_, by decide, by decide, by decide, ?_⟩
  · intro s hs
    obtain ⟨b, hb⟩ := float_to_24bit_defined s hs
    obtain ⟨h1, h2⟩ := float_to_24bit_range s b hb
    exact ⟨b, hb, h1, h2, bytes3_ne_min b h1⟩
  · intro F C heap ty data clist flist o c f h hc hf
    exact write_multichannel_24bit_never_min heap ty F C data clist flist o c f h hc hf

/-- Witness for C18: the sample minus infinity, and the frames of the payload of channel 1
of the buffer `[[1.0, -1.0], [0.5, 0.0]]`. -/
theorem C18_float_range_symmetric_witness :
    (F32.inf true ≠ F32.nan
      ∧ ∃ b, float_to_24bit (F32.inf true) = some b ∧ -8388607 ≤ decode24 b
          ∧ decode24 b ≤ 8388607 ∧ bytes3 b ≠ [0, 0, 128])
    ∧ (write_multichannel_24bit heap_ok ⟨NpyType.NPY_FLOAT32, [2, 2], sample_float_data⟩
          (PyArg.list [0, 1]) (PyArg.list [file_ok, file_ok])
        = some ⟨[⟨0, [255, 255, 127, 255, 255, 63], none⟩, ⟨1, [1, 0, 128, 0, 0, 0], none⟩],
            PyResult.ok 2⟩
      ∧ frame_bytes [1, 0, 128, 0, 0, 0] 0 ≠ [0, 0, 128]) :=
  ⟨⟨by decide, C18_float_range_symmetric.1 (F32.inf true) (by decide)⟩,
   by decide,
   C18_float_range_symmetric.2.2.2.2 2 2 heap_ok NpyType.NPY_FLOAT32 sample_float_data
     (PyArg.list [0, 1]) (PyArg.list [file_ok, file_ok])
     ⟨[⟨0, [255, 255, 127, 255, 255, 63], none⟩, ⟨1, [1, 0, 128, 0, 0, 0], none⟩],
       PyResult.ok 2⟩
     ⟨1, [1, 0, 128, 0, 0, 0], none⟩ 0 (by decide) (by decide) (by decide)⟩

/-- C19: with an empty `channel_indices` and an empty `file_objects`, on every buffer of
shape `(F, C)` (of the entry point's element type), when `malloc` does not fail, either
entry point returns `F` without any call of `write`; no sample is converted: the outcome is
the same for a conversion that is undefined on every sample. -/
theorem C19_empty_lists (F C : Nat) (heap : Heap) (hm : heap.malloc_ok = true) :
    (∀ data : Nat → F32,
        write_multichannel_24bit heap ⟨NpyType.NPY_FLOAT32, [F, C], data⟩ (PyArg.list [])
          (PyArg.list [])
        = some ⟨[], PyResult.ok F⟩)
    ∧ (∀ data : Nat → Int,
        write_multichannel_24bit_int32 heap ⟨NpyType.NPY_INT32, [F, C], data⟩ (PyArg.list [])
          (PyArg.list [])
        = some ⟨[], PyResult.ok F⟩)
    ∧ (∀ (expected : NpyType) (data : Nat → F32),
        write_multichannel expected (fun _ => none) heap ⟨expected, [F, C], data⟩
          (PyArg.list []) (PyArg.list [])
        = some ⟨[], PyResult.ok F⟩) :=
  ⟨fun data => write_multichannel_empty _ _ heap F C data hm,
   fun data => write_multichannel_empty _ _ heap F C data hm,
   fun expected data => write_multichannel_empty expected _ heap F C data hm⟩

/-- Witness for C19: a buffer of shape `(2, 2)` and a buffer without frames, of shape
`(0, 2)`. -/
theorem C19_empty_lists_witness :
    heap_ok.malloc_ok = true
    ∧ write_multichannel_24bit heap_ok ⟨NpyType.NPY_FLOAT32, [2, 2], sample_float_data⟩
        (PyArg.list []) (PyArg.list [])
      = some ⟨[], PyResult.ok 2⟩
    ∧ write_multichannel_24bit_int32 heap_ok ⟨NpyType.NPY_INT32, [0, 2], sample_int32_data⟩
        (PyArg.list []) (PyArg.list [])
      = some ⟨[], PyResult.ok 0⟩ :=
  ⟨rfl, (C19_empty_lists 2 2 heap_ok rfl).1 sample_float_data,
   (C19_empty_lists 0 2 heap_ok rfl).2.1 sample_int32_data⟩

end AudioWriter
